import Mathlib

/-!
# Device session engine: admission, eviction, revocation, reconciliation

A shallow embedding of the session engine of the repository
(`src/actions/auth.action.js`, `src/actions/session.action.js`,
`src/models/session.model.js`, `src/actions/user.action.js`), of its token service
(`src/providers/jwt.provider.js`, `src/transformers/jwt-error.transformer.js`,
`src/utils/codegen.util.js`) and of the renewal guard
(`src/middlewears/refresh-token-guard.middlewear.js`).

* The two collections (`Session`, `User`) are lists of documents in store order.
* A MongoDB transaction is a working copy of the database: operations that carry
  the transaction session act on the copy, `commitTransaction` installs the copy,
  `abortTransaction` discards it.  A helper that opens a transaction of its own
  commits into the database on its own.
* Every awaited driver call may reject.  `Faults` says, per call site, whether it
  does; schema validation and the unique index are modelled explicitly.
* Timestamps are integer milliseconds; `null` dates are `none`.
-/

namespace SessionEngine

abbrev UserId := Nat
abbrev DeviceID := String
abbrev Timestamp := Int

/-- A document of the `Session` collection (`schemaRules` of `session.model.js`). -/
structure SessionRecord where
  id : Nat
  user : UserId
  device : DeviceID
  deviceAgent : String
  ip : String
  accessToken : String
  refreshToken : String
  platform : String
  loginAt : Option Timestamp
  logoutAt : Option Timestamp
  createdAt : Option Timestamp
  deriving DecidableEq, Repr

/-- The part of a `User` document the engine reads or writes; `sessions` is the
`Map<device, deviceAgent>` in insertion order. -/
structure UserDoc where
  id : UserId
  phone : String
  email : Option String
  emailVerifiedAt : Option Timestamp
  forSystem : Bool
  expertEnrolledAt : Option Timestamp
  sessions : List (DeviceID × String)
  deriving DecidableEq, Repr

/-- The database: both collections and the ObjectId generator of `Session`. -/
structure Db where
  sessions : List SessionRecord
  users : List UserDoc
  nextId : Nat
  deriving DecidableEq, Repr

/-- Call sites at which the driver / ODM may reject. -/
inductive Step where
  | mpaFindAccount | mpaFindDevice | mpaRevokeDelete | mpaCreate | mpaIndexSet
  | mpaUpdate | mpaCreateFallback | mpaUserUpdate | mpaCommit
  | lidFind | lidDelete | lidFindUser | lidSave | lidCommit
  | oisFind | oisDelete | oisFindUser | oisSave | oisCommit
  | radFindUser | radDelete | radFindSessions | radUserUpdate | radCommit
  | tsFind | tsDelete | tsFindUser | tsSave | tsCommit
  | tusDeleteMany | tusFindUser | tusSave | tusCommit
  | tdsDelete | tdsFindUser | tdsSave | tdsCommit
  | vusFindUser | vusFindSessions | vusSave | vusCommit
  | rasUpdate
  deriving DecidableEq, Repr

/-- Which call sites reject in a given run. -/
abbrev Faults := Step → Bool

/-- No call site rejects. -/
def noFaults : Faults := fun _ => false

/-- Errors that reach the caller. -/
inductive Err where
  | api (message : String) (code : String)
  | typeError
  | referenceError
  | validation
  | duplicateKey
  | plain (message : String)
  | store (step : Step)
  deriving DecidableEq, Repr

deriving instance DecidableEq for Except

/-- The static `SessionModel.limit`. -/
def SessionModel.limit : Nat := 5

/-- Twenty-four hours in milliseconds. -/
def dayMs : Int := 24 * 60 * 60 * 1000

/-- The cut-off `oneDayAgo` computed from `new Date()` by `setHours(getHours() - 24)`
(no offset change of the server zone inside the window). -/
def oneDayAgo (now : Timestamp) : Timestamp := now - dayMs

/-! ## JavaScript `Map` -/

def mapHas (m : List (DeviceID × String)) (d : DeviceID) : Bool :=
  m.any (fun e => e.1 == d)

def mapDelete (m : List (DeviceID × String)) (d : DeviceID) : List (DeviceID × String) :=
  m.filter (fun e => !(e.1 == d))

def mapSet (m : List (DeviceID × String)) (d : DeviceID) (a : String) :
    List (DeviceID × String) :=
  if mapHas m d then m.map (fun e => if e.1 == d then (d, a) else e) else m ++ [(d, a)]

def mapKeys (m : List (DeviceID × String)) : List DeviceID :=
  m.map (fun e => e.1)

def mapSize (m : List (DeviceID × String)) : Nat := m.length

/-! ## Collection primitives -/

/-- The BSON order on `loginAt` used by `sort({ loginAt: 1 })`: `null` first. -/
def loginAtLt : Option Timestamp → Option Timestamp → Bool
  | none, none => false
  | none, some _ => true
  | some _, none => false
  | some a, some b => decide (a < b)

/-- The document `findOne(..).sort({ loginAt: 1 })` returns among `l`: one with a least
`loginAt`.  MongoDB fixes no order among documents with equal `loginAt`; this
definition takes the first such in list order (see `findOneSortedByLoginAt` for the
other orders a store may use). -/
def oldestFirst : List SessionRecord → Option SessionRecord
  | [] => none
  | s :: rest =>
    match oldestFirst rest with
    | none => some s
    | some t => if loginAtLt t.loginAt s.loginAt then some t else some s

/-- The filter `{ user, loginAt: { $lt: cut } }`. -/
def olderThan (owner : UserId) (cut : Timestamp) (s : SessionRecord) : Bool :=
  s.user == owner &&
    (match s.loginAt with
     | none => false
     | some t => decide (t < cut))

/-- The filter `{ user, device }`. -/
def isDeviceOf (owner : UserId) (d : DeviceID) (s : SessionRecord) : Bool :=
  s.user == owner && s.device == d

def findUserById (us : List UserDoc) (i : UserId) : Option UserDoc :=
  us.find? (fun u => u.id == i)

/-- Write `f` to the first user document with the given id. -/
def updateUserById (i : UserId) (f : UserDoc → UserDoc) : List UserDoc → List UserDoc
  | [] => []
  | u :: rest => if u.id == i then f u :: rest else u :: updateUserById i f rest

/-- The effect of `user.save()` after the `sessions` map was changed. -/
def saveUserSessions (us : List UserDoc) (i : UserId) (m : List (DeviceID × String)) :
    List UserDoc :=
  updateUserById i (fun u => { u with sessions := m }) us

/-! ## Eviction helpers (each in a transaction of its own) -/

/-- Model of `findAndRemoveLastInactiveDevice` (`auth.action.js`). -/
def findAndRemoveLastInactiveDevice (f : Faults) (now : Timestamp) (db : Db)
    (deviceOwner : UserId) : Except Err (Option SessionRecord) × Db :=
  if f .lidFind then (.error (.store .lidFind), db) else
  match oldestFirst (db.sessions.filter (olderThan deviceOwner (oneDayAgo now))) with
  | some longestInactiveSession =>
    if f .lidDelete then (.error (.store .lidDelete), db) else
    let sessions := db.sessions.eraseP (fun s => s.id == longestInactiveSession.id)
    if f .lidFindUser then (.error (.store .lidFindUser), db) else
    match findUserById db.users deviceOwner with
    | none => (.error (.api "User not found." "RESOURCE_NOT_FOUND"), db)
    | some user =>
      let index := mapDelete user.sessions longestInactiveSession.device
      if f .lidSave then (.error (.store .lidSave), db) else
      if f .lidCommit then (.error (.store .lidCommit), db) else
      (.ok (some longestInactiveSession),
        { db with sessions := sessions, users := saveUserSessions db.users deviceOwner index })
  | none =>
    if f .lidCommit then (.error (.store .lidCommit), db) else (.ok none, db)

/-- Model of `SessionModel.findAndRemoveOldestInactiveSession` (`session.model.js`). -/
def findAndRemoveOldestInactiveSession (f : Faults) (db : Db) (userId : UserId) :
    Except Err (Option SessionRecord) × Db :=
  if f .oisFind then (.error (.store .oisFind), db) else
  match oldestFirst (db.sessions.filter (fun s => s.user == userId)) with
  | some oldestSession =>
    if f .oisDelete then (.error (.store .oisDelete), db) else
    let sessions := db.sessions.eraseP (fun s => s.id == oldestSession.id)
    if f .oisFindUser then (.error (.store .oisFindUser), db) else
    match findUserById db.users userId with
    | none => (.error (.plain "User not found"), db)
    | some user =>
      let index := mapDelete user.sessions oldestSession.device
      if f .oisSave then (.error (.store .oisSave), db) else
      if f .oisCommit then (.error (.store .oisCommit), db) else
      (.ok (some oldestSession),
        { db with sessions := sessions, users := saveUserSessions db.users userId index })
  | none =>
    if f .oisCommit then (.error (.store .oisCommit), db) else (.ok none, db)

/-! ## Token issuing and session data -/

/-- The payload handed to the signer by `generateAuthTokens`. -/
structure TokenPayload where
  identity : UserId
  platform : String
  forSystem : Bool
  device : DeviceID
  deriving DecidableEq, Repr

/-- A `JwtService` instance seen from the engine: its two signing methods. -/
structure JwtEnv where
  signAccess : TokenPayload → String
  signRefresh : TokenPayload → String

structure TokenData where
  identity : UserId
  platform : String
  accessToken : String
  refreshToken : String
  device : DeviceID
  deriving DecidableEq, Repr

/-- Model of `generateAuthTokens`. -/
def generateAuthTokens (jwt : JwtEnv) (identity : UserId) (platform : String)
    (forSystem : Bool) (device : DeviceID) : TokenData :=
  let tokenPayload : TokenPayload :=
    { identity := identity, platform := platform, forSystem := forSystem, device := device }
  { identity := identity, platform := platform,
    accessToken := jwt.signAccess tokenPayload,
    refreshToken := jwt.signRefresh tokenPayload,
    device := device }

/-- The `profileData` object as `manageProfileAccount` reads it; `assignEmail` and
`assignPhone` are used for their truthiness only. -/
structure ProfileData where
  device : DeviceID
  deviceAgent : String
  ip : String
  platform : String
  phone : Option String
  email : Option String
  currentutc : Timestamp
  revokeDeviceSession : Option DeviceID
  assignEmail : Bool
  assignPhone : Bool
  deriving DecidableEq, Repr

/-- The object `sessionMeta`; the last four fields are present only when it was
built with `create = true`. -/
structure SessionMeta where
  deviceAgent : String
  ip : String
  loginAt : Timestamp
  accessToken : String
  refreshToken : String
  device : Option DeviceID
  platform : Option String
  user : Option UserId
  createdAt : Option Timestamp
  deriving DecidableEq, Repr

/-- Model of `getSessionData`. -/
def getSessionData (jwt : JwtEnv) (owner : UserId) (profileData : ProfileData)
    (forSystem : Bool) (create : Bool) : SessionMeta :=
  let tokenData := generateAuthTokens jwt owner profileData.platform forSystem profileData.device
  { deviceAgent := profileData.deviceAgent,
    ip := profileData.ip,
    loginAt := profileData.currentutc,
    accessToken := tokenData.accessToken,
    refreshToken := tokenData.refreshToken,
    device := if create then some profileData.device else none,
    platform := if create then some profileData.platform else none,
    user := if create then some owner else none,
    createdAt := if create then some profileData.currentutc else none }

/-- The response object `authPayload`. -/
structure AuthPayload where
  identity : UserId
  accessToken : String
  refreshToken : String
  session : Nat
  device : DeviceID
  type : List String
  deriving DecidableEq, Repr

/-- JavaScript truthiness of a string-or-null value. -/
def truthyStr : Option String → Bool
  | none => false
  | some s => !(s == "")

/-- The virtual `type` of a user document. -/
def userType (u : UserDoc) : List String :=
  [if u.forSystem then "USER" else "CLIENT"] ++
    (match u.expertEnrolledAt with
     | some _ => ["EXPERT"]
     | none => [])

/-! ## Schema of `Session`: setters, validators, unique index -/

/-- The values of `Platform.getAllModes()`. -/
def platformModes : List String := ["PANEL", "APP", "WEB"]

def isSpace (c : Char) : Bool :=
  c == ' ' || c == '\t' || c == '\n' || c == '\r'

/-- The setters `trim: true, uppercase: true` of the `platform` path. -/
def castPlatform (s : String) : String :=
  String.mk ((((s.data.dropWhile isSpace).reverse.dropWhile isSpace).reverse).map Char.toUpper)

/-- The `required` validator of a string path. -/
def requiredStr (s : String) : Bool := !(s == "")

/-- Document validation run by `SessionModel.create`. -/
def validNewSession (m : SessionMeta) : Bool :=
  m.user.isSome &&
  (match m.device with
   | some d => requiredStr d
   | none => false) &&
  requiredStr m.deviceAgent && requiredStr m.ip &&
  requiredStr m.accessToken && requiredStr m.refreshToken &&
  (match m.platform with
   | some p => platformModes.contains (castPlatform p)
   | none => false)

/-- Update validators (`runValidators: true` is set by the schema plugin): only the
paths present in the update are validated. -/
def validSessionUpdate (m : SessionMeta) : Bool :=
  (match m.device with
   | some d => requiredStr d
   | none => true) &&
  requiredStr m.deviceAgent && requiredStr m.ip &&
  requiredStr m.accessToken && requiredStr m.refreshToken &&
  (match m.platform with
   | some p => platformModes.contains (castPlatform p)
   | none => true)

/-- The document `SessionModel.create([sessionMeta])` inserts once validated. -/
def newSessionRecord (id : Nat) (m : SessionMeta) : SessionRecord :=
  { id := id,
    user := m.user.getD 0,
    device := m.device.getD "",
    deviceAgent := m.deviceAgent,
    ip := m.ip,
    accessToken := m.accessToken,
    refreshToken := m.refreshToken,
    platform := castPlatform (m.platform.getD ""),
    loginAt := some m.loginAt,
    logoutAt := none,
    createdAt := m.createdAt }

/-- Model of `SessionModel.create([sessionMeta], { session })` on the working copy:
validation, then insertion under the unique index `unique_user_session`. -/
def SessionModel.create (w : Db) (m : SessionMeta) : Except Err (SessionRecord × Db) :=
  if !validNewSession m then .error .validation else
  let doc := newSessionRecord w.nextId m
  if w.sessions.any (isDeviceOf doc.user doc.device) then .error .duplicateKey else
  .ok (doc, { w with sessions := w.sessions ++ [doc], nextId := w.nextId + 1 })

/-- The `$set` of `sessionMeta` on a matched document. -/
def applySessionMeta (m : SessionMeta) (s : SessionRecord) : SessionRecord :=
  { s with
    deviceAgent := m.deviceAgent,
    ip := m.ip,
    loginAt := some m.loginAt,
    accessToken := m.accessToken,
    refreshToken := m.refreshToken,
    device := m.device.getD s.device,
    platform := (m.platform.map castPlatform).getD s.platform,
    user := m.user.getD s.user,
    createdAt := (match m.createdAt with
      | some c => some c
      | none => s.createdAt) }

/-- Write `g` to the first session document matching `p`. -/
def updateOneSession (p : SessionRecord → Bool) (g : SessionRecord → SessionRecord) :
    List SessionRecord → List SessionRecord
  | [] => []
  | s :: rest => if p s then g s :: rest else s :: updateOneSession p g rest

/-- Model of `SessionModel.findOneAndUpdate({ device, user }, sessionMeta, { new: true })`
on the working copy: the updated document, or `null` when nothing matches. -/
def SessionModel.findOneAndUpdate (w : Db) (owner : UserId) (device : DeviceID)
    (m : SessionMeta) : Except Err (Option SessionRecord × Db) :=
  if !validSessionUpdate m then .error .validation else
  match w.sessions.find? (isDeviceOf owner device) with
  | none => .ok (none, w)
  | some s =>
    .ok (some (applySessionMeta m s),
      { w with sessions := updateOneSession (isDeviceOf owner device) (applySessionMeta m) w.sessions })

/-! ## Login: `manageProfileAccount` -/

/-- Model of `getAccountProfile`. -/
def getAccountProfile (db : Db) (contact : Option String) (mode : Bool) : Option UserDoc :=
  if mode then db.users.find? (fun u => some u.phone == contact)
  else db.users.find? (fun u => u.email == contact)

/-- Model of `validSessionDevice`. -/
def validSessionDevice (db : Db) (owner : UserId) (device : DeviceID) : Option SessionRecord :=
  db.sessions.find? (isDeviceOf owner device)

/-- The account lookup at the head of `manageProfileAccount` (`auth.action.js`, lines
187-202), with the conflict check of the phone branch, whose error object reads the
unbound name `contact`.  An account that is not found makes `profileAccount.sessions`
(or `profileAccount.email`) a property access on `null`. -/
def mpaAccount (db : Db) (pd : ProfileData) : Except Err UserDoc :=
  if truthyStr pd.phone then
    match getAccountProfile db pd.phone true with
    | none => .error .typeError
    | some profileAccount =>
      if pd.assignEmail && truthyStr profileAccount.email then .error .referenceError
      else .ok profileAccount
  else
    match getAccountProfile db pd.email false with
    | none => .error .typeError
    | some profileAccount => .ok profileAccount

/-- The prospective count (lines 209-211): `size`, minus one when a device is revoked,
plus one for a new device. -/
def prospectiveCount (deviceSession : List (DeviceID × String)) (revoke : Bool)
    (newDevice : Bool) : Int :=
  (mapSize deviceSession : Int) - (if revoke then 1 else 0) + (if newDevice then 1 else 0)

/-- The device-limit branch (lines 232-249): policy P1, then P2, each committing on
its own. -/
def mpaEvict (f : Faults) (now : Timestamp) (db : Db) (owner : UserId) :
    Except Err SessionRecord × Db :=
  match findAndRemoveLastInactiveDevice f now db owner with
  | (.error e, db1) => (.error e, db1)
  | (.ok (some removedSession), db1) => (.ok removedSession, db1)
  | (.ok none, db1) =>
    match findAndRemoveOldestInactiveSession f db1 owner with
    | (.error e, db2) => (.error e, db2)
    | (.ok (some removedSession), db2) => (.ok removedSession, db2)
    | (.ok none, db2) =>
      (.error (.api "Unable to manage sessions. Please try again." "RESOURCE_NOT_FOUND"), db2)

/-- The admission step of `manageProfileAccount` (lines 231-252): when no device is
revoked and the prospective count exceeds the limit, evict and drop the evicted
device from the in-memory map.  Returns the in-memory map and the committed
database. -/
def mpaAdmit (f : Faults) (now : Timestamp) (db : Db) (owner : UserId)
    (deviceSession : List (DeviceID × String)) (revoke : Bool) (count : Int) :
    Except Err (List (DeviceID × String)) × Db :=
  if !revoke && decide (count > (SessionModel.limit : Int)) then
    match mpaEvict f now db owner with
    | (.error e, db1) => (.error e, db1)
    | (.ok removedSession, db1) => (.ok (mapDelete deviceSession removedSession.device), db1)
  else (.ok deviceSession, db)

/-- The revoke step on the working copy (lines 255-258):
`findOneAndDelete({ user, device })` with the transaction session, and
`deviceSession.delete`. -/
def mpaRevoke (f : Faults) (w : Db) (owner : UserId) (deviceSession : List (DeviceID × String))
    (pd : ProfileData) : Except Err (Db × List (DeviceID × String)) :=
  match pd.revokeDeviceSession with
  | some r =>
    if truthyStr (some r) then
      if f .mpaRevokeDelete then .error (.store .mpaRevokeDelete)
      else .ok ({ w with sessions := w.sessions.eraseP (isDeviceOf owner r) },
                mapDelete deviceSession r)
    else .ok (w, deviceSession)
  | none => .ok (w, deviceSession)

/-- The create-or-update step on the working copy (lines 261-283); returns
`accountSession`, which is never `null` here, so the check of lines 288-297 passes. -/
def mpaUpsert (f : Faults) (w : Db) (owner : UserId) (newDevice : Bool)
    (sessionMeta : SessionMeta) (pd : ProfileData) : Except Err (SessionRecord × Db) :=
  if newDevice then
    if f .mpaCreate then .error (.store .mpaCreate)
    else SessionModel.create w sessionMeta
  else
    if f .mpaUpdate then .error (.store .mpaUpdate) else
    match SessionModel.findOneAndUpdate w owner pd.device sessionMeta with
    | .error e => .error e
    | .ok (some s, w1) => .ok (s, w1)
    | .ok (none, w1) =>
      if f .mpaCreateFallback then .error (.store .mpaCreateFallback)
      else SessionModel.create w1 sessionMeta

/-- The setters `lowercase: true, trim: true` of the `email` path of `User`. -/
def castEmail (s : String) : String :=
  String.mk ((((s.data.dropWhile isSpace).reverse.dropWhile isSpace).reverse).map Char.toLower)

/-- The object `accountMeta` applied to the user document. -/
def applyAccountMeta (pd : ProfileData) (deviceSession : List (DeviceID × String))
    (u : UserDoc) : UserDoc :=
  if pd.assignEmail || pd.assignPhone then
    { u with sessions := deviceSession, email := pd.email.map castEmail,
             emailVerifiedAt := some pd.currentutc }
  else { u with sessions := deviceSession }

/-- The index step on the working copy (lines 266, 285, 299-310):
`deviceSession.set(device, deviceAgent)` and
`UserModel.findByIdAndUpdate(owner, accountMeta)`. -/
def mpaIndexUpdate (f : Faults) (w : Db) (owner : UserId)
    (deviceSession : List (DeviceID × String)) (pd : ProfileData) : Except Err Db :=
  if f .mpaIndexSet then .error (.store .mpaIndexSet) else
  let deviceSession1 := mapSet deviceSession pd.device pd.deviceAgent
  if f .mpaUserUpdate then .error (.store .mpaUserUpdate) else
  .ok { w with users := updateUserById owner (applyAccountMeta pd deviceSession1) w.users }

/-- The writes of `manageProfileAccount` that carry the transaction session, on the
working copy `w`: optional revoke, create or update of the requesting device, and
the update of the user document.  Returns `accountSession` and the working copy. -/
def mpaWrite (f : Faults) (w : Db) (owner : UserId) (deviceSession : List (DeviceID × String))
    (newDevice : Bool) (sessionMeta : SessionMeta) (pd : ProfileData) :
    Except Err (SessionRecord × Db) :=
  match mpaRevoke f w owner deviceSession pd with
  | .error e => .error e
  | .ok (w1, deviceSession1) =>
    match mpaUpsert f w1 owner newDevice sessionMeta pd with
    | .error e => .error e
    | .ok (accountSession, w2) =>
      match mpaIndexUpdate f w2 owner deviceSession1 pd with
      | .error e => .error e
      | .ok w3 => .ok (accountSession, w3)

/-- The end of the transaction (lines 315-335): abort on an error, else build the
response and commit the working copy. -/
def mpaFinish (f : Faults) (db1 : Db) (profileAccount : UserDoc) (pd : ProfileData)
    (r : Except Err (SessionRecord × Db)) : Except Err AuthPayload × Db :=
  match r with
  | .error e => (.error e, db1)
  | .ok (accountSession, w) =>
    if f .mpaCommit then (.error (.store .mpaCommit), db1) else
    (.ok { identity := profileAccount.id,
           accessToken := accountSession.accessToken,
           refreshToken := accountSession.refreshToken,
           session := accountSession.id,
           device := pd.device,
           type := userType profileAccount }, w)

/-- Model of `manageProfileAccount`: the result for the caller and the database
left behind. -/
def manageProfileAccount (f : Faults) (jwt : JwtEnv) (now : Timestamp) (db : Db)
    (pd : ProfileData) : Except Err AuthPayload × Db :=
  if f .mpaFindAccount then (.error (.store .mpaFindAccount), db) else
  match mpaAccount db pd with
  | .error e => (.error e, db)
  | .ok profileAccount =>
    let owner := profileAccount.id
    let deviceSession := profileAccount.sessions
    let newDevice := !mapHas deviceSession pd.device
    if f .mpaFindDevice then (.error (.store .mpaFindDevice), db) else
    let invalidDevice := (validSessionDevice db owner pd.device).isNone
    let sessionMeta := getSessionData jwt owner pd profileAccount.forSystem invalidDevice
    let revoke := truthyStr pd.revokeDeviceSession
    let count := prospectiveCount deviceSession revoke newDevice
    if revoke && !mapHas deviceSession (pd.revokeDeviceSession.getD "") then
      (.error (.api "No device session found." "RESOURCE_NOT_FOUND"), db)
    else
      match mpaAdmit f now db owner deviceSession revoke count with
      | (.error e, db1) => (.error e, db1)
      | (.ok deviceSession1, db1) =>
        mpaFinish f db1 profileAccount pd
          (mpaWrite f db1 owner deviceSession1 newDevice sessionMeta pd)

/-! ## Revocation: `revokeAuthDevice` -/

/-- Model of `revokeAuthDevice`: the returned map and the database left behind. -/
def revokeAuthDevice (f : Faults) (db : Db) (deviceOwner : UserId) (device : DeviceID) :
    Except Err (List (DeviceID × String)) × Db :=
  if f .radFindUser then (.error (.store .radFindUser), db) else
  match findUserById db.users deviceOwner with
  | none => (.error (.api "Invalid device owner." "RESOURCE_NOT_FOUND"), db)
  | some account =>
    if f .radDelete then (.error (.store .radDelete), db) else
    if !db.sessions.any (isDeviceOf deviceOwner device) then
      (.error (.api "Device not found or already revoked." "RESOURCE_NOT_FOUND"), db)
    else
      let sessions := db.sessions.eraseP (isDeviceOf deviceOwner device)
      let deviceSessions :=
        if mapHas account.sessions device then mapDelete account.sessions device
        else account.sessions
      let userDevices := mapKeys deviceSessions
      if f .radFindSessions then (.error (.store .radFindSessions), db) else
      let actualSessions := sessions.filter (fun s => s.user == deviceOwner)
      let validDevices := actualSessions.map (fun s => s.device)
      let invalidDevices := userDevices.filter (fun d => !validDevices.contains d)
      let deviceSessions1 := invalidDevices.foldl mapDelete deviceSessions
      if f .radUserUpdate then (.error (.store .radUserUpdate), db) else
      if f .radCommit then (.error (.store .radCommit), db) else
      (.ok deviceSessions1,
        { db with sessions := sessions,
                  users := saveUserSessions db.users deviceOwner deviceSessions1 })

/-! ## Termination: `session.action.js` -/

/-- Model of `terminateSession`. -/
def terminateSession (f : Faults) (db : Db) (sessionId : Nat) : Except Err Bool × Db :=
  if f .tsFind then (.error (.store .tsFind), db) else
  match db.sessions.find? (fun s => s.id == sessionId) with
  | none => (.ok false, db)
  | some sessionDoc =>
    if f .tsDelete then (.error (.store .tsDelete), db) else
    let sessions := db.sessions.eraseP (fun s => s.id == sessionId)
    if f .tsFindUser then (.error (.store .tsFindUser), db) else
    match findUserById db.users sessionDoc.user with
    | some user =>
      if mapHas user.sessions sessionDoc.device then
        if f .tsSave then (.error (.store .tsSave), db) else
        if f .tsCommit then (.error (.store .tsCommit), db) else
        (.ok true,
          { db with sessions := sessions,
                    users := saveUserSessions db.users sessionDoc.user
                      (mapDelete user.sessions sessionDoc.device) })
      else
        if f .tsCommit then (.error (.store .tsCommit), db) else
        (.ok true, { db with sessions := sessions })
    | none =>
      if f .tsCommit then (.error (.store .tsCommit), db) else
      (.ok true, { db with sessions := sessions })

/-- Model of `terminateUserSessions`: the deleted count and the database left behind. -/
def terminateUserSessions (f : Faults) (db : Db) (userId : UserId) : Except Err Nat × Db :=
  if f .tusDeleteMany then (.error (.store .tusDeleteMany), db) else
  let deletedCount := (db.sessions.filter (fun s => s.user == userId)).length
  let sessions := db.sessions.filter (fun s => !(s.user == userId))
  if f .tusFindUser then (.error (.store .tusFindUser), db) else
  match findUserById db.users userId with
  | some _ =>
    if f .tusSave then (.error (.store .tusSave), db) else
    if f .tusCommit then (.error (.store .tusCommit), db) else
    (.ok deletedCount,
      { db with sessions := sessions, users := saveUserSessions db.users userId [] })
  | none =>
    if f .tusCommit then (.error (.store .tusCommit), db) else
    (.ok deletedCount, { db with sessions := sessions })

/-- Model of `terminateDeviceSession`. -/
def terminateDeviceSession (f : Faults) (db : Db) (userId : UserId) (device : DeviceID) :
    Except Err Bool × Db :=
  if f .tdsDelete then (.error (.store .tdsDelete), db) else
  if !db.sessions.any (isDeviceOf userId device) then (.ok false, db) else
  let sessions := db.sessions.eraseP (isDeviceOf userId device)
  if f .tdsFindUser then (.error (.store .tdsFindUser), db) else
  match findUserById db.users userId with
  | some user =>
    if mapHas user.sessions device then
      if f .tdsSave then (.error (.store .tdsSave), db) else
      if f .tdsCommit then (.error (.store .tdsCommit), db) else
      (.ok true,
        { db with sessions := sessions,
                  users := saveUserSessions db.users userId (mapDelete user.sessions device) })
    else
      if f .tdsCommit then (.error (.store .tdsCommit), db) else
      (.ok true, { db with sessions := sessions })
  | none =>
    if f .tdsCommit then (.error (.store .tdsCommit), db) else
    (.ok true, { db with sessions := sessions })

/-! ## Reconciliation: `validateUserSessionMap` -/

/-- The `message` of a validation result. -/
inductive VusMessage where
  | noSessions
  | removed (count : Nat)
  | allValid
  | failed
  deriving DecidableEq, Repr

/-- The object `validateUserSessionMap` resolves to; absent keys are `none`. -/
structure ValidateResult where
  validated : Bool
  removedCount : Option Nat
  invalidDevices : Option (List DeviceID)
  error : Option Err
  message : VusMessage
  deriving DecidableEq, Repr

/-- The object returned from the `catch` block. -/
def vusFailed (e : Err) : ValidateResult :=
  { validated := false, removedCount := none, invalidDevices := none,
    error := some e, message := .failed }

/-- Model of `validateUserSessionMap`. -/
def validateUserSessionMap (f : Faults) (db : Db) (userId : UserId) : ValidateResult × Db :=
  if f .vusFindUser then (vusFailed (.store .vusFindUser), db) else
  let early : ValidateResult × Db :=
    if f .vusCommit then (vusFailed (.store .vusCommit), db) else
    ({ validated := true, removedCount := some 0, invalidDevices := none,
       error := none, message := .noSessions }, db)
  match findUserById db.users userId with
  | none => early
  | some user =>
    if mapSize user.sessions == 0 then early else
    let userDevices := mapKeys user.sessions
    if f .vusFindSessions then (vusFailed (.store .vusFindSessions), db) else
    let actualSessions := db.sessions.filter (fun s => s.user == userId)
    let validDevices := actualSessions.map (fun s => s.device)
    let invalidDevices := userDevices.filter (fun d => !validDevices.contains d)
    if invalidDevices.length > 0 then
      let index := invalidDevices.foldl mapDelete user.sessions
      let removedCount := invalidDevices.length
      if f .vusSave then (vusFailed (.store .vusSave), db) else
      if f .vusCommit then (vusFailed (.store .vusCommit), db) else
      ({ validated := true, removedCount := some removedCount,
         invalidDevices := some invalidDevices, error := none,
         message := .removed removedCount },
        { db with users := saveUserSessions db.users userId index })
    else
      if f .vusCommit then (vusFailed (.store .vusCommit), db) else
      ({ validated := true, removedCount := some 0,
         invalidDevices := some invalidDevices, error := none, message := .allValid }, db)

/-! ## Renewal: `provideRenewAuthSession` -/

/-- The object `req.auth` read by `provideRenewAuthSession`. -/
structure AuthContext where
  identity : UserId
  device : DeviceID
  platform : String
  forSystem : Bool
  type : List String
  deriving DecidableEq, Repr

/-- Model of `provideRenewAuthSession` (no transaction: the update is written
directly). -/
def provideRenewAuthSession (f : Faults) (jwt : JwtEnv) (db : Db) (auth : AuthContext) :
    Except Err AuthPayload × Db :=
  let tokenPayload := generateAuthTokens jwt auth.identity auth.platform auth.forSystem auth.device
  let accessToken := tokenPayload.accessToken
  if f .rasUpdate then (.error (.store .rasUpdate), db) else
  if !requiredStr accessToken then (.error .validation, db) else
  match db.sessions.find? (isDeviceOf auth.identity auth.device) with
  | none => (.error .typeError, db)
  | some s =>
    let session := { s with accessToken := accessToken }
    (.ok { identity := auth.identity,
           accessToken := session.accessToken,
           refreshToken := session.refreshToken,
           session := session.id,
           device := auth.device,
           type := auth.type },
      { db with
        sessions := updateOneSession (isDeviceOf auth.identity auth.device)
          (fun s => { s with accessToken := accessToken }) db.sessions })

/-! ## Invariants -/

/-- The `sessions` map of the user document with id `u` among `us`; empty when there
is no such document. -/
def userIndex (us : List UserDoc) (u : UserId) : List (DeviceID × String) :=
  match findUserById us u with
  | some user => user.sessions
  | none => []

/-- The device index of user `u` as stored. -/
def indexOf (db : Db) (u : UserId) : List (DeviceID × String) :=
  userIndex db.users u

/-- Keys of the device index (`User.sessions`) of user `u`. -/
def indexKeys (db : Db) (u : UserId) : List DeviceID :=
  mapKeys (indexOf db u)

/-- The session records of user `u`, in store order. -/
def sessionsOf (db : Db) (u : UserId) : List SessionRecord :=
  db.sessions.filter (fun s => s.user == u)

/-- Devices that have a session record for user `u`. -/
def sessionDevices (db : Db) (u : UserId) : List DeviceID :=
  (sessionsOf db u).map (fun s => s.device)

/-- Mirror invariant I2 for user `u`: the index keys and the devices with a session
record are the same set. -/
def I2 (db : Db) (u : UserId) : Prop :=
  (∀ d ∈ indexKeys db u, d ∈ sessionDevices db u) ∧
  (∀ d ∈ sessionDevices db u, d ∈ indexKeys db u)

instance (db : Db) (u : UserId) : Decidable (I2 db u) := by
  unfold I2; infer_instance

/-- What the store guarantees of any database: unique `_id` in both collections, the
unique index `unique_user_session` on `(user, device)` (invariant I1), distinct keys
inside each `Map`, and a generator that has not yet issued the next `_id`. -/
def WF (db : Db) : Prop :=
  (db.sessions.map (fun s => s.id)).Nodup ∧
  (db.sessions.map (fun s => (s.user, s.device))).Nodup ∧
  (db.users.map (fun u => u.id)).Nodup ∧
  (∀ u ∈ db.users, (mapKeys u.sessions).Nodup) ∧
  (∀ s ∈ db.sessions, s.id < db.nextId)

instance (db : Db) : Decidable (WF db) := by
  unfold WF; infer_instance

/-- The keys `keys` and the devices with a session record of `u` in `ss` are the same
set. -/
def Mirror (ss : List SessionRecord) (keys : List DeviceID) (u : UserId) : Prop :=
  ∀ d, d ∈ keys ↔ ∃ s ∈ ss, s.user = u ∧ s.device = d

/-- The database once the session record `(o, d)` and the key `d` of the index of `o`
are both removed. -/
def removeDevice (db : Db) (o : UserId) (d : DeviceID) : Db :=
  { db with sessions := db.sessions.filter (fun s => !isDeviceOf o d s),
            users := saveUserSessions db.users o (mapDelete (indexOf db o) d) }

/-- Device-limit invariant I3 for user `u`. -/
def I3 (db : Db) (u : UserId) : Prop :=
  (sessionsOf db u).length ≤ SessionModel.limit

instance (db : Db) (u : UserId) : Decidable (I3 db u) := by
  unfold I3; infer_instance

/-! ## Example states -/

/-- One hour in milliseconds. -/
def exHour : Int := 3600000

/-- The current time of the examples. -/
def exNow : Timestamp := 100 * exHour

/-- A session record of user `1` on device `d`, logged in at `t`. -/
def exSession (i : Nat) (d : DeviceID) (t : Timestamp) : SessionRecord :=
  { id := i, user := 1, device := d, deviceAgent := "agent", ip := "10.0.0.1",
    accessToken := "access", refreshToken := "refresh", platform := "APP",
    loginAt := some t, logoutAt := none, createdAt := some t }

/-- User `1` with the device index `m`. -/
def exUser (m : List (DeviceID × String)) : UserDoc :=
  { id := 1, phone := "9000000001", email := none, emailVerifiedAt := none,
    forSystem := false, expertEnrolledAt := none, sessions := m }

/-- The document of user `1` with the five devices `d1` .. `d5` in the index. -/
def exAccount5 : UserDoc :=
  exUser [("d1", "agent"), ("d2", "agent"), ("d3", "agent"), ("d4", "agent"), ("d5", "agent")]

/-- User `1` at the device limit: sessions logged in 20h, 30h, 10h, 5h and 1h ago. -/
def exDb5 : Db :=
  { sessions := [exSession 1 "d1" (exNow - 20 * exHour), exSession 2 "d2" (exNow - 30 * exHour),
                 exSession 3 "d3" (exNow - 10 * exHour), exSession 4 "d4" (exNow - 5 * exHour),
                 exSession 5 "d5" (exNow - 1 * exHour)],
    users := [exAccount5],
    nextId := 6 }

/-- A signer that tags the device. -/
def exJwt : JwtEnv :=
  { signAccess := fun p => "A-" ++ p.device, signRefresh := fun p => "R-" ++ p.device }

/-- A login of user `1` (by phone) from device `d` at `exNow`. -/
def exLogin (d : DeviceID) : ProfileData :=
  { device := d, deviceAgent := "agent2", ip := "10.0.0.2", platform := "app",
    phone := some "9000000001", email := none, currentutc := exNow,
    revokeDeviceSession := none, assignEmail := false, assignPhone := false }

/-- The run in which `UserModel.findByIdAndUpdate` of the login rejects and every
other call goes through. -/
def exFaultUserUpdate : Faults := fun s => s == Step.mpaUserUpdate

/-- One minute in milliseconds. -/
def exMinute : Int := 60000

/-- The document of user `1` with the single device `d1` in the index. -/
def exAccount1 : UserDoc := exUser [("d1", "agent")]

/-- User `1` with a single session on `d1`. -/
def exDb1 : Db :=
  { sessions := [exSession 1 "d1" (exNow - 10 * exHour)],
    users := [exAccount1],
    nextId := 2 }

/-- User `1` at the device limit, every session logged in within the last two hours;
`d3` is the oldest. -/
def exDbRecent : Db :=
  { sessions := [exSession 1 "d1" (exNow - 90 * exMinute), exSession 2 "d2" (exNow - 30 * exMinute),
                 exSession 3 "d3" (exNow - 110 * exMinute), exSession 4 "d4" (exNow - 60 * exMinute),
                 exSession 5 "d5" (exNow - 10 * exMinute)],
    users := [exAccount5],
    nextId := 6 }

/-- User `1` with no session at all. -/
def exDb0 : Db :=
  { sessions := [], users := [exUser []], nextId := 1 }

/-- The response of the first login of user `1` from device `d1`. -/
def exPayloadD1 : AuthPayload :=
  { identity := 1, accessToken := "A-d1", refreshToken := "R-d1", session := 1,
    device := "d1", type := ["CLIENT"] }

/-- A drifted state: the index of user `1` lists five devices, no session record
exists. -/
def exDbDrift : Db :=
  { sessions := [], users := [exAccount5], nextId := 1 }

/-- User `1` with six sessions mirrored in the index (above the device limit). -/
def exDb6 : Db :=
  { sessions := [exSession 1 "d1" (exNow - 20 * exHour), exSession 2 "d2" (exNow - 30 * exHour),
                 exSession 3 "d3" (exNow - 10 * exHour), exSession 4 "d4" (exNow - 5 * exHour),
                 exSession 5 "d5" (exNow - 1 * exHour), exSession 6 "d6" (exNow - 2 * exHour)],
    users := [exUser [("d1", "agent"), ("d2", "agent"), ("d3", "agent"), ("d4", "agent"),
                      ("d5", "agent"), ("d6", "agent")]],
    nextId := 7 }

/-- The index keys of `m` that have no session record of user `u` among `ss`, in index
order: the list `invalidDevices` of `revokeAuthDevice` and `validateUserSessionMap`. -/
def orphanKeys (ss : List SessionRecord) (u : UserId) (m : List (DeviceID × String)) :
    List DeviceID :=
  (mapKeys m).filter
    (fun d => !((ss.filter (fun s => s.user == u)).map (fun s => s.device)).contains d)

/-- The document of user `2` with the device index `m`. -/
def exUser2 (m : List (DeviceID × String)) : UserDoc :=
  { id := 2, phone := "9000000002", email := none, emailVerifiedAt := none,
    forSystem := false, expertEnrolledAt := none, sessions := m }

/-- Two users.  User `1` has session records on `d1` and `d2` and an index that also
lists the orphans `d3` and `d4`; user `2` has one session on `d1`, mirrored. -/
def exDbOrphan : Db :=
  { sessions := [exSession 1 "d1" (exNow - 3 * exHour),
                 { exSession 2 "d1" (exNow - 2 * exHour) with user := 2 },
                 exSession 3 "d2" (exNow - 1 * exHour)],
    users := [exUser [("d3", "agent3"), ("d1", "agent1"), ("d4", "agent4"), ("d2", "agent2")],
              exUser2 [("d1", "agent")]],
    nextId := 4 }

/-- The run in which `SessionModel.find` of the reconciler rejects and every other call
goes through. -/
def exFaultFindSessions : Faults := fun s => s == Step.vusFindSessions

/-! ## Calls on the transaction session

Every operation obtains its session and starts the transaction before its `try`
block; the definitions below list, for one run, the calls made on that session from
the `try` block on.  Calls on other sessions (those of the eviction helpers inside a
login) are not part of the list. -/

inductive TxCall where
  | commitTransaction | abortTransaction | endSession
  deriving DecidableEq, Repr

/-- The statement `try { … } catch (error) { await abortTransaction(); … } finally
{ await endSession(); }`: the calls of the `try` block, then `abortTransaction` when
the block threw, then `endSession`.  The argument is the outcome of the `try` block:
whether it threw and the calls it made. -/
def tryCatchFinally (body : Bool × List TxCall) : List TxCall :=
  body.2 ++ (if body.1 then [TxCall.abortTransaction] else []) ++ [TxCall.endSession]

/-- The `try` block of `findAndRemoveLastInactiveDevice`. -/
def findAndRemoveLastInactiveDeviceTry (f : Faults) (now : Timestamp) (db : Db)
    (deviceOwner : UserId) : Bool × List TxCall :=
  if f .lidFind then (true, []) else
  match oldestFirst (db.sessions.filter (olderThan deviceOwner (oneDayAgo now))) with
  | some _ =>
    if f .lidDelete then (true, []) else
    if f .lidFindUser then (true, []) else
    match findUserById db.users deviceOwner with
    | none => (true, [])
    | some _ =>
      if f .lidSave then (true, []) else
      if f .lidCommit then (true, [.commitTransaction]) else
      (false, [.commitTransaction])
  | none =>
    if f .lidCommit then (true, [.commitTransaction]) else (false, [.commitTransaction])

/-- The `try` block of `SessionModel.findAndRemoveOldestInactiveSession`. -/
def findAndRemoveOldestInactiveSessionTry (f : Faults) (db : Db) (userId : UserId) :
    Bool × List TxCall :=
  if f .oisFind then (true, []) else
  match oldestFirst (db.sessions.filter (fun s => s.user == userId)) with
  | some _ =>
    if f .oisDelete then (true, []) else
    if f .oisFindUser then (true, []) else
    match findUserById db.users userId with
    | none => (true, [])
    | some _ =>
      if f .oisSave then (true, []) else
      if f .oisCommit then (true, [.commitTransaction]) else
      (false, [.commitTransaction])
  | none =>
    if f .oisCommit then (true, [.commitTransaction]) else (false, [.commitTransaction])

/-- The `try` block of `manageProfileAccount`, entered with the account and the data
prepared before the transaction starts. -/
def manageProfileAccountTry (f : Faults) (jwt : JwtEnv) (now : Timestamp) (db : Db)
    (pd : ProfileData) (profileAccount : UserDoc) : Bool × List TxCall :=
  let owner := profileAccount.id
  let deviceSession := profileAccount.sessions
  let newDevice := !mapHas deviceSession pd.device
  let invalidDevice := (validSessionDevice db owner pd.device).isNone
  let sessionMeta := getSessionData jwt owner pd profileAccount.forSystem invalidDevice
  let revoke := truthyStr pd.revokeDeviceSession
  let count := prospectiveCount deviceSession revoke newDevice
  if revoke && !mapHas deviceSession (pd.revokeDeviceSession.getD "") then (true, []) else
  match mpaAdmit f now db owner deviceSession revoke count with
  | (.error _, _) => (true, [])
  | (.ok deviceSession1, db1) =>
    match mpaWrite f db1 owner deviceSession1 newDevice sessionMeta pd with
    | .error _ => (true, [])
    | .ok _ =>
      if f .mpaCommit then (true, [.commitTransaction]) else (false, [.commitTransaction])

/-- The `try` block of `revokeAuthDevice`. -/
def revokeAuthDeviceTry (f : Faults) (db : Db) (deviceOwner : UserId) (device : DeviceID) :
    Bool × List TxCall :=
  if f .radFindUser then (true, []) else
  match findUserById db.users deviceOwner with
  | none => (true, [])
  | some _ =>
    if f .radDelete then (true, []) else
    if !db.sessions.any (isDeviceOf deviceOwner device) then (true, []) else
    if f .radFindSessions then (true, []) else
    if f .radUserUpdate then (true, []) else
    if f .radCommit then (true, [.commitTransaction]) else (false, [.commitTransaction])

/-- The `try` block of `terminateSession`; an unknown session id aborts and returns. -/
def terminateSessionTry (f : Faults) (db : Db) (sessionId : Nat) : Bool × List TxCall :=
  if f .tsFind then (true, []) else
  match db.sessions.find? (fun s => s.id == sessionId) with
  | none => (false, [.abortTransaction])
  | some sessionDoc =>
    if f .tsDelete then (true, []) else
    if f .tsFindUser then (true, []) else
    match findUserById db.users sessionDoc.user with
    | some user =>
      if mapHas user.sessions sessionDoc.device then
        if f .tsSave then (true, []) else
        if f .tsCommit then (true, [.commitTransaction]) else (false, [.commitTransaction])
      else
        if f .tsCommit then (true, [.commitTransaction]) else (false, [.commitTransaction])
    | none =>
      if f .tsCommit then (true, [.commitTransaction]) else (false, [.commitTransaction])

/-- The `try` block of `terminateUserSessions`. -/
def terminateUserSessionsTry (f : Faults) (db : Db) (userId : UserId) : Bool × List TxCall :=
  if f .tusDeleteMany then (true, []) else
  if f .tusFindUser then (true, []) else
  match findUserById db.users userId with
  | some _ =>
    if f .tusSave then (true, []) else
    if f .tusCommit then (true, [.commitTransaction]) else (false, [.commitTransaction])
  | none =>
    if f .tusCommit then (true, [.commitTransaction]) else (false, [.commitTransaction])

/-- The `try` block of `terminateDeviceSession`; a delete that removed nothing aborts
and returns. -/
def terminateDeviceSessionTry (f : Faults) (db : Db) (userId : UserId) (device : DeviceID) :
    Bool × List TxCall :=
  if f .tdsDelete then (true, []) else
  if !db.sessions.any (isDeviceOf userId device) then (false, [.abortTransaction]) else
  if f .tdsFindUser then (true, []) else
  match findUserById db.users userId with
  | some user =>
    if mapHas user.sessions device then
      if f .tdsSave then (true, []) else
      if f .tdsCommit then (true, [.commitTransaction]) else (false, [.commitTransaction])
    else
      if f .tdsCommit then (true, [.commitTransaction]) else (false, [.commitTransaction])
  | none =>
    if f .tdsCommit then (true, [.commitTransaction]) else (false, [.commitTransaction])

/-- The `try` block of `validateUserSessionMap`; the early return commits first. -/
def validateUserSessionMapTry (f : Faults) (db : Db) (userId : UserId) : Bool × List TxCall :=
  if f .vusFindUser then (true, []) else
  let early : Bool × List TxCall :=
    if f .vusCommit then (true, [.commitTransaction]) else (false, [.commitTransaction])
  match findUserById db.users userId with
  | none => early
  | some user =>
    if mapSize user.sessions == 0 then early else
    if f .vusFindSessions then (true, []) else
    if (orphanKeys db.sessions userId user.sessions).length > 0 then
      if f .vusSave then (true, []) else
      if f .vusCommit then (true, [.commitTransaction]) else (false, [.commitTransaction])
    else
      if f .vusCommit then (true, [.commitTransaction]) else (false, [.commitTransaction])

/-- The calls on the transaction session of a run of `manageProfileAccount`; `none`
when the run ends before the session is obtained. -/
def manageProfileAccountCalls (f : Faults) (jwt : JwtEnv) (now : Timestamp) (db : Db)
    (pd : ProfileData) : Option (List TxCall) :=
  if f .mpaFindAccount then none else
  match mpaAccount db pd with
  | .error _ => none
  | .ok profileAccount =>
    if f .mpaFindDevice then none else
    some (tryCatchFinally (manageProfileAccountTry f jwt now db pd profileAccount))

/-- The session was released: `endSession` was called exactly once, as the last call,
after `commitTransaction` or `abortTransaction`. -/
def Released (calls : List TxCall) : Prop :=
  calls.count TxCall.endSession = 1 ∧ calls.getLast? = some TxCall.endSession ∧
  (TxCall.commitTransaction ∈ calls ∨ TxCall.abortTransaction ∈ calls)

instance (calls : List TxCall) : Decidable (Released calls) := by
  unfold Released; infer_instance

/-- Drift in both directions: user `1` has session records on `d1` and `d2`, the index
lists `d1` and the orphan `d3`, and lacks `d2`. -/
def exDbMissing : Db :=
  { sessions := [exSession 1 "d1" (exNow - 3 * exHour), exSession 2 "d2" (exNow - 1 * exHour)],
    users := [exUser [("d1", "agent1"), ("d3", "agent3")]],
    nextId := 3 }

/-- Two sessions of user `1` with the same `loginAt`, thirty hours ago; `b` comes first
in store order. -/
def exDbTie : Db :=
  { sessions := [exSession 1 "b" (exNow - 30 * exHour), exSession 2 "a" (exNow - 30 * exHour)],
    users := [exUser [("b", "agent"), ("a", "agent")]],
    nextId := 3 }

/-- Two sessions of user `1` with the same `loginAt`, one hour ago; `b` comes first in
store order. -/
def exDbTieRecent : Db :=
  { sessions := [exSession 1 "b" (exNow - 1 * exHour), exSession 2 "a" (exNow - 1 * exHour)],
    users := [exUser [("b", "agent"), ("a", "agent")]],
    nextId := 3 }

/-! ## Unique codes: `codegen.util.js`

The module keeps a pool of random bytes and an index into it.  The bytes written by
`crypto.randomFillSync` are given by a function of the number of the fill and the
position in the buffer. -/

/-- The constant `RANDOM_POOL_ALPHABET`. -/
def RANDOM_POOL_ALPHABET : String :=
  "ABCDEFGHIJKLMNOPQRSTUVWXYZabcdefghijklmnopqrstuvwxyz0123456789"

/-- The constant `RANDOM_POOL_EXPANSION_FACTOR`. -/
def RANDOM_POOL_EXPANSION_FACTOR : Int := 128

/-- The byte `crypto.randomFillSync` writes at position `j` in its `k`-th call. -/
abbrev RandomBytes := Nat → Nat → Nat

/-- The module variables `pool` (`null` at start) and `poolIndex`, and the number of
calls of `crypto.randomFillSync` made so far. -/
structure PoolState where
  pool : Option (List Nat)
  poolIndex : Int
  fills : Nat
  deriving DecidableEq, Repr

/-- The module state at load time: `pool = null, poolIndex = 0`. -/
def PoolState.initial : PoolState := { pool := none, poolIndex := 0, fills := 0 }

/-- The conversion `size | 0` to a signed 32-bit integer. -/
def toInt32 (n : Int) : Int := (n + 2147483648) % 4294967296 - 2147483648

/-- A buffer of `len` bytes after `crypto.randomFillSync`, as the fill number `k`. -/
def randomFillSync (rand : RandomBytes) (k : Nat) (len : Nat) : List Nat :=
  (List.range len).map (fun j => rand k j % 256)

/-- Model of `refillPool`; `none` when `Buffer.allocUnsafe` throws `RangeError` on a
negative size. -/
def refillPool (rand : RandomBytes) (st : PoolState) (size : Int) : Option PoolState :=
  let alloc : Option PoolState :=
    if size * RANDOM_POOL_EXPANSION_FACTOR < 0 then none
    else some { pool := some (randomFillSync rand st.fills
                  (size * RANDOM_POOL_EXPANSION_FACTOR).toNat),
                poolIndex := 0 + size, fills := st.fills + 1 }
  match st.pool with
  | none => alloc
  | some pool =>
    if (pool.length : Int) < size then alloc
    else if st.poolIndex + size > (pool.length : Int) then
      some { pool := some (randomFillSync rand st.fills pool.length),
             poolIndex := 0 + size, fills := st.fills + 1 }
    else some { st with poolIndex := st.poolIndex + size }

/-- The value `pool[i] & 63`; an index outside the buffer reads `undefined`, which `&`
turns into `0`. -/
def poolIndex63 (pool : List Nat) (i : Int) : Nat :=
  (if 0 ≤ i then pool.getD i.toNat 0 else 0) &&& 63

/-- The character `RANDOM_POOL_ALPHABET[index]`, `none` for `undefined`. -/
def alphabetAt (index : Nat) : Option Char := RANDOM_POOL_ALPHABET.data.get? index

/-- Model of `generateUniqueCode`: the identifier and the module state left behind;
`none` when `refillPool` throws. -/
def generateUniqueCode (rand : RandomBytes) (st : PoolState) (size : Int) :
    Option (String × PoolState) :=
  let size := toInt32 size
  match refillPool rand st size with
  | none => none
  | some st1 =>
    let pool := st1.pool.getD []
    let id := (List.range size.toNat).filterMap
      (fun (k : Nat) => alphabetAt (poolIndex63 pool (st1.poolIndex - size + (k : Int))))
    some (String.mk id, st1)

/-! ## Tokens: `jwt.provider.js`

`JwtProvider.sign` and `JwtProvider.verify` belong to the library `jsonwebtoken` and
are parameters; the values of `CONFIG` are parameters too.  The clock read by
`getEpocTime` is a function of the number of the reading. -/

/-- The values `PLATFORM_NAME` and `JWT` of `CONFIG`. -/
structure JwtConfig where
  PLATFORM_NAME : String
  ACCESS_SECRET : String
  REFRESH_SECRET : String
  ACCESS_EXP : String
  REFRESH_EXP : String
  deriving DecidableEq, Repr

/-- The object handed to `JwtProvider.sign` as payload: the four fields of
`tokenPayload`, `iat`, `jti`, and the field `noTimestamp` that `signRefreshToken`
writes into the payload. -/
structure JwtClaims where
  identity : UserId
  platform : String
  forSystem : Bool
  device : DeviceID
  iat : Int
  jti : String
  noTimestamp : Option Bool
  deriving DecidableEq, Repr

/-- The object `options` handed to `JwtProvider.sign`. -/
structure SignOptions where
  algorithm : String
  issuer : String
  expiresIn : String
  noTimestamp : Option Bool
  deriving DecidableEq, Repr

/-- One call `JwtProvider.sign(tokenPayload, secret, options)`. -/
structure SignCall where
  payload : JwtClaims
  secret : String
  options : SignOptions
  deriving DecidableEq, Repr

/-- The state of the process outside the database: the module state of
`codegen.util.js` and the number of clock readings made so far. -/
structure ProcState where
  codegen : PoolState
  clockReads : Nat
  deriving DecidableEq, Repr

/-- Model of `getEpocTime`: the next reading of the clock. -/
def getEpocTime (clock : Nat → Int) (st : ProcState) : Int × ProcState :=
  (clock st.clockReads, { st with clockReads := st.clockReads + 1 })

/-- The fields of an instance of `JwtService`. -/
structure JwtService where
  algorithm : String
  issuer : String
  accessSecret : String
  refreshSecret : String
  accessExpires : String
  refreshExpires : String
  issuedAt : Int
  tokenIdentity : String
  deriving DecidableEq, Repr

/-- Model of the constructor of `JwtService`. -/
def JwtService.construct (cfg : JwtConfig) (rand : RandomBytes) (clock : Nat → Int)
    (st : ProcState) : Option (JwtService × ProcState) :=
  let (issuedAt, st1) := getEpocTime clock st
  match generateUniqueCode rand st1.codegen 21 with
  | none => none
  | some (tokenIdentity, pool2) =>
    some ({ algorithm := "HS256", issuer := cfg.PLATFORM_NAME,
            accessSecret := cfg.ACCESS_SECRET, refreshSecret := cfg.REFRESH_SECRET,
            accessExpires := cfg.ACCESS_EXP, refreshExpires := cfg.REFRESH_EXP,
            issuedAt := issuedAt, tokenIdentity := tokenIdentity },
          { st1 with codegen := pool2 })

/-- Model of `signAccessToken`: the token, the instance with its new `issuedAt` and
`tokenIdentity`, and the process state. -/
def JwtService.signAccessToken (sign : SignCall → String) (rand : RandomBytes)
    (clock : Nat → Int) (this : JwtService) (st : ProcState) (payload : TokenPayload) :
    Option (String × JwtService × ProcState) :=
  let (issuedAt, st1) := getEpocTime clock st
  match generateUniqueCode rand st1.codegen 21 with
  | none => none
  | some (tokenIdentity, pool2) =>
    let this1 := { this with issuedAt := issuedAt, tokenIdentity := tokenIdentity }
    let tokenPayload : JwtClaims :=
      { identity := payload.identity, platform := payload.platform,
        forSystem := payload.forSystem, device := payload.device,
        iat := this1.issuedAt, jti := this1.tokenIdentity, noTimestamp := none }
    let options : SignOptions :=
      { algorithm := this1.algorithm, issuer := this1.issuer,
        expiresIn := this1.accessExpires, noTimestamp := some false }
    let accessToken := sign { payload := tokenPayload, secret := this1.accessSecret,
                              options := options }
    some (accessToken, this1, { st1 with codegen := pool2 })

/-- Model of `signRefreshToken`. -/
def JwtService.signRefreshToken (sign : SignCall → String) (this : JwtService)
    (payload : TokenPayload) : String :=
  let tokenPayload : JwtClaims :=
    { identity := payload.identity, platform := payload.platform,
      forSystem := payload.forSystem, device := payload.device,
      iat := this.issuedAt, jti := this.tokenIdentity, noTimestamp := some false }
  let options : SignOptions :=
    { algorithm := this.algorithm, issuer := this.issuer,
      expiresIn := this.refreshExpires, noTimestamp := none }
  sign { payload := tokenPayload, secret := this.refreshSecret, options := options }

/-- Model of `generateAuthTokens` with the token service spelt out (the engine above
uses it through `JwtEnv`): a new `JwtService`, then the two signatures. -/
def generateAuthTokensRun (cfg : JwtConfig) (sign : SignCall → String) (rand : RandomBytes)
    (clock : Nat → Int) (st : ProcState) (identity : UserId) (platform : String)
    (forSystem : Bool) (device : DeviceID) : Option (TokenData × ProcState) :=
  let tokenPayload : TokenPayload :=
    { identity := identity, platform := platform, forSystem := forSystem, device := device }
  match JwtService.construct cfg rand clock st with
  | none => none
  | some (JWT, st1) =>
    match JWT.signAccessToken sign rand clock st1 tokenPayload with
    | none => none
    | some (accessToken, JWT1, st2) =>
      let refreshToken := JWT1.signRefreshToken sign tokenPayload
      some ({ identity := identity, platform := platform, accessToken := accessToken,
              refreshToken := refreshToken, device := device }, st2)

/-- What `transformJwtError` reads of a value thrown by `JwtProvider.verify`: its
`name` (`none` for `undefined`) and its `message`. -/
structure JsError where
  name : Option String
  message : String
  deriving DecidableEq, Repr

/-- The own properties of the object `jwtErrorMap`: message and code. -/
def jwtErrorMap : List (String × String × String) :=
  [("TokenExpiredError", "Unauthorized identity. Please login again.", "EXPIRED_TOKEN"),
   ("JsonWebTokenError", "Unauthorized identity. Please login again.", "INVALID_TOKEN")]

/-- The property names `jwtErrorMap` inherits from `Object.prototype`; a look-up of one
of them is truthy and has neither `message` nor `code`. -/
def objectPrototypeKeys : List String :=
  ["constructor", "__defineGetter__", "__defineSetter__", "hasOwnProperty",
   "__lookupGetter__", "__lookupSetter__", "isPrototypeOf", "propertyIsEnumerable",
   "toString", "valueOf", "__proto__", "toLocaleString"]

/-- An error leaving `validateAccessToken` or `validateRefreshToken`: a `ServiceError`
(fields `undefined` are `none`) or the error of the library as it was thrown. -/
inductive JwtFailure where
  | serviceError (serviceName : String) (message : Option String) (code : Option String)
  | thrown (error : JsError)
  deriving DecidableEq, Repr

/-- Model of `transformJwtError`. -/
def transformJwtError (error : JsError) : JwtFailure :=
  match error.name with
  | none => .thrown error
  | some name =>
    match jwtErrorMap.lookup name with
    | some (message, code) => .serviceError "Jwt" (some message) (some code)
    | none =>
      if objectPrototypeKeys.contains name then .serviceError "Jwt" none none
      else .thrown error

/-- Model of `validateAccessToken`; `verify token secret issuer` is
`JwtProvider.verify(token, secret, { issuer })`. -/
def JwtService.validateAccessToken
    (verify : String → String → String → Except JsError JwtClaims)
    (this : JwtService) (accessToken : String) : Except JwtFailure JwtClaims :=
  match verify accessToken this.accessSecret this.issuer with
  | .ok payload => .ok payload
  | .error error => .error (transformJwtError error)

/-- Model of `validateRefreshToken`. -/
def JwtService.validateRefreshToken
    (verify : String → String → String → Except JsError JwtClaims)
    (this : JwtService) (refreshToken : String) : Except JwtFailure JwtClaims :=
  match verify refreshToken this.refreshSecret this.issuer with
  | .ok payload => .ok payload
  | .error error => .error (transformJwtError error)

/-! ## Renewal guard: `refresh-token-guard.middlewear.js` -/

/-- The two headers `RefreshTokenGuard` reads (`none` when the header is absent). -/
structure RefreshRequest where
  authIdentity : Option String
  authRefreshToken : Option String
  deriving DecidableEq, Repr

/-- The two store reads of the guard. -/
inductive GuardStep where
  | findSession | findAccount
  deriving DecidableEq, Repr

/-- An error the guard hands to `next`. -/
inductive GuardError where
  | api (message : String) (code : String)
  | jwt (e : JwtFailure)
  | store (step : GuardStep)
  deriving DecidableEq, Repr

/-- `String.prototype.trim` on the characters `isSpace` knows. -/
def jsTrim (s : String) : String :=
  String.mk ((s.data.dropWhile isSpace).reverse.dropWhile isSpace).reverse

/-- The string form of a user id (`_id.toString()`), as it stands in a token and in the
header `x-auth-identity`. -/
def showId (i : UserId) : String := toString i

/-- Model of `getProvideRefreshTokenSession`. -/
def getProvideRefreshTokenSession (db : Db) (identity : UserId) (token : String) :
    Option SessionRecord :=
  db.sessions.find? (fun s => s.user == identity && s.refreshToken == token)

/-- Model of `getAuthProfile`. -/
def getAuthProfile (db : Db) (identity : UserId) : Option UserDoc :=
  findUserById db.users identity

/-- Model of the middleware `RefreshTokenGuard({ forSystem })`: the object `req.auth` it
sets before calling `next()`, or the error it throws.  `JWT` is the instance made by
`new JwtService()`, of which only the refresh secret and the issuer are read. -/
def RefreshTokenGuard (g : GuardStep → Bool)
    (verify : String → String → String → Except JsError JwtClaims) (JWT : JwtService)
    (forSystem : Bool) (db : Db) (req : RefreshRequest) : Except GuardError AuthContext :=
  if !truthyStr req.authRefreshToken || !truthyStr req.authIdentity then
    .error (.api "Missing required headers for refresh token." "MISSING_AUTH_HEADERS")
  else
    let authID := jsTrim (req.authIdentity.getD "")
    let authToken := jsTrim (req.authRefreshToken.getD "")
    match JWT.validateRefreshToken verify authToken with
    | .error e => .error (.jwt e)
    | .ok tokenPayload =>
      let identity := tokenPayload.identity
      if showId identity != authID then
        .error (.api
          " The refresh token provided is unacceptable. Unable to renew your session. Please log in again."
          "MALFORMED_AUTH_TOKEN")
      else
        if g .findSession then .error (.store .findSession) else
        match getProvideRefreshTokenSession db identity authToken with
        | none =>
          .error (.api "Refresh token is revoked. Please log in again." "REVOKED_REFRESH_TOKEN")
        | some deviceSession =>
          if g .findAccount then .error (.store .findAccount) else
          match getAuthProfile db identity with
          | none =>
            .error (.api "Unauthenticated Access. No account found with provided data."
              "INVALID_IDENTITY")
          | some Account =>
            .ok { identity := identity, device := deviceSession.device,
                  platform := deviceSession.platform, forSystem := forSystem,
                  type := userType Account }

/-- An error of the renewal route: of the guard, or of `provideRenewAuthSession`. -/
inductive RenewError where
  | guard (e : GuardError)
  | action (e : Err)
  deriving DecidableEq, Repr

/-- Modelled from the spec: the renewal route, whose controller is not among the
sources.  `RefreshTokenGuard` runs first; an error it throws goes to `next(err)`
(`catchAsync`) and the action is not called; otherwise `provideRenewAuthSession` gets
`req.auth`. -/
def renewSession (g : GuardStep → Bool) (f : Faults)
    (verify : String → String → String → Except JsError JwtClaims) (JWT : JwtService)
    (jwt : JwtEnv) (forSystem : Bool) (db : Db) (req : RefreshRequest) :
    Except RenewError AuthPayload × Db :=
  match RefreshTokenGuard g verify JWT forSystem db req with
  | .error e => (.error (.guard e), db)
  | .ok auth =>
    match provideRenewAuthSession f jwt db auth with
    | (.error e, db1) => (.error (.action e), db1)
    | (.ok authPayload, db1) => (.ok authPayload, db1)

/-- An instance of `JwtService` for the examples. -/
def exJwtService : JwtService :=
  { algorithm := "HS256", issuer := "platform", accessSecret := "access-secret",
    refreshSecret := "refresh-secret", accessExpires := "15m", refreshExpires := "7d",
    issuedAt := 0, tokenIdentity := "" }

/-- The claims of the example tokens of user `1` on device `d`. -/
def exClaims (d : DeviceID) : JwtClaims :=
  { identity := 1, platform := "APP", forSystem := false, device := d, iat := 0, jti := "",
    noTimestamp := some false }

/-- A verifier that accepts the refresh tokens `R-d1` and `R-d9` of user `1` and rejects
every other string as malformed. -/
def exVerify : String → String → String → Except JsError JwtClaims :=
  fun token _ _ =>
    if token == "R-d1" then .ok (exClaims "d1")
    else if token == "R-d9" then .ok (exClaims "d9")
    else .error { name := some "JsonWebTokenError", message := "jwt malformed" }

/-- A verifier that finds every token not yet active. -/
def exVerifyNotBefore : String → String → String → Except JsError JwtClaims :=
  fun _ _ _ => .error { name := some "NotBeforeError", message := "jwt not active" }

/-- User `1` with one session on `d1` that stores the tokens `A-d1` and `R-d1`. -/
def exDbRenew : Db :=
  { sessions := [{ exSession 1 "d1" (exNow - 10 * exHour) with
                   accessToken := "A-d1", refreshToken := "R-d1" }],
    users := [exUser [("d1", "agent")]],
    nextId := 2 }

/-- User `1` with one session, on `d1`, whose stored refresh token is `R-d9`, a token
whose claims name the device `d9`. -/
def exDbForeign : Db :=
  { sessions := [{ exSession 1 "d1" (exNow - 10 * exHour) with refreshToken := "R-d9" }],
    users := [exUser [("d1", "agent")]],
    nextId := 2 }

/-- The query `findOne(filter).sort({ loginAt: 1 })` on a store that hands the documents
matching the filter to the sort in the order `scan` gives them (insertion order for a
collection scan, `(user, device)` order for a scan of the unique index): the first
document of the scan with a least `loginAt`.  MongoDB fixes no order among documents
with equal sort key, so every `scan` that permutes the documents is a behaviour the
code allows; `oldestFirst` is the case of the scan in list order. -/
def findOneSortedByLoginAt (scan : List SessionRecord → List SessionRecord)
    (candidates : List SessionRecord) : Option SessionRecord :=
  oldestFirst (scan candidates)

/-- The code spelt by the `n` random bytes at the positions `p, .., p + n - 1` of the
`k`-th fill: each byte is masked with `63` and looked up in the alphabet, the indexes
`62` and `63` giving nothing. -/
def codeOfBytes (rand : RandomBytes) (k p n : Nat) : String :=
  String.mk ((List.range n).filterMap
    (fun i => alphabetAt ((rand k (p + i) % 256) &&& 63)))

/-- The random byte at position `j` of the `k`-th fill lies in the part of the random
stream that the module state `st` has left behind: it belongs to an earlier fill, or
to the current fill below `poolIndex`. -/
def Consumed (st : PoolState) (k j : Nat) : Prop :=
  k + 1 < st.fills ∨ (k + 1 = st.fills ∧ (j : Int) < st.poolIndex)

/-- What holds of the module state of `codegen.util.js` at load time and after every
call of `generateUniqueCode` with a size that is not negative: the pool, once
allocated, holds the bytes of the latest fill, and `poolIndex` lies inside it. -/
def PoolWF (rand : RandomBytes) (st : PoolState) : Prop :=
  match st.pool with
  | none => st.poolIndex = 0 ∧ st.fills = 0
  | some pool =>
    0 < st.fills ∧ pool = randomFillSync rand (st.fills - 1) pool.length ∧
    0 ≤ st.poolIndex ∧ st.poolIndex ≤ (pool.length : Int)

/-- Configuration values for the examples. -/
def exJwtConfig : JwtConfig :=
  { PLATFORM_NAME := "platform", ACCESS_SECRET := "access-secret",
    REFRESH_SECRET := "refresh-secret", ACCESS_EXP := "15m", REFRESH_EXP := "7d" }

/-- A signer for the examples that shows the secret and the `jti` it was given. -/
def exSign : SignCall → String := fun c => c.secret ++ ":" ++ c.payload.jti

/-- A random source for the examples: the byte at position `j` of every fill is `j`. -/
def exRand : RandomBytes := fun _ j => j

/-! ## Helper lemmas -/

theorem eraseP_eq_filter_of_pairwise {α : Type} (p : α → Bool) (l : List α)
    (h : l.Pairwise (fun a b => ¬ (p a = true ∧ p b = true))) :
    l.eraseP p = l.filter (fun x => !p x) := by
  induction l with
  | nil => rfl
  | cons a t ih =>
    rw [List.pairwise_cons] at h
    cases hp : p a with
    | false =>
      rw [List.eraseP_cons_of_neg (by simp [hp]), List.filter_cons_of_pos (by simp [hp]), ih h.2]
    | true =>
      rw [List.eraseP_cons_of_pos (by simp [hp]), List.filter_cons_of_neg (by simp [hp])]
      symm
      rw [List.filter_eq_self]
      intro b hb
      have := h.1 b hb
      simp [hp] at this
      simp [this]

theorem erase_device_eq_filter (l : List SessionRecord) (o : UserId) (d : DeviceID)
    (h : (l.map (fun s => (s.user, s.device))).Nodup) :
    l.eraseP (isDeviceOf o d) = l.filter (fun s => !isDeviceOf o d s) := by
  apply eraseP_eq_filter_of_pairwise
  have h2 := List.pairwise_map.1 h
  refine h2.imp ?_
  intro a b hab hp
  apply hab
  simp [isDeviceOf] at hp
  simp [hp.1.1, hp.1.2, hp.2.1, hp.2.2]

theorem erase_id_eq_filter (l : List SessionRecord) (i : Nat)
    (h : (l.map (fun s => s.id)).Nodup) :
    l.eraseP (fun s => s.id == i) = l.filter (fun s => !(s.id == i)) := by
  apply eraseP_eq_filter_of_pairwise
  have h2 := List.pairwise_map.1 h
  refine h2.imp ?_
  intro a b hab hp
  apply hab
  simp at hp
  simp [hp.1, hp.2]

theorem findUserById_update (i j : UserId) (g : UserDoc → UserDoc)
    (hg : ∀ u, (g u).id = u.id) (us : List UserDoc) :
    findUserById (updateUserById i g us) j =
      if j = i then (findUserById us i).map g else findUserById us j := by
  induction us with
  | nil => simp [findUserById, updateUserById]
  | cons u t ih =>
    unfold findUserById at ih ⊢
    by_cases hu : u.id = i
    · have e1 : (u.id == i) = true := by simpa using hu
      by_cases hj : j = i
      · subst hj
        simp [updateUserById, e1, List.find?_cons, hg]
      · have e2 : (u.id == j) = false := by
          simp only [beq_eq_false_iff_ne, ne_eq]
          rw [hu]; exact fun h => hj h.symm
        simp [updateUserById, e1, e2, List.find?_cons, hg, hj]
    · have e1 : (u.id == i) = false := by simpa using hu
      by_cases h3 : u.id = j
      · have e2 : (u.id == j) = true := by simpa using h3
        have hj : ¬ j = i := by rw [← h3]; exact hu
        simp [updateUserById, e1, e2, List.find?_cons, hj]
      · have e2 : (u.id == j) = false := by simpa using h3
        simp only [updateUserById, e1, e2, List.find?_cons, Bool.false_eq_true, if_false]
        exact ih

theorem findUserById_of_mem (us : List UserDoc) (u : UserDoc)
    (hn : (us.map (fun u => u.id)).Nodup) (hu : u ∈ us) : findUserById us u.id = some u := by
  induction us with
  | nil => cases hu
  | cons a t ih =>
    simp only [List.map_cons, List.nodup_cons] at hn
    unfold findUserById at ih ⊢
    rcases List.mem_cons.1 hu with h | h
    · subst h; simp [List.find?_cons]
    · have hne : ¬ a.id = u.id := by
        intro he
        apply hn.1
        rw [he]
        exact List.mem_map_of_mem (fun u => u.id) h
      simp [List.find?_cons, hne]
      simpa using ih hn.2 h

theorem findUserById_id (us : List UserDoc) (i : UserId) (u : UserDoc)
    (h : findUserById us i = some u) : u.id = i := by
  unfold findUserById at h
  have := List.find?_some h
  simpa using this

theorem findUserById_mem (us : List UserDoc) (i : UserId) (u : UserDoc)
    (h : findUserById us i = some u) : u ∈ us := by
  unfold findUserById at h
  exact List.mem_of_find?_eq_some h

theorem mem_mapKeys_mapDelete (m : List (DeviceID × String)) (d k : DeviceID) :
    k ∈ mapKeys (mapDelete m d) ↔ k ∈ mapKeys m ∧ k ≠ d := by
  simp only [mapKeys, mapDelete, List.mem_map, List.mem_filter]
  constructor
  · rintro ⟨e, ⟨he, hne⟩, rfl⟩
    refine ⟨⟨e, he, rfl⟩, ?_⟩
    simpa using hne
  · rintro ⟨⟨e, he, rfl⟩, hne⟩
    exact ⟨e, ⟨he, by simpa using hne⟩, rfl⟩

theorem mapHas_iff (m : List (DeviceID × String)) (d : DeviceID) :
    mapHas m d = true ↔ d ∈ mapKeys m := by
  simp only [mapHas, mapKeys, List.any_eq_true, List.mem_map]
  constructor
  · rintro ⟨e, he, h⟩
    exact ⟨e, he, by simpa using h⟩
  · rintro ⟨e, he, h⟩
    exact ⟨e, he, by simpa using h⟩

theorem mem_mapKeys_mapSet (m : List (DeviceID × String)) (d k : DeviceID) (a : String) :
    k ∈ mapKeys (mapSet m d a) ↔ k ∈ mapKeys m ∨ k = d := by
  unfold mapSet
  split
  · next h =>
    rw [mapHas_iff] at h
    simp only [mapKeys, List.map_map, List.mem_map, Function.comp]
    constructor
    · rintro ⟨e, he, rfl⟩
      by_cases hd : e.1 = d
      · right; simp [hd]
      · left; exact ⟨e, he, by simp [hd]⟩
    · rintro (⟨e, he, rfl⟩ | rfl)
      · exact ⟨e, he, by by_cases hd : e.1 = d <;> simp [hd]⟩
      · simp only [mapKeys, List.mem_map] at h
        obtain ⟨e, he, hk⟩ := h
        exact ⟨e, he, by simp [hk]⟩
  · simp [mapKeys]

theorem mem_sessionDevices (db : Db) (u : UserId) (d : DeviceID) :
    d ∈ sessionDevices db u ↔ ∃ s ∈ db.sessions, s.user = u ∧ s.device = d := by
  simp only [sessionDevices, sessionsOf, List.mem_map, List.mem_filter]
  constructor
  · rintro ⟨s, ⟨hs, hu⟩, rfl⟩
    exact ⟨s, hs, by simpa using hu, rfl⟩
  · rintro ⟨s, hs, hu, rfl⟩
    exact ⟨s, ⟨hs, by simpa using hu⟩, rfl⟩

theorem I2_iff_mirror (db : Db) (u : UserId) :
    I2 db u ↔ Mirror db.sessions (indexKeys db u) u := by
  unfold I2 Mirror
  constructor
  · rintro ⟨h1, h2⟩ d
    rw [← mem_sessionDevices]
    exact ⟨h1 d, h2 d⟩
  · intro h
    refine ⟨fun d hd => ?_, fun d hd => ?_⟩
    · rw [mem_sessionDevices]; exact (h d).1 hd
    · rw [mem_sessionDevices] at hd; exact (h d).2 hd

theorem userIndex_update (i j : UserId) (g : UserDoc → UserDoc)
    (hg : ∀ u, (g u).id = u.id) (us : List UserDoc) :
    userIndex (updateUserById i g us) j =
      if j = i then
        (match findUserById us i with
         | some u => (g u).sessions
         | none => [])
      else userIndex us j := by
  unfold userIndex
  rw [findUserById_update i j g hg us]
  by_cases hj : j = i
  · simp only [hj, if_true]
    cases findUserById us i <;> rfl
  · simp only [hj, if_false]

theorem userIndex_save (us : List UserDoc) (o j : UserId) (m : List (DeviceID × String)) :
    userIndex (saveUserSessions us o m) j =
      if j = o then (if (findUserById us o).isSome then m else []) else userIndex us j := by
  unfold saveUserSessions
  rw [userIndex_update o j (fun u => { u with sessions := m }) (fun _ => rfl) us]
  by_cases hj : j = o
  · simp only [hj, if_true]
    cases findUserById us o <;> simp
  · simp only [hj, if_false]

theorem map_id_update (i : UserId) (g : UserDoc → UserDoc)
    (hg : ∀ u, (g u).id = u.id) (us : List UserDoc) :
    (updateUserById i g us).map (fun u => u.id) = us.map (fun u => u.id) := by
  induction us with
  | nil => rfl
  | cons u t ih =>
    unfold updateUserById
    split
    · simp [hg]
    · simp [ih]

theorem mem_update (i : UserId) (g : UserDoc → UserDoc) (us : List UserDoc) (u : UserDoc)
    (h : u ∈ updateUserById i g us) : u ∈ us ∨ ∃ v, findUserById us i = some v ∧ u = g v := by
  induction us with
  | nil => cases h
  | cons a t ih =>
    unfold updateUserById at h
    split at h
    · next ha =>
      rcases List.mem_cons.1 h with h1 | h1
      · right
        exact ⟨a, by simp [findUserById, List.find?_cons, ha], h1⟩
      · left; exact List.mem_cons_of_mem _ h1
    · next ha =>
      rcases List.mem_cons.1 h with h1 | h1
      · left; rw [h1]; exact List.mem_cons_self _ _
      · rcases ih h1 with h2 | ⟨v, hv, huv⟩
        · left; exact List.mem_cons_of_mem _ h2
        · right
          refine ⟨v, ?_, huv⟩
          have ha2 : (a.id == i) = false := by simpa using ha
          simp only [findUserById, List.find?_cons, ha2]
          exact hv

theorem indexKeys_removeDevice (db : Db) (o U : UserId) (d : DeviceID) :
    indexKeys (removeDevice db o d) U =
      if U = o then mapKeys (mapDelete (indexOf db o) d) else indexKeys db U := by
  unfold indexKeys indexOf removeDevice
  simp only [userIndex_save]
  by_cases hU : U = o
  · simp only [hU, if_true]
    cases h : findUserById db.users o with
    | none => simp [userIndex, h, mapDelete, mapKeys]
    | some u => simp [userIndex, indexOf, h]
  · simp only [hU, if_false]

theorem I2_removeDevice (db : Db) (o U : UserId) (d : DeviceID) (h : I2 db U) :
    I2 (removeDevice db o d) U := by
  rw [I2_iff_mirror] at h ⊢
  intro k
  rw [indexKeys_removeDevice]
  have hk := h k
  by_cases hU : U = o
  · subst hU
    simp only [if_true, mem_mapKeys_mapDelete]
    have : mapKeys (indexOf db U) = indexKeys db U := rfl
    rw [this, hk]
    simp only [removeDevice, List.mem_filter, isDeviceOf]
    constructor
    · rintro ⟨⟨s, hs, hu, hd⟩, hne⟩
      refine ⟨s, ⟨hs, ?_⟩, hu, hd⟩
      simp [hu, hd, hne]
    · rintro ⟨s, ⟨hs, hn⟩, hu, hd⟩
      refine ⟨⟨s, hs, hu, hd⟩, ?_⟩
      intro hkd
      simp [hu, hd, hkd] at hn
  · simp only [hU, if_false]
    rw [hk]
    simp only [removeDevice, List.mem_filter, isDeviceOf]
    constructor
    · rintro ⟨s, hs, hu, hd⟩
      refine ⟨s, ⟨hs, ?_⟩, hu, hd⟩
      simp [hu, hU]
    · rintro ⟨s, ⟨hs, _⟩, hu, hd⟩
      exact ⟨s, hs, hu, hd⟩

theorem WF_removeDevice (db : Db) (o : UserId) (d : DeviceID) (h : WF db) :
    WF (removeDevice db o d) := by
  obtain ⟨h1, h2, h3, h4, h5⟩ := h
  refine ⟨?_, ?_, ?_, ?_, ?_⟩
  · exact h1.sublist ((List.filter_sublist _).map _)
  · exact h2.sublist ((List.filter_sublist _).map _)
  · simp only [removeDevice, saveUserSessions]
    rw [map_id_update o (fun u => { u with sessions := mapDelete (indexOf db o) d })
      (fun _ => rfl)]
    exact h3
  · intro u hu
    simp only [removeDevice, saveUserSessions] at hu
    rcases mem_update _ _ _ _ hu with h6 | ⟨v, hv, rfl⟩
    · exact h4 u h6
    · simp only [indexOf, userIndex, hv]
      have := h4 v (findUserById_mem _ _ _ hv)
      exact this.sublist ((List.filter_sublist _).map _)
  · intro s hs
    exact h5 s (List.mem_filter.1 hs).1

/-- Under the unique indexes, erasing the document found by `_id` is removing its
device. -/
theorem erase_id_removeDevice (db : Db) (s0 : SessionRecord) (h : WF db)
    (hs : s0 ∈ db.sessions) :
    db.sessions.eraseP (fun s => s.id == s0.id) =
      db.sessions.filter (fun s => !isDeviceOf s0.user s0.device s) := by
  rw [erase_id_eq_filter _ _ h.1]
  apply List.filter_congr
  intro s hs'
  have hid := List.inj_on_of_nodup_map h.1
  have hud := List.inj_on_of_nodup_map h.2.1
  by_cases he : s = s0
  · subst he; simp [isDeviceOf]
  · have h1 : ¬ s.id = s0.id := fun hh => he (hid hs' hs hh)
    have h2 : ¬ (s.user = s0.user ∧ s.device = s0.device) := by
      rintro ⟨ha, hb⟩
      exact he (hud hs' hs (by simp [ha, hb]))
    simp only [isDeviceOf]
    have e1 : (s.id == s0.id) = false := by simpa using h1
    rw [e1]
    by_cases hu : s.user = s0.user
    · have hd : ¬ s.device = s0.device := fun hh => h2 ⟨hu, hh⟩
      simp [hu, hd]
    · simp [hu]

theorem oldestFirst_mem (l : List SessionRecord) (s : SessionRecord)
    (h : oldestFirst l = some s) : s ∈ l := by
  induction l generalizing s with
  | nil => simp [oldestFirst] at h
  | cons a t ih =>
    unfold oldestFirst at h
    split at h
    · simp at h; subst h; exact List.mem_cons_self _ _
    · next b hb =>
      split at h
      · simp at h; subst h; exact List.mem_cons_of_mem _ (ih b hb)
      · simp at h; subst h; exact List.mem_cons_self _ _

theorem oldestFirst_eq_none (l : List SessionRecord) (h : oldestFirst l = none) : l = [] := by
  cases l with
  | nil => rfl
  | cons a t =>
    unfold oldestFirst at h
    split at h
    · simp at h
    · split at h <;> simp at h

theorem loginAtLt_asymm (a b : Option Int) (h : loginAtLt a b = true) :
    loginAtLt b a = false := by
  cases a <;> cases b <;> simp_all [loginAtLt]
  exact Int.le_of_lt h

theorem loginAtLt_negtrans (a b c : Option Int) (h1 : loginAtLt a b = false)
    (h2 : loginAtLt b c = false) : loginAtLt a c = false := by
  cases a <;> cases b <;> cases c <;> simp_all [loginAtLt]
  exact Int.le_trans h2 h1

theorem oldestFirst_min (l : List SessionRecord) (s : SessionRecord)
    (h : oldestFirst l = some s) : ∀ t ∈ l, loginAtLt t.loginAt s.loginAt = false := by
  induction l generalizing s with
  | nil => simp [oldestFirst] at h
  | cons a t ih =>
    unfold oldestFirst at h
    split at h
    · next hn =>
      simp at h; subst h
      have := oldestFirst_eq_none t hn
      subst this
      intro x hx
      simp at hx; subst hx
      cases x.loginAt <;> simp [loginAtLt]
    · next b hb =>
      have ihb := ih b hb
      split at h
      · next hlt =>
        simp at h; subst h
        intro x hx
        rcases List.mem_cons.1 hx with rfl | hx
        · exact loginAtLt_asymm _ _ hlt
        · exact ihb x hx
      · next hlt =>
        simp at h; subst h
        have hlt2 : loginAtLt b.loginAt a.loginAt = false := by simpa using hlt
        intro x hx
        rcases List.mem_cons.1 hx with rfl | hx
        · cases x.loginAt <;> simp [loginAtLt]
        · exact loginAtLt_negtrans _ _ _ (ihb x hx) hlt2

/-- Outcomes of policy P1: nothing committed, or the candidate and its index entry
removed. -/
theorem lid_cases (f : Faults) (now : Timestamp) (db : Db) (o : UserId) (hwf : WF db) :
    ((findAndRemoveLastInactiveDevice f now db o).2 = db ∧
      ((findAndRemoveLastInactiveDevice f now db o).1 = .ok none ∨
        ∃ e, (findAndRemoveLastInactiveDevice f now db o).1 = .error e)) ∨
    (∃ s, (findAndRemoveLastInactiveDevice f now db o).1 = .ok (some s) ∧
      oldestFirst (db.sessions.filter (olderThan o (oneDayAgo now))) = some s ∧
      (findAndRemoveLastInactiveDevice f now db o).2 = removeDevice db o s.device) := by
  unfold findAndRemoveLastInactiveDevice
  split
  · left; exact ⟨rfl, Or.inr ⟨_, rfl⟩⟩
  · split
    · next s hs =>
      have hmem := List.mem_filter.1 (oldestFirst_mem _ _ hs)
      have hu : s.user = o := by
        have := hmem.2
        simp only [olderThan, Bool.and_eq_true, beq_iff_eq] at this
        exact this.1
      split
      · left; exact ⟨rfl, Or.inr ⟨_, rfl⟩⟩
      · split
        · left; exact ⟨rfl, Or.inr ⟨_, rfl⟩⟩
        · split
          · left; exact ⟨rfl, Or.inr ⟨_, rfl⟩⟩
          · next user huser =>
            split
            · left; exact ⟨rfl, Or.inr ⟨_, rfl⟩⟩
            · split
              · left; exact ⟨rfl, Or.inr ⟨_, rfl⟩⟩
              · right
                refine ⟨s, rfl, hs, ?_⟩
                simp only [removeDevice, indexOf, userIndex, huser]
                rw [erase_id_removeDevice db s hwf hmem.1, hu]
    · split
      · left; exact ⟨rfl, Or.inr ⟨_, rfl⟩⟩
      · left; exact ⟨rfl, Or.inl rfl⟩

/-- Outcomes of policy P2. -/
theorem ois_cases (f : Faults) (db : Db) (o : UserId) (hwf : WF db) :
    ((findAndRemoveOldestInactiveSession f db o).2 = db ∧
      (((findAndRemoveOldestInactiveSession f db o).1 = .ok none ∧
          oldestFirst (db.sessions.filter (fun s => s.user == o)) = none) ∨
        ∃ e, (findAndRemoveOldestInactiveSession f db o).1 = .error e ∧
          e ≠ .api "Unable to manage sessions. Please try again." "RESOURCE_NOT_FOUND")) ∨
    (∃ s, (findAndRemoveOldestInactiveSession f db o).1 = .ok (some s) ∧
      oldestFirst (db.sessions.filter (fun s => s.user == o)) = some s ∧
      (findAndRemoveOldestInactiveSession f db o).2 = removeDevice db o s.device) := by
  unfold findAndRemoveOldestInactiveSession
  split
  · left; exact ⟨rfl, Or.inr ⟨_, rfl, by simp⟩⟩
  · split
    · next s hs =>
      have hmem := List.mem_filter.1 (oldestFirst_mem _ _ hs)
      have hu : s.user = o := by simpa using hmem.2
      split
      · left; exact ⟨rfl, Or.inr ⟨_, rfl, by simp⟩⟩
      · split
        · left; exact ⟨rfl, Or.inr ⟨_, rfl, by simp⟩⟩
        · split
          · left; exact ⟨rfl, Or.inr ⟨_, rfl, by simp⟩⟩
          · next user huser =>
            split
            · left; exact ⟨rfl, Or.inr ⟨_, rfl, by simp⟩⟩
            · split
              · left; exact ⟨rfl, Or.inr ⟨_, rfl, by simp⟩⟩
              · right
                refine ⟨s, rfl, hs, ?_⟩
                simp only [removeDevice, indexOf, userIndex, huser]
                rw [erase_id_removeDevice db s hwf hmem.1, hu]
    · next hnone =>
      split
      · left; exact ⟨rfl, Or.inr ⟨_, rfl, by simp⟩⟩
      · left; exact ⟨rfl, Or.inl ⟨rfl, hnone⟩⟩

theorem mpaAccount_mem (db : Db) (pd : ProfileData) (acct : UserDoc)
    (h : mpaAccount db pd = .ok acct) : acct ∈ db.users := by
  unfold mpaAccount getAccountProfile at h
  split at h
  · simp only [if_true] at h
    split at h
    · simp at h
    · next pa hpa =>
      split at h
      · simp at h
      · simp only [Except.ok.injEq] at h
        subst h
        exact List.mem_of_find?_eq_some hpa
  · simp only [Bool.false_eq_true, if_false] at h
    split at h
    · simp at h
    · next pa hpa =>
      simp only [Except.ok.injEq] at h
      subst h
      exact List.mem_of_find?_eq_some hpa

theorem mpaAccount_find (db : Db) (pd : ProfileData) (acct : UserDoc) (hwf : WF db)
    (h : mpaAccount db pd = .ok acct) : findUserById db.users acct.id = some acct :=
  findUserById_of_mem _ _ hwf.2.2.1 (mpaAccount_mem db pd acct h)

theorem mpaAccount_index (db : Db) (pd : ProfileData) (acct : UserDoc) (hwf : WF db)
    (h : mpaAccount db pd = .ok acct) : indexOf db acct.id = acct.sessions := by
  simp [indexOf, userIndex, mpaAccount_find db pd acct hwf h]

/-- Outcomes of the two-stage eviction: an error with nothing committed, or one
session of the owner and its index entry removed. -/
theorem mpaEvict_cases (f : Faults) (now : Timestamp) (db : Db) (o : UserId) (hwf : WF db) :
    ((mpaEvict f now db o).2 = db ∧ ∃ e, (mpaEvict f now db o).1 = .error e) ∨
    (∃ s, s ∈ db.sessions ∧ s.user = o ∧
      mpaEvict f now db o = (.ok s, removeDevice db o s.device)) := by
  unfold mpaEvict
  have h1 := lid_cases f now db o hwf
  rcases hl : findAndRemoveLastInactiveDevice f now db o with ⟨r, db1⟩
  rw [hl] at h1
  simp only at h1
  rcases h1 with ⟨hdb, hr⟩ | ⟨s, hr, hs, hdb⟩
  · subst hdb
    rcases hr with hr | ⟨e, hr⟩
    · subst hr
      simp only
      have h2 := ois_cases f db1 o hwf
      rcases ho : findAndRemoveOldestInactiveSession f db1 o with ⟨r2, db2⟩
      rw [ho] at h2
      simp only at h2
      rcases h2 with ⟨hdb2, hr2⟩ | ⟨s, hr2, hs, hdb2⟩
      · subst hdb2
        rcases hr2 with ⟨hr2, _⟩ | ⟨e, hr2, _⟩
        · subst hr2; left; exact ⟨rfl, _, rfl⟩
        · subst hr2; left; exact ⟨rfl, _, rfl⟩
      · subst hr2 hdb2
        right
        have hmem := List.mem_filter.1 (oldestFirst_mem _ _ hs)
        exact ⟨s, hmem.1, by simpa using hmem.2, rfl⟩
    · subst hr; left; exact ⟨rfl, _, rfl⟩
  · subst hr hdb
    right
    have hmem := List.mem_filter.1 (oldestFirst_mem _ _ hs)
    refine ⟨s, hmem.1, ?_, rfl⟩
    have := hmem.2
    simp only [olderThan, Bool.and_eq_true, beq_iff_eq] at this
    exact this.1

/-- Outcomes of admission. -/
theorem mpaAdmit_cases (f : Faults) (now : Timestamp) (db : Db) (o : UserId)
    (ds : List (DeviceID × String)) (revoke : Bool) (count : Int) (hwf : WF db) :
    (mpaAdmit f now db o ds revoke count = (.ok ds, db) ∧
      ¬ (revoke = false ∧ count > (SessionModel.limit : Int))) ∨
    (revoke = false ∧ count > (SessionModel.limit : Int) ∧
      (mpaAdmit f now db o ds revoke count).2 = db ∧
      ∃ e, (mpaAdmit f now db o ds revoke count).1 = .error e) ∨
    (revoke = false ∧ count > (SessionModel.limit : Int) ∧
      ∃ s, s ∈ db.sessions ∧ s.user = o ∧
        mpaEvict f now db o = (.ok s, removeDevice db o s.device) ∧
        mpaAdmit f now db o ds revoke count =
          (.ok (mapDelete ds s.device), removeDevice db o s.device)) := by
  unfold mpaAdmit
  split
  · next hc =>
    simp only [Bool.and_eq_true, Bool.not_eq_true', decide_eq_true_eq] at hc
    right
    rcases mpaEvict_cases f now db o hwf with ⟨hdb, e, he⟩ | ⟨s, hs, hu, he⟩
    · left
      rcases hev : mpaEvict f now db o with ⟨r, db1⟩
      rw [hev] at hdb he
      simp only at hdb he
      subst hdb he
      exact ⟨hc.1, hc.2, rfl, _, rfl⟩
    · right
      rw [he]
      exact ⟨hc.1, hc.2, s, hs, hu, rfl, rfl⟩
  · next hc =>
    simp only [Bool.and_eq_true, Bool.not_eq_true', decide_eq_true_eq] at hc
    left
    exact ⟨rfl, hc⟩

theorem mpaRevoke_ok (f : Faults) (w w1 : Db) (o : UserId) (ds ds1 : List (DeviceID × String))
    (pd : ProfileData) (hwf : WF w) (h : mpaRevoke f w o ds pd = .ok (w1, ds1)) :
    (truthyStr pd.revokeDeviceSession = false ∧ w1 = w ∧ ds1 = ds) ∨
    (∃ r, pd.revokeDeviceSession = some r ∧ truthyStr (some r) = true ∧
      w1 = { w with sessions := w.sessions.filter (fun s => !isDeviceOf o r s) } ∧
      ds1 = mapDelete ds r) := by
  unfold mpaRevoke at h
  split at h
  · next r hr =>
    split at h
    · next ht =>
      split at h
      · simp at h
      · simp only [Except.ok.injEq, Prod.mk.injEq] at h
        right
        refine ⟨r, hr, ht, ?_, h.2.symm⟩
        rw [← h.1, erase_device_eq_filter _ _ _ hwf.2.1]
    · next ht =>
      simp only [Except.ok.injEq, Prod.mk.injEq] at h
      left
      rw [hr]
      exact ⟨by simpa using ht, h.1.symm, h.2.symm⟩
  · next hr =>
    simp only [Except.ok.injEq, Prod.mk.injEq] at h
    left
    rw [hr]
    exact ⟨rfl, h.1.symm, h.2.symm⟩

theorem create_ok (w w2 : Db) (m : SessionMeta) (acc : SessionRecord)
    (h : SessionModel.create w m = .ok (acc, w2)) :
    validNewSession m = true ∧ acc = newSessionRecord w.nextId m ∧
    w.sessions.any (isDeviceOf acc.user acc.device) = false ∧
    w2 = { w with sessions := w.sessions ++ [acc], nextId := w.nextId + 1 } := by
  unfold SessionModel.create at h
  split at h
  · simp at h
  · next hv =>
    simp only at h
    split at h
    · simp at h
    · next hd =>
      simp only [Except.ok.injEq, Prod.mk.injEq] at h
      obtain ⟨h1, h2⟩ := h
      subst h1
      refine ⟨by simpa using hv, rfl, by simpa using hd, h2.symm⟩

theorem findOneAndUpdate_ok (w w2 : Db) (o : UserId) (d : DeviceID) (m : SessionMeta)
    (r : Option SessionRecord) (h : SessionModel.findOneAndUpdate w o d m = .ok (r, w2)) :
    validSessionUpdate m = true ∧
    ((r = none ∧ w2 = w ∧ w.sessions.find? (isDeviceOf o d) = none) ∨
     (∃ s, w.sessions.find? (isDeviceOf o d) = some s ∧ r = some (applySessionMeta m s) ∧
       w2 = { w with sessions :=
                updateOneSession (isDeviceOf o d) (applySessionMeta m) w.sessions })) := by
  unfold SessionModel.findOneAndUpdate at h
  split at h
  · simp at h
  · next hv =>
    refine ⟨by simpa using hv, ?_⟩
    split at h
    · next hn =>
      simp only [Except.ok.injEq, Prod.mk.injEq] at h
      left
      exact ⟨h.1.symm, h.2.symm, hn⟩
    · next s hs =>
      simp only [Except.ok.injEq, Prod.mk.injEq] at h
      right
      exact ⟨s, hs, h.1.symm, h.2.symm⟩

theorem mpaUpsert_ok (f : Faults) (w w2 : Db) (o : UserId) (nd : Bool) (m : SessionMeta)
    (pd : ProfileData) (acc : SessionRecord) (h : mpaUpsert f w o nd m pd = .ok (acc, w2)) :
    (validNewSession m = true ∧ acc = newSessionRecord w.nextId m ∧
      w.sessions.any (isDeviceOf acc.user acc.device) = false ∧
      w2 = { w with sessions := w.sessions ++ [acc], nextId := w.nextId + 1 } ∧
      (nd = true ∨ w.sessions.find? (isDeviceOf o pd.device) = none)) ∨
    (nd = false ∧ validSessionUpdate m = true ∧
      ∃ s, w.sessions.find? (isDeviceOf o pd.device) = some s ∧ acc = applySessionMeta m s ∧
        w2 = { w with sessions :=
                 updateOneSession (isDeviceOf o pd.device) (applySessionMeta m) w.sessions }) := by
  unfold mpaUpsert at h
  split at h
  · next hnd =>
    split at h
    · simp at h
    · left
      obtain ⟨h1, h2, h3, h4⟩ := create_ok _ _ _ _ h
      exact ⟨h1, h2, h3, h4, Or.inl hnd⟩
  · next hnd =>
    split at h
    · simp at h
    · split at h
      · simp at h
      · next s w1 hfu =>
        simp only [Except.ok.injEq, Prod.mk.injEq] at h
        obtain ⟨hv, hc⟩ := findOneAndUpdate_ok _ _ _ _ _ _ hfu
        rcases hc with ⟨hr, _, _⟩ | ⟨s0, hs0, hr, hw⟩
        · simp at hr
        · right
          simp only [Option.some.injEq] at hr
          refine ⟨by simpa using hnd, hv, s0, hs0, ?_, ?_⟩
          · rw [← h.1, hr]
          · rw [← h.2, hw]
      · next w1 hfu =>
        obtain ⟨hv, hc⟩ := findOneAndUpdate_ok _ _ _ _ _ _ hfu
        rcases hc with ⟨_, hw, hn⟩ | ⟨s0, _, hr, _⟩
        · subst hw
          split at h
          · simp at h
          · left
            obtain ⟨h1, h2, h3, h4⟩ := create_ok _ _ _ _ h
            exact ⟨h1, h2, h3, h4, Or.inr hn⟩
        · simp at hr

theorem mpaIndexUpdate_ok (f : Faults) (w w3 : Db) (o : UserId) (ds : List (DeviceID × String))
    (pd : ProfileData) (h : mpaIndexUpdate f w o ds pd = .ok w3) :
    w3 = { w with users :=
             updateUserById o (applyAccountMeta pd (mapSet ds pd.device pd.deviceAgent)) w.users } := by
  unfold mpaIndexUpdate at h
  split at h
  · simp at h
  · simp only at h
    split at h
    · simp at h
    · simp only [Except.ok.injEq] at h
      exact h.symm

/-- A successful `mpaWrite` factors through its three steps. -/
theorem mpaWrite_ok (f : Faults) (w w3 : Db) (o : UserId) (ds : List (DeviceID × String))
    (nd : Bool) (m : SessionMeta) (pd : ProfileData) (acc : SessionRecord)
    (h : mpaWrite f w o ds nd m pd = .ok (acc, w3)) :
    ∃ w1 ds1 w2, mpaRevoke f w o ds pd = .ok (w1, ds1) ∧
      mpaUpsert f w1 o nd m pd = .ok (acc, w2) ∧
      mpaIndexUpdate f w2 o ds1 pd = .ok w3 := by
  unfold mpaWrite at h
  split at h
  · simp at h
  · next w1 ds1 h1 =>
    split at h
    · simp at h
    · next a w2 h2 =>
      split at h
      · simp at h
      · next w3' h3 =>
        simp only [Except.ok.injEq, Prod.mk.injEq] at h
        obtain ⟨ha, hw⟩ := h
        subst ha hw
        exact ⟨w1, ds1, w2, h1, h2, h3⟩

theorem applyAccountMeta_id (pd : ProfileData) (ds : List (DeviceID × String)) (u : UserDoc) :
    (applyAccountMeta pd ds u).id = u.id := by
  unfold applyAccountMeta; split <;> rfl

theorem applyAccountMeta_sessions (pd : ProfileData) (ds : List (DeviceID × String))
    (u : UserDoc) : (applyAccountMeta pd ds u).sessions = ds := by
  unfold applyAccountMeta; split <;> rfl

theorem validNew_getSessionData (jwt : JwtEnv) (o : UserId) (pd : ProfileData) (fs c : Bool)
    (h : validNewSession (getSessionData jwt o pd fs c) = true) : c = true := by
  cases c with
  | true => rfl
  | false => simp [validNewSession, getSessionData] at h

theorem newSessionRecord_user (jwt : JwtEnv) (o : UserId) (pd : ProfileData) (fs : Bool)
    (n : Nat) : (newSessionRecord n (getSessionData jwt o pd fs true)).user = o := by
  simp [newSessionRecord, getSessionData]

theorem newSessionRecord_device (jwt : JwtEnv) (o : UserId) (pd : ProfileData) (fs : Bool)
    (n : Nat) : (newSessionRecord n (getSessionData jwt o pd fs true)).device = pd.device := by
  simp [newSessionRecord, getSessionData]

theorem applySessionMeta_user (jwt : JwtEnv) (o : UserId) (pd : ProfileData) (fs c : Bool)
    (s : SessionRecord) (hs : s.user = o) :
    (applySessionMeta (getSessionData jwt o pd fs c) s).user = o := by
  cases c <;> simp [applySessionMeta, getSessionData, hs]

theorem applySessionMeta_device (jwt : JwtEnv) (o : UserId) (pd : ProfileData) (fs c : Bool)
    (s : SessionRecord) (hs : s.device = pd.device) :
    (applySessionMeta (getSessionData jwt o pd fs c) s).device = pd.device := by
  cases c <;> simp [applySessionMeta, getSessionData, hs]

theorem applySessionMeta_id (m : SessionMeta) (s : SessionRecord) :
    (applySessionMeta m s).id = s.id := rfl

theorem find_isDeviceOf (ss : List SessionRecord) (o : UserId) (d : DeviceID)
    (s : SessionRecord) (h : ss.find? (isDeviceOf o d) = some s) :
    s ∈ ss ∧ s.user = o ∧ s.device = d := by
  refine ⟨List.mem_of_find?_eq_some h, ?_⟩
  have := List.find?_some h
  simpa [isDeviceOf] using this

theorem find_isDeviceOf_none (ss : List SessionRecord) (o : UserId) (d : DeviceID)
    (h : ss.find? (isDeviceOf o d) = none) :
    ∀ s ∈ ss, ¬ (s.user = o ∧ s.device = d) := by
  intro s hs hsd
  have := List.find?_eq_none.1 h s hs
  simp [isDeviceOf, hsd.1, hsd.2] at this

/-- An in-place update that keeps `user` and `device` on the matched documents keeps
the list of `(user, device)` keys. -/
theorem keys_updateOne (p : SessionRecord → Bool) (g : SessionRecord → SessionRecord)
    (ss : List SessionRecord)
    (hg : ∀ s, p s = true → (g s).user = s.user ∧ (g s).device = s.device) :
    (updateOneSession p g ss).map (fun s => (s.user, s.device)) =
      ss.map (fun s => (s.user, s.device)) := by
  induction ss with
  | nil => rfl
  | cons a t ih =>
    unfold updateOneSession
    split
    · next hp => simp [hg a hp]
    · simp [ih]

theorem ids_updateOne (p : SessionRecord → Bool) (g : SessionRecord → SessionRecord)
    (ss : List SessionRecord) (hg : ∀ s, (g s).id = s.id) :
    (updateOneSession p g ss).map (fun s => s.id) = ss.map (fun s => s.id) := by
  induction ss with
  | nil => rfl
  | cons a t ih =>
    unfold updateOneSession
    split
    · simp [hg a]
    · simp [ih]

theorem mem_pairs (ss : List SessionRecord) (u : UserId) (d : DeviceID) :
    (u, d) ∈ ss.map (fun s => (s.user, s.device)) ↔ ∃ s ∈ ss, s.user = u ∧ s.device = d := by
  simp only [List.mem_map, Prod.mk.injEq]

theorem Mirror_congr_pairs (ss ss1 : List SessionRecord) (keys : List DeviceID) (u : UserId)
    (h : ss1.map (fun s => (s.user, s.device)) = ss.map (fun s => (s.user, s.device)))
    (hm : Mirror ss keys u) : Mirror ss1 keys u := by
  intro d
  rw [hm d, ← mem_pairs, ← mem_pairs, h]

theorem Mirror_filter_self (ss : List SessionRecord) (m : List (DeviceID × String))
    (o : UserId) (r : DeviceID) (h : Mirror ss (mapKeys m) o) :
    Mirror (ss.filter (fun s => !isDeviceOf o r s)) (mapKeys (mapDelete m r)) o := by
  intro k
  rw [mem_mapKeys_mapDelete, h k]
  simp only [List.mem_filter, isDeviceOf]
  constructor
  · rintro ⟨⟨s, hs, hu, hd⟩, hne⟩
    refine ⟨s, ⟨hs, ?_⟩, hu, hd⟩
    simp [hu, hd, hne]
  · rintro ⟨s, ⟨hs, hn⟩, hu, hd⟩
    refine ⟨⟨s, hs, hu, hd⟩, ?_⟩
    intro hkd
    simp [hu, hd, hkd] at hn

theorem Mirror_filter_other (ss : List SessionRecord) (keys : List DeviceID)
    (o U : UserId) (r : DeviceID) (hU : U ≠ o) (h : Mirror ss keys U) :
    Mirror (ss.filter (fun s => !isDeviceOf o r s)) keys U := by
  intro k
  rw [h k]
  simp only [List.mem_filter, isDeviceOf]
  constructor
  · rintro ⟨s, hs, hu, hd⟩
    refine ⟨s, ⟨hs, ?_⟩, hu, hd⟩
    simp [hu, hU]
  · rintro ⟨s, ⟨hs, _⟩, hu, hd⟩
    exact ⟨s, hs, hu, hd⟩

theorem Mirror_append_self (ss : List SessionRecord) (m : List (DeviceID × String))
    (o : UserId) (acc : SessionRecord) (a : String) (hacc : acc.user = o)
    (h : Mirror ss (mapKeys m) o) :
    Mirror (ss ++ [acc]) (mapKeys (mapSet m acc.device a)) o := by
  intro k
  rw [mem_mapKeys_mapSet, h k]
  simp only [List.mem_append, List.mem_singleton]
  constructor
  · rintro (⟨s, hs, hu, hd⟩ | hk)
    · exact ⟨s, Or.inl hs, hu, hd⟩
    · exact ⟨acc, Or.inr rfl, hacc, hk.symm⟩
  · rintro ⟨s, hs | hs, hu, hd⟩
    · exact Or.inl ⟨s, hs, hu, hd⟩
    · right; rw [← hd, hs]

theorem Mirror_append_other (ss : List SessionRecord) (keys : List DeviceID)
    (U : UserId) (acc : SessionRecord) (hacc : acc.user ≠ U) (h : Mirror ss keys U) :
    Mirror (ss ++ [acc]) keys U := by
  intro k
  rw [h k]
  simp only [List.mem_append, List.mem_singleton]
  constructor
  · rintro ⟨s, hs, hu, hd⟩
    exact ⟨s, Or.inl hs, hu, hd⟩
  · rintro ⟨s, hs | hs, hu, hd⟩
    · exact ⟨s, hs, hu, hd⟩
    · exact absurd (hs ▸ hu) hacc

theorem Mirror_set_present (ss : List SessionRecord) (m : List (DeviceID × String))
    (o : UserId) (d : DeviceID) (a : String) (h : Mirror ss (mapKeys m) o)
    (hd : ∃ s ∈ ss, s.user = o ∧ s.device = d) :
    Mirror ss (mapKeys (mapSet m d a)) o := by
  intro k
  rw [mem_mapKeys_mapSet, ← h k]
  constructor
  · rintro (hk | hk)
    · exact hk
    · rw [hk]; exact (h d).2 hd
  · intro hk; exact Or.inl hk

theorem indexKeys_accountMeta (us : List UserDoc) (ss : List SessionRecord) (n : Nat)
    (o U : UserId) (pd : ProfileData) (ds : List (DeviceID × String)) (u : UserDoc)
    (hu : findUserById us o = some u) :
    indexOf { sessions := ss, users := updateUserById o (applyAccountMeta pd ds) us,
              nextId := n } U =
      if U = o then ds else userIndex us U := by
  unfold indexOf
  simp only
  rw [userIndex_update o U (applyAccountMeta pd ds) (applyAccountMeta_id pd ds) us]
  by_cases hU : U = o
  · simp only [hU, if_true, hu, applyAccountMeta_sessions]
  · simp only [hU, if_false]

/-- The transactional writes of a login keep the mirror invariant of every user, on
the working copy. -/
theorem mpaWrite_I2 (f : Faults) (jwt : JwtEnv) (w w3 : Db) (o U : UserId) (nd fs c : Bool)
    (pd : ProfileData) (acc : SessionRecord) (u : UserDoc) (hwf : WF w)
    (hu : findUserById w.users o = some u)
    (h : mpaWrite f w o (indexOf w o) nd (getSessionData jwt o pd fs c) pd = .ok (acc, w3))
    (hI : I2 w U) : I2 w3 U := by
  obtain ⟨w1, ds1, w2, h1, h2, h3⟩ := mpaWrite_ok _ _ _ _ _ _ _ _ _ h
  have h3' := mpaIndexUpdate_ok _ _ _ _ _ _ h3
  rw [I2_iff_mirror] at hI ⊢
  -- after the revoke step
  have hA : w1.users = w.users ∧ w1.nextId = w.nextId ∧
      Mirror w1.sessions (if U = o then mapKeys ds1 else indexKeys w U) U := by
    rcases mpaRevoke_ok _ _ _ _ _ _ _ hwf h1 with ⟨_, hw1, hds1⟩ | ⟨r, _, _, hw1, hds1⟩
    · subst hw1 hds1
      refine ⟨rfl, rfl, ?_⟩
      by_cases hU : U = o
      · subst hU; simpa using hI
      · simpa [hU] using hI
    · subst hw1 hds1
      refine ⟨rfl, rfl, ?_⟩
      by_cases hU : U = o
      · subst hU
        simp only [if_true]
        exact Mirror_filter_self _ _ _ _ hI
      · simp only [hU, if_false]
        exact Mirror_filter_other _ _ _ _ _ hU hI
  obtain ⟨hAu, _, hAm⟩ := hA
  -- after the create-or-update step
  have hB : w2.users = w.users ∧
      Mirror w2.sessions
        (if U = o then mapKeys (mapSet ds1 pd.device pd.deviceAgent) else indexKeys w U) U := by
    rcases mpaUpsert_ok _ _ _ _ _ _ _ _ h2 with ⟨hv, hacc, _, hw2, _⟩ | ⟨_, _, s, hs, hacc, hw2⟩
    · have hc := validNew_getSessionData _ _ _ _ _ hv
      subst hc
      have hau : acc.user = o := by rw [hacc]; exact newSessionRecord_user _ _ _ _ _
      have had : acc.device = pd.device := by rw [hacc]; exact newSessionRecord_device _ _ _ _ _
      subst hw2
      refine ⟨hAu, ?_⟩
      by_cases hU : U = o
      · subst hU
        simp only [if_true] at hAm ⊢
        rw [← had]
        exact Mirror_append_self _ _ _ _ _ hau hAm
      · simp only [hU, if_false] at hAm ⊢
        exact Mirror_append_other _ _ _ _ (by rw [hau]; exact fun hh => hU hh.symm) hAm
    · obtain ⟨hsm, hsu, hsd⟩ := find_isDeviceOf _ _ _ _ hs
      subst hw2
      refine ⟨hAu, ?_⟩
      have hkeys := keys_updateOne (isDeviceOf o pd.device)
        (applySessionMeta (getSessionData jwt o pd fs c)) w1.sessions
        (by
          intro s hp
          simp only [isDeviceOf, Bool.and_eq_true, beq_iff_eq] at hp
          rw [applySessionMeta_user _ _ _ _ _ _ hp.1, applySessionMeta_device _ _ _ _ _ _ hp.2]
          exact ⟨hp.1.symm, hp.2.symm⟩)
      by_cases hU : U = o
      · subst hU
        simp only [if_true] at hAm ⊢
        apply Mirror_congr_pairs _ _ _ _ hkeys
        exact Mirror_set_present _ _ _ _ _ hAm ⟨s, hsm, hsu, hsd⟩
      · simp only [hU, if_false] at hAm ⊢
        exact Mirror_congr_pairs _ _ _ _ hkeys hAm
  obtain ⟨hBu, hBm⟩ := hB
  subst h3'
  have hix : indexKeys
      { sessions := w2.sessions,
        users := updateUserById o
          (applyAccountMeta pd (mapSet ds1 pd.device pd.deviceAgent)) w2.users,
        nextId := w2.nextId } U =
      (if U = o then mapKeys (mapSet ds1 pd.device pd.deviceAgent) else indexKeys w U) := by
    unfold indexKeys
    rw [indexKeys_accountMeta w2.users _ _ o U pd _ u (by rw [hBu]; exact hu)]
    by_cases hU : U = o
    · simp only [hU, if_true]
    · simp only [hU, if_false, indexOf, hBu]
  rw [hix]
  exact hBm

theorem indexOf_removeDevice_self (db : Db) (o : UserId) (d : DeviceID) (u : UserDoc)
    (hu : findUserById db.users o = some u) :
    indexOf (removeDevice db o d) o = mapDelete (indexOf db o) d := by
  simp only [indexOf, removeDevice, userIndex_save, if_true, hu, Option.isSome_some]

theorem indexOf_removeDevice_other (db : Db) (o U : UserId) (d : DeviceID) (hU : U ≠ o) :
    indexOf (removeDevice db o d) U = indexOf db U := by
  simp only [indexOf, removeDevice, userIndex_save, hU, if_false]

theorem findUserById_removeDevice (db : Db) (o : UserId) (d : DeviceID) (u : UserDoc)
    (hu : findUserById db.users o = some u) :
    ∃ u1, findUserById (removeDevice db o d).users o = some u1 := by
  simp only [removeDevice, saveUserSessions]
  rw [findUserById_update o o (fun u => { u with sessions := mapDelete (indexOf db o) d })
    (fun _ => rfl)]
  simp [hu]

/-- The shape of every run of `manageProfileAccount`: it fails with nothing
committed, or it reaches the transactional writes on a database `db1` that is the
initial one or the initial one minus one evicted device of the owner. -/
theorem mpa_cases (f : Faults) (jwt : JwtEnv) (now : Timestamp) (db : Db) (pd : ProfileData)
    (hwf : WF db) :
    ((manageProfileAccount f jwt now db pd).2 = db ∧
      ∃ e, (manageProfileAccount f jwt now db pd).1 = .error e) ∨
    (∃ acct db1, mpaAccount db pd = .ok acct ∧
      f .mpaFindAccount = false ∧ f .mpaFindDevice = false ∧
      (truthyStr pd.revokeDeviceSession = true →
        mapHas acct.sessions (pd.revokeDeviceSession.getD "") = true) ∧
      ((db1 = db ∧
          ¬ (truthyStr pd.revokeDeviceSession = false ∧
             prospectiveCount acct.sessions (truthyStr pd.revokeDeviceSession)
               (!mapHas acct.sessions pd.device) > (SessionModel.limit : Int))) ∨
        (truthyStr pd.revokeDeviceSession = false ∧
          prospectiveCount acct.sessions (truthyStr pd.revokeDeviceSession)
            (!mapHas acct.sessions pd.device) > (SessionModel.limit : Int) ∧
          ∃ s, s ∈ db.sessions ∧ s.user = acct.id ∧
            mpaEvict f now db acct.id = (.ok s, removeDevice db acct.id s.device) ∧
            db1 = removeDevice db acct.id s.device)) ∧
      manageProfileAccount f jwt now db pd =
        mpaFinish f db1 acct pd
          (mpaWrite f db1 acct.id (indexOf db1 acct.id) (!mapHas acct.sessions pd.device)
            (getSessionData jwt acct.id pd acct.forSystem
              (validSessionDevice db acct.id pd.device).isNone) pd)) := by
  unfold manageProfileAccount
  split
  · left; exact ⟨rfl, _, rfl⟩
  · next hfa =>
    split
    · left; exact ⟨rfl, _, rfl⟩
    · next acct hacct =>
      simp only
      split
      · left; exact ⟨rfl, _, rfl⟩
      · next hfd =>
        split
        · left; exact ⟨rfl, _, rfl⟩
        · next hrev =>
          have hidx := mpaAccount_index db pd acct hwf hacct
          have hfind := mpaAccount_find db pd acct hwf hacct
          rcases mpaAdmit_cases f now db acct.id acct.sessions
              (truthyStr pd.revokeDeviceSession)
              (prospectiveCount acct.sessions (truthyStr pd.revokeDeviceSession)
                (!mapHas acct.sessions pd.device)) hwf with
            ⟨ha, hc⟩ | ⟨_, _, hdb, e, he⟩ | ⟨hr, hc, s, hs, hu, hev, ha⟩
          · right
            rw [ha]
            simp only
            refine ⟨acct, db, hacct, by simpa using hfa, by simpa using hfd, ?_, Or.inl ⟨rfl, hc⟩,
              ?_⟩
            · intro ht
              simp only [ht, Bool.true_and, Bool.not_eq_true', Bool.not_eq_false] at hrev
              simpa using hrev
            · rw [hidx]
          · left
            rcases hadm : mpaAdmit f now db acct.id acct.sessions
              (truthyStr pd.revokeDeviceSession)
              (prospectiveCount acct.sessions (truthyStr pd.revokeDeviceSession)
                (!mapHas acct.sessions pd.device)) with ⟨r, db1⟩
            rw [hadm] at hdb he
            simp only at hdb he
            subst hdb he
            exact ⟨rfl, _, rfl⟩
          · right
            rw [ha]
            simp only
            refine ⟨acct, removeDevice db acct.id s.device, hacct, by simpa using hfa,
              by simpa using hfd, ?_, Or.inr ⟨hr, hc, s, hs, hu, hev, rfl⟩, ?_⟩
            · intro ht
              rw [hr] at ht
              simp at ht
            · rw [indexOf_removeDevice_self db acct.id s.device acct hfind, hidx]

theorem mpaFinish_cases (f : Faults) (db1 : Db) (acct : UserDoc) (pd : ProfileData)
    (r : Except Err (SessionRecord × Db)) :
    ((mpaFinish f db1 acct pd r).2 = db1 ∧ ∃ e, (mpaFinish f db1 acct pd r).1 = .error e) ∨
    (∃ acc w, r = .ok (acc, w) ∧ f .mpaCommit = false ∧
      mpaFinish f db1 acct pd r =
        (.ok { identity := acct.id, accessToken := acc.accessToken,
               refreshToken := acc.refreshToken, session := acc.id, device := pd.device,
               type := userType acct }, w)) := by
  unfold mpaFinish
  split
  · left; exact ⟨rfl, _, rfl⟩
  · next acc w =>
    split
    · left; exact ⟨rfl, _, rfl⟩
    · next hc =>
      right
      exact ⟨acc, w, rfl, by simpa using hc, rfl⟩

theorem mpa_I2 (f : Faults) (jwt : JwtEnv) (now : Timestamp) (db : Db) (pd : ProfileData)
    (U : UserId) (hwf : WF db) (hI : I2 db U) :
    I2 (manageProfileAccount f jwt now db pd).2 U := by
  rcases mpa_cases f jwt now db pd hwf with ⟨h, _⟩ | ⟨acct, db1, hacct, _, _, _, hdb1, heq⟩
  · rw [h]; exact hI
  · have hfind := mpaAccount_find db pd acct hwf hacct
    have h1 : WF db1 ∧ I2 db1 U ∧ ∃ u1, findUserById db1.users acct.id = some u1 := by
      rcases hdb1 with ⟨h, _⟩ | ⟨_, _, s, _, _, _, h⟩
      · subst h; exact ⟨hwf, hI, acct, hfind⟩
      · subst h
        exact ⟨WF_removeDevice _ _ _ hwf, I2_removeDevice _ _ _ _ hI,
          findUserById_removeDevice _ _ _ _ hfind⟩
    obtain ⟨hwf1, hI1, u1, hu1⟩ := h1
    rw [heq]
    rcases mpaFinish_cases f db1 acct pd
        (mpaWrite f db1 acct.id (indexOf db1 acct.id) (!mapHas acct.sessions pd.device)
          (getSessionData jwt acct.id pd acct.forSystem
            (validSessionDevice db acct.id pd.device).isNone) pd) with
      ⟨h, _⟩ | ⟨acc, w, hw, _, h⟩
    · rw [h]; exact hI1
    · rw [h]
      exact mpaWrite_I2 f jwt db1 w acct.id U _ _ _ pd acc u1 hwf1 hu1 hw hI1

theorem I2_filter_only (db : Db) (o U : UserId) (d : DeviceID)
    (hd : U = o → d ∉ indexKeys db o) (hI : I2 db U) :
    I2 { db with sessions := db.sessions.filter (fun s => !isDeviceOf o d s) } U := by
  rw [I2_iff_mirror] at hI ⊢
  have hk : indexKeys { db with sessions := db.sessions.filter (fun s => !isDeviceOf o d s) } U
      = indexKeys db U := rfl
  rw [hk]
  by_cases hU : U = o
  · subst hU
    intro k
    rw [hI k]
    simp only [List.mem_filter, isDeviceOf]
    constructor
    · rintro ⟨s, hs, hu, hdv⟩
      refine ⟨s, ⟨hs, ?_⟩, hu, hdv⟩
      have : ¬ k = d := by
        intro hkd
        apply hd rfl
        rw [← hkd]
        exact (hI k).2 ⟨s, hs, hu, hdv⟩
      simp [hu, hdv, this]
    · rintro ⟨s, ⟨hs, _⟩, hu, hdv⟩
      exact ⟨s, hs, hu, hdv⟩
  · exact Mirror_filter_other _ _ _ _ _ hU hI

theorem removeDevice_eq (db : Db) (o : UserId) (d : DeviceID) (u : UserDoc)
    (hu : findUserById db.users o = some u) :
    ({ db with sessions := db.sessions.filter (fun s => !isDeviceOf o d s),
               users := saveUserSessions db.users o (mapDelete u.sessions d) } : Db) =
      removeDevice db o d := by
  simp [removeDevice, indexOf, userIndex, hu]

theorem any_isDeviceOf (ss : List SessionRecord) (o : UserId) (d : DeviceID) :
    ss.any (isDeviceOf o d) = true ↔ ∃ s ∈ ss, s.user = o ∧ s.device = d := by
  simp [List.any_eq_true, isDeviceOf]

theorem tds_I2 (f : Faults) (db : Db) (o U : UserId) (d : DeviceID) (hwf : WF db)
    (hI : I2 db U) : I2 (terminateDeviceSession f db o d).2 U := by
  unfold terminateDeviceSession
  split
  · exact hI
  · split
    · exact hI
    · next hany =>
      simp only [Bool.not_eq_true', Bool.not_eq_false] at hany
      rw [any_isDeviceOf] at hany
      simp only
      rw [erase_device_eq_filter _ _ _ hwf.2.1]
      split
      · exact hI
      · split
        · next user hu =>
          split
          · split
            · exact hI
            · split
              · exact hI
              · rw [removeDevice_eq db o d user hu]
                exact I2_removeDevice _ _ _ _ hI
          · next hhas =>
            split
            · exact hI
            · apply I2_filter_only _ _ _ _ _ hI
              intro _
              rw [indexKeys, indexOf, userIndex, hu, ← mapHas_iff]
              exact hhas
        · next hu =>
          split
          · exact hI
          · apply I2_filter_only _ _ _ _ _ hI
            intro _
            simp [indexKeys, indexOf, userIndex, hu, mapKeys]

theorem ts_I2 (f : Faults) (db : Db) (U : UserId) (sid : Nat) (hwf : WF db)
    (hI : I2 db U) : I2 (terminateSession f db sid).2 U := by
  unfold terminateSession
  split
  · exact hI
  · split
    · exact hI
    · next doc hdoc =>
      have hmem := List.mem_of_find?_eq_some hdoc
      have hid : doc.id = sid := by simpa using List.find?_some hdoc
      have her := erase_id_removeDevice db doc hwf hmem
      rw [hid] at her
      simp only
      rw [her]
      split
      · exact hI
      · split
        · exact hI
        · split
          · next user hu =>
            split
            · split
              · exact hI
              · split
                · exact hI
                · rw [removeDevice_eq db doc.user doc.device user hu]
                  exact I2_removeDevice _ _ _ _ hI
            · next hhas =>
              split
              · exact hI
              · apply I2_filter_only _ _ _ _ _ hI
                intro _
                rw [indexKeys, indexOf, userIndex, hu, ← mapHas_iff]
                exact hhas
          · next hu =>
            split
            · exact hI
            · apply I2_filter_only _ _ _ _ _ hI
              intro _
              simp [indexKeys, indexOf, userIndex, hu, mapKeys]

theorem mem_mapKeys_foldl_mapDelete (l : List DeviceID) (m : List (DeviceID × String))
    (k : DeviceID) : k ∈ mapKeys (l.foldl mapDelete m) ↔ k ∈ mapKeys m ∧ k ∉ l := by
  induction l generalizing m with
  | nil => simp
  | cons a t ih =>
    simp only [List.foldl_cons, ih, mem_mapKeys_mapDelete, List.mem_cons, not_or]
    tauto

theorem indexKeys_save (db : Db) (ss : List SessionRecord) (n : Nat) (o U : UserId)
    (m : List (DeviceID × String)) (u : UserDoc) (hu : findUserById db.users o = some u) :
    indexKeys { sessions := ss, users := saveUserSessions db.users o m, nextId := n } U =
      if U = o then mapKeys m else indexKeys db U := by
  simp only [indexKeys, indexOf, userIndex_save, hu, Option.isSome_some, if_true]
  by_cases hU : U = o
  · simp only [hU, if_true]
  · simp only [hU, if_false]

/-- The orphan sweep: once the keys without a session record are dropped from a map
that lists every device with a record, its keys mirror the session records. -/
theorem Mirror_sweep (ss : List SessionRecord) (m : List (DeviceID × String)) (o : UserId)
    (hsub : ∀ s ∈ ss, s.user = o → s.device ∈ mapKeys m) :
    Mirror ss
      (mapKeys (((mapKeys m).filter
        (fun d => !((ss.filter (fun s => s.user == o)).map (fun s => s.device)).contains d)).foldl
          mapDelete m)) o := by
  intro k
  rw [mem_mapKeys_foldl_mapDelete]
  have hc : ((ss.filter (fun s => s.user == o)).map (fun s => s.device)).contains k = true ↔
      ∃ s ∈ ss, s.user = o ∧ s.device = k := by
    rw [List.contains_iff_exists_mem_beq]
    simp only [List.mem_map, List.mem_filter, beq_iff_eq]
    constructor
    · rintro ⟨x, ⟨s, ⟨hs, hu⟩, hd⟩, hx⟩; exact ⟨s, hs, hu, by rw [hd, hx]⟩
    · rintro ⟨s, hs, hu, hd⟩; exact ⟨s.device, ⟨s, ⟨hs, hu⟩, rfl⟩, hd.symm⟩
  rw [← hc]
  simp only [List.mem_filter, Bool.not_eq_true', not_and, Bool.not_eq_false]
  constructor
  · rintro ⟨hk, hn⟩
    exact hn hk
  · intro hk
    refine ⟨?_, fun _ => hk⟩
    obtain ⟨s, hs, hu, hd⟩ := hc.1 hk
    exact hd ▸ hsub s hs hu

theorem rad_I2 (f : Faults) (db : Db) (o U : UserId) (d : DeviceID) (hwf : WF db)
    (hI : I2 db U) : I2 (revokeAuthDevice f db o d).2 U := by
  unfold revokeAuthDevice
  split
  · exact hI
  · split
    · exact hI
    · next account hacc =>
      split
      · exact hI
      · split
        · exact hI
        · simp only
          split
          · exact hI
          · split
            · exact hI
            · split
              · exact hI
              · rw [erase_device_eq_filter _ _ _ hwf.2.1]
                have hds : (if mapHas account.sessions d = true then mapDelete account.sessions d
                    else account.sessions) = mapDelete account.sessions d := by
                  split
                  · rfl
                  · next hh =>
                    symm
                    unfold mapDelete
                    rw [List.filter_eq_self]
                    intro e he
                    simp only [Bool.not_eq_true', Bool.not_eq_true] at hh ⊢
                    by_contra hc
                    simp only [Bool.not_eq_false, Bool.not_eq_true', beq_iff_eq] at hc
                    have : mapHas account.sessions d = true := by
                      rw [mapHas_iff]
                      exact List.mem_map.2 ⟨e, he, by simpa using hc⟩
                    rw [this] at hh
                    exact absurd hh (by simp)
                rw [hds]
                rw [I2_iff_mirror] at hI ⊢
                rw [indexKeys_save db _ _ o U _ account hacc]
                by_cases hU : U = o
                · subst hU
                  simp only [if_true]
                  apply Mirror_sweep
                  intro s hs hu
                  have hI' : Mirror db.sessions (mapKeys account.sessions) U := by
                    simpa [indexKeys, indexOf, userIndex, hacc] using hI
                  have hm := Mirror_filter_self _ _ _ d hI'
                  exact (hm s.device).2 ⟨s, hs, hu, rfl⟩
                · simp only [hU, if_false]
                  exact Mirror_filter_other _ _ _ _ _ hU hI

theorem tus_I2 (f : Faults) (db : Db) (o U : UserId) (hI : I2 db U) :
    I2 (terminateUserSessions f db o).2 U := by
  have key : ∀ (keys : List DeviceID),
      (U = o → keys = []) → (U ≠ o → keys = indexKeys db U) →
      Mirror (db.sessions.filter (fun s => !(s.user == o))) keys U := by
    intro keys h1 h2 k
    rw [I2_iff_mirror] at hI
    by_cases hU : U = o
    · subst hU
      rw [h1 rfl]
      simp only [List.not_mem_nil, List.mem_filter, false_iff, not_exists, not_and]
      intro s hs hu
      simp [hu] at hs
    · rw [h2 hU, hI k]
      simp only [List.mem_filter]
      constructor
      · rintro ⟨s, hs, hu, hd⟩
        refine ⟨s, ⟨hs, ?_⟩, hu, hd⟩
        simp [hu, hU]
      · rintro ⟨s, ⟨hs, _⟩, hu, hd⟩
        exact ⟨s, hs, hu, hd⟩
  unfold terminateUserSessions
  split
  · exact hI
  · simp only
    split
    · exact hI
    · split
      · next user hu =>
        split
        · exact hI
        · split
          · exact hI
          · rw [I2_iff_mirror]
            apply key
            · intro hU
              rw [indexKeys_save db _ _ o U _ user hu]
              simp [hU, mapKeys]
            · intro hU
              rw [indexKeys_save db _ _ o U _ user hu]
              simp [hU]
      · next hu =>
        split
        · exact hI
        · rw [I2_iff_mirror]
          apply key
          · intro hU
            simp [indexKeys, indexOf, userIndex, hU, hu, mapKeys]
          · intro _
            rfl

theorem vus_I2 (f : Faults) (db : Db) (o U : UserId) (hI : I2 db U) :
    I2 (validateUserSessionMap f db o).2 U := by
  unfold validateUserSessionMap
  split
  · exact hI
  · simp only
    split
    · split <;> exact hI
    · next user hu =>
      split
      · split <;> exact hI
      · split
        · exact hI
        · split
          · split
            · exact hI
            · split
              · exact hI
              · rw [I2_iff_mirror] at hI ⊢
                rw [indexKeys_save db _ _ o U _ user hu]
                by_cases hU : U = o
                · subst hU
                  simp only [if_true]
                  apply Mirror_sweep
                  intro s hs hsu
                  have hI' : Mirror db.sessions (mapKeys user.sessions) U := by
                    simpa [indexKeys, indexOf, userIndex, hu] using hI
                  exact (hI' s.device).2 ⟨s, hs, hsu, rfl⟩
                · simp only [hU, if_false]
                  exact hI
          · split <;> exact hI

theorem ras_I2 (f : Faults) (jwt : JwtEnv) (db : Db) (auth : AuthContext) (U : UserId)
    (hI : I2 db U) : I2 (provideRenewAuthSession f jwt db auth).2 U := by
  unfold provideRenewAuthSession
  simp only
  split
  · exact hI
  · split
    · exact hI
    · split
      · exact hI
      · rw [I2_iff_mirror] at hI ⊢
        refine Mirror_congr_pairs _ _ _ _ ?_ hI
        exact keys_updateOne _ _ _ (fun _ _ => ⟨rfl, rfl⟩)

theorem sessionsOf_length (db : Db) (U : UserId) :
    (sessionsOf db U).length = db.sessions.countP (fun s => s.user == U) := by
  rw [sessionsOf, List.countP_eq_length_filter]

theorem countP_updateOne (p : SessionRecord → Bool) (g : SessionRecord → SessionRecord)
    (ss : List SessionRecord) (U : UserId)
    (hg : ∀ s, p s = true → (g s).user = s.user) :
    (updateOneSession p g ss).countP (fun s => s.user == U) =
      ss.countP (fun s => s.user == U) := by
  induction ss with
  | nil => rfl
  | cons a t ih =>
    unfold updateOneSession
    split
    · next hp => simp only [List.countP_cons, hg a hp]
    · simp only [List.countP_cons, ih]

theorem countP_filter_lt (p q : SessionRecord → Bool) (ss : List SessionRecord)
    (s : SessionRecord) (hs : s ∈ ss) (hp : p s = true) (hq : q s = false) :
    (ss.filter q).countP p + 1 ≤ ss.countP p := by
  induction ss with
  | nil => cases hs
  | cons a t ih =>
    rcases List.mem_cons.1 hs with h | h
    · subst h
      rw [List.filter_cons_of_neg (by simp [hq]), List.countP_cons_of_pos _ _ hp]
      have := List.Sublist.countP_le p (List.filter_sublist t (p := q))
      omega
    · have ih' := ih h
      by_cases hqa : q a = true
      · rw [List.filter_cons_of_pos hqa]
        simp only [List.countP_cons]
        omega
      · rw [List.filter_cons_of_neg hqa]
        simp only [List.countP_cons]
        omega

theorem sessionDevices_nodup (db : Db) (U : UserId) (hwf : WF db) :
    (sessionDevices db U).Nodup := by
  unfold sessionDevices sessionsOf
  have h1 : ((db.sessions.filter (fun s => s.user == U)).map
      (fun s => (s.user, s.device))).Nodup :=
    hwf.2.1.sublist ((List.filter_sublist _).map _)
  have h2 : (db.sessions.filter (fun s => s.user == U)).map (fun s => (s.user, s.device)) =
      ((db.sessions.filter (fun s => s.user == U)).map (fun s => s.device)).map
        (fun d => (U, d)) := by
    rw [List.map_map]
    apply List.map_congr_left
    intro s hs
    have := (List.mem_filter.1 hs).2
    simp only [beq_iff_eq] at this
    simp [this]
  rw [h2] at h1
  exact List.Nodup.of_map _ h1

theorem indexKeys_nodup (db : Db) (U : UserId) (hwf : WF db) : (indexKeys db U).Nodup := by
  unfold indexKeys indexOf userIndex
  split
  · next user hu => exact hwf.2.2.2.1 user (findUserById_mem _ _ _ hu)
  · simp [mapKeys]

/-- Under the unique indexes and I2 the index has as many entries as the user has
session records. -/
theorem index_size_eq (db : Db) (U : UserId) (hwf : WF db) (hI : I2 db U) :
    mapSize (indexOf db U) = (sessionsOf db U).length := by
  have hperm : (indexKeys db U).Perm (sessionDevices db U) := by
    rw [List.perm_ext_iff_of_nodup (indexKeys_nodup db U hwf) (sessionDevices_nodup db U hwf)]
    intro d
    exact ⟨hI.1 d, hI.2 d⟩
  have := hperm.length_eq
  simpa [indexKeys, mapKeys, sessionDevices, mapSize] using this

/-- The session list and the user list a successful `mpaWrite` leaves in the working
copy. -/
theorem mpaWrite_shape (f : Faults) (jwt : JwtEnv) (w w3 : Db) (o : UserId)
    (ds : List (DeviceID × String)) (nd fs c : Bool) (pd : ProfileData)
    (acc : SessionRecord) (hwf : WF w)
    (h : mpaWrite f w o ds nd (getSessionData jwt o pd fs c) pd = .ok (acc, w3)) :
    ∃ ss1 ds1,
      ((truthyStr pd.revokeDeviceSession = false ∧ ss1 = w.sessions ∧ ds1 = ds) ∨
       (∃ r, pd.revokeDeviceSession = some r ∧ truthyStr (some r) = true ∧
         ss1 = w.sessions.filter (fun s => !isDeviceOf o r s) ∧ ds1 = mapDelete ds r)) ∧
      w3.users = updateUserById o
        (applyAccountMeta pd (mapSet ds1 pd.device pd.deviceAgent)) w.users ∧
      f .mpaIndexSet = false ∧ f .mpaUserUpdate = false ∧
      ((c = true ∧ acc = newSessionRecord w.nextId (getSessionData jwt o pd fs true) ∧
          (∀ s ∈ ss1, ¬ (s.user = o ∧ s.device = pd.device)) ∧
          w3.sessions = ss1 ++ [acc] ∧ w3.nextId = w.nextId + 1 ∧
          (nd = true ∨ ss1.find? (isDeviceOf o pd.device) = none)) ∨
       (nd = false ∧ validSessionUpdate (getSessionData jwt o pd fs c) = true ∧
          ∃ s, ss1.find? (isDeviceOf o pd.device) = some s ∧
            acc = applySessionMeta (getSessionData jwt o pd fs c) s ∧
            w3.sessions = updateOneSession (isDeviceOf o pd.device)
              (applySessionMeta (getSessionData jwt o pd fs c)) ss1 ∧
            w3.nextId = w.nextId)) := by
  obtain ⟨w1, ds1, w2, h1, h2, h3⟩ := mpaWrite_ok _ _ _ _ _ _ _ _ _ h
  have h3' := mpaIndexUpdate_ok _ _ _ _ _ _ h3
  have hf : f .mpaIndexSet = false ∧ f .mpaUserUpdate = false := by
    unfold mpaIndexUpdate at h3
    split at h3
    · simp at h3
    · next h4 =>
      simp only at h3
      split at h3
      · simp at h3
      · next h5 => exact ⟨by simpa using h4, by simpa using h5⟩
  refine ⟨w1.sessions, ds1, ?_, ?_, hf.1, hf.2, ?_⟩
  · rcases mpaRevoke_ok _ _ _ _ _ _ _ hwf h1 with ⟨ht, hw1, hds1⟩ | ⟨r, hr, ht, hw1, hds1⟩
    · left; subst hw1; exact ⟨ht, rfl, hds1⟩
    · right; subst hw1; exact ⟨r, hr, ht, rfl, hds1⟩
  · have hu1 : w1.users = w.users := by
      rcases mpaRevoke_ok _ _ _ _ _ _ _ hwf h1 with ⟨_, hw1, _⟩ | ⟨r, _, _, hw1, _⟩ <;>
        subst hw1 <;> rfl
    have hu2 : w2.users = w1.users := by
      rcases mpaUpsert_ok _ _ _ _ _ _ _ _ h2 with ⟨_, _, _, hw2, _⟩ | ⟨_, _, s, _, _, hw2⟩ <;>
        subst hw2 <;> rfl
    rw [h3']
    simp only [hu2, hu1]
  · have hn1 : w1.nextId = w.nextId := by
      rcases mpaRevoke_ok _ _ _ _ _ _ _ hwf h1 with ⟨_, hw1, _⟩ | ⟨r, _, _, hw1, _⟩ <;>
        subst hw1 <;> rfl
    rcases mpaUpsert_ok _ _ _ _ _ _ _ _ h2 with ⟨hv, hacc, hdup, hw2, hnd⟩ |
        ⟨hnd, hv, s, hs, hacc, hw2⟩
    · left
      have hc := validNew_getSessionData _ _ _ _ _ hv
      subst hc
      have hau : acc.user = o := by rw [hacc]; exact newSessionRecord_user _ _ _ _ _
      have had : acc.device = pd.device := by rw [hacc]; exact newSessionRecord_device _ _ _ _ _
      refine ⟨rfl, by rw [hacc, hn1], ?_, ?_, ?_, hnd⟩
      · intro s hs hsd
        rw [hau, had] at hdup
        have := (any_isDeviceOf w1.sessions o pd.device).2 ⟨s, hs, hsd.1, hsd.2⟩
        rw [this] at hdup
        exact absurd hdup (by simp)
      · rw [h3', hw2]
      · rw [h3', hw2, ← hn1]
    · right
      refine ⟨hnd, hv, s, hs, hacc, ?_, ?_⟩
      · rw [h3', hw2]
      · rw [h3', hw2, ← hn1]

theorem I3_iff (db : Db) (U : UserId) :
    I3 db U ↔ db.sessions.countP (fun s => s.user == U) ≤ SessionModel.limit := by
  unfold I3
  rw [sessionsOf_length]

theorem countP_removeDevice_le (db : Db) (o U : UserId) (d : DeviceID) :
    (removeDevice db o d).sessions.countP (fun s => s.user == U) ≤
      db.sessions.countP (fun s => s.user == U) :=
  List.Sublist.countP_le _ (List.filter_sublist _)

theorem countP_removeDevice_lt (db : Db) (o : UserId) (s : SessionRecord)
    (hs : s ∈ db.sessions) (hu : s.user = o) :
    (removeDevice db o s.device).sessions.countP (fun s => s.user == o) + 1 ≤
      db.sessions.countP (fun s => s.user == o) := by
  apply countP_filter_lt _ _ _ s hs
  · simpa using hu
  · simp [isDeviceOf, hu]

theorem session_of_index (db : Db) (o : UserId) (d : DeviceID) (hI2 : I2 db o)
    (h : mapHas (indexOf db o) d = true) : ∃ s ∈ db.sessions, s.user = o ∧ s.device = d := by
  rw [mapHas_iff] at h
  exact (mem_sessionDevices db o d).1 (hI2.1 d h)

theorem mpa_I3 (f : Faults) (jwt : JwtEnv) (now : Timestamp) (db : Db) (pd : ProfileData)
    (U : UserId) (hwf : WF db) (hI2 : I2 db U) (hI3 : I3 db U) :
    I3 (manageProfileAccount f jwt now db pd).2 U := by
  rw [I3_iff] at hI3 ⊢
  rcases mpa_cases f jwt now db pd hwf with ⟨h, _⟩ | ⟨acct, db1, hacct, _, _, hrev, hdb1, heq⟩
  · rw [h]; exact hI3
  · have hidx := mpaAccount_index db pd acct hwf hacct
    have hwf1 : WF db1 := by
      rcases hdb1 with ⟨h, _⟩ | ⟨_, _, s, _, _, _, h⟩
      · subst h; exact hwf
      · subst h; exact WF_removeDevice _ _ _ hwf
    have hle : db1.sessions.countP (fun s => s.user == U) ≤
        db.sessions.countP (fun s => s.user == U) := by
      rcases hdb1 with ⟨h, _⟩ | ⟨_, _, s, _, _, _, h⟩
      · subst h; exact Nat.le_refl _
      · subst h; exact countP_removeDevice_le _ _ _ _
    rw [heq]
    rcases mpaFinish_cases f db1 acct pd
        (mpaWrite f db1 acct.id (indexOf db1 acct.id) (!mapHas acct.sessions pd.device)
          (getSessionData jwt acct.id pd acct.forSystem
            (validSessionDevice db acct.id pd.device).isNone) pd) with
      ⟨h, _⟩ | ⟨acc, w, hw, _, h⟩
    · rw [h]; exact Nat.le_trans hle hI3
    · rw [h]
      simp only
      obtain ⟨ss1, ds1, hrv, _, _, _, hup⟩ :=
        mpaWrite_shape f jwt db1 w acct.id _ _ _ _ pd acc hwf1 hw
      have hss1 : ss1.countP (fun s => s.user == U) ≤
          db1.sessions.countP (fun s => s.user == U) := by
        rcases hrv with ⟨_, h1, _⟩ | ⟨r, _, _, h1, _⟩
        · rw [h1]
        · rw [h1]; exact List.Sublist.countP_le _ (List.filter_sublist _)
      rcases hup with ⟨_, hacc, _, hws, _, hnd⟩ | ⟨_, _, s, hs, _, hws, _⟩
      · -- a record was created
        have hau : acc.user = acct.id := by rw [hacc]; exact newSessionRecord_user _ _ _ _ _
        rw [hws, List.countP_append]
        by_cases hU : U = acct.id
        · subst hU
          have hone : [acc].countP (fun s => s.user == acct.id) = 1 := by
            simp [List.countP_cons, hau]
          rw [hone]
          rcases hdb1 with ⟨hd, hcnt⟩ | ⟨_, _, s, hs, hsu, _, hd⟩
          · subst hd
            rcases hrv with ⟨ht, h1, _⟩ | ⟨r, hr, ht, h1, _⟩
            · -- no revoke, no eviction: the prospective count is within the limit
              subst h1
              rcases hb : mapHas acct.sessions pd.device with _ | _
              · have hsz := index_size_eq db1 acct.id hwf hI2
                rw [sessionsOf_length, hidx] at hsz
                simp only [ht, true_and, not_lt, gt_iff_lt] at hcnt
                simp only [prospectiveCount, hb, Bool.not_false, Bool.false_eq_true, if_false,
                  if_true] at hcnt
                have : (mapSize acct.sessions : Int) + 1 ≤ (SessionModel.limit : Int) := by
                  simpa using hcnt
                omega
              · exfalso
                rw [hb] at hnd
                rcases hnd with hnd | hnd
                · simp at hnd
                · have hfn := find_isDeviceOf_none _ _ _ hnd
                  rw [← hidx] at hb
                  obtain ⟨s, hs, hsu, hsd⟩ := session_of_index db1 acct.id pd.device hI2 hb
                  exact hfn s hs ⟨hsu, hsd⟩
            · -- a device was revoked: its record existed
              have hhas := hrev (by rw [hr]; exact ht)
              rw [hr] at hhas
              simp only [Option.getD_some] at hhas
              rw [← hidx] at hhas
              obtain ⟨s, hs, hsu, hsd⟩ := session_of_index db1 acct.id r hI2 hhas
              have := countP_filter_lt (fun s => s.user == acct.id)
                (fun s => !isDeviceOf acct.id r s) db1.sessions s hs (by simpa using hsu)
                (by simp [isDeviceOf, hsu, hsd])
              rw [h1]
              omega
          · subst hd
            have hlt := countP_removeDevice_lt db acct.id s hs hsu
            omega
        · have hzero : [acc].countP (fun s => s.user == U) = 0 := by
            have : ¬ acc.user = U := by rw [hau]; exact fun hh => hU hh.symm
            simp [List.countP_cons, this]
          rw [hzero]
          omega
      · -- the record was updated in place
        rw [hws, countP_updateOne]
        · omega
        · intro s hp
          simp only [isDeviceOf, Bool.and_eq_true, beq_iff_eq] at hp
          rw [applySessionMeta_user _ _ _ _ _ _ hp.1]
          exact hp.1.symm

theorem mpa_eq (f : Faults) (jwt : JwtEnv) (now : Timestamp) (db : Db) (pd : ProfileData)
    (acct : UserDoc) (hfa : f .mpaFindAccount = false) (hacct : mpaAccount db pd = .ok acct)
    (hfd : f .mpaFindDevice = false)
    (hcheck : (truthyStr pd.revokeDeviceSession &&
      !mapHas acct.sessions (pd.revokeDeviceSession.getD "")) = false) :
    manageProfileAccount f jwt now db pd =
      (match mpaAdmit f now db acct.id acct.sessions (truthyStr pd.revokeDeviceSession)
          (prospectiveCount acct.sessions (truthyStr pd.revokeDeviceSession)
            (!mapHas acct.sessions pd.device)) with
       | (.error e, db1) => (.error e, db1)
       | (.ok deviceSession1, db1) =>
         mpaFinish f db1 acct pd
           (mpaWrite f db1 acct.id deviceSession1 (!mapHas acct.sessions pd.device)
             (getSessionData jwt acct.id pd acct.forSystem
               (validSessionDevice db acct.id pd.device).isNone) pd)) := by
  unfold manageProfileAccount
  simp only [hfa, hacct, hfd, hcheck, Bool.false_eq_true, if_false]

theorem mpaAdmit_eq_evict (f : Faults) (now : Timestamp) (db db1 : Db) (o : UserId)
    (ds : List (DeviceID × String)) (count : Int) (e : SessionRecord)
    (hcount : count > (SessionModel.limit : Int))
    (hev : mpaEvict f now db o = (.ok e, db1)) :
    mpaAdmit f now db o ds false count = (.ok (mapDelete ds e.device), db1) := by
  unfold mpaAdmit
  have : (!false && decide (count > (SessionModel.limit : Int))) = true := by simp [hcount]
  rw [if_pos this, hev]

theorem lid_eq_some (f : Faults) (now : Timestamp) (db : Db) (o : UserId) (e : SessionRecord)
    (u : UserDoc) (hwf : WF db)
    (hf : f .lidFind = false ∧ f .lidDelete = false ∧ f .lidFindUser = false ∧
      f .lidSave = false ∧ f .lidCommit = false)
    (he : oldestFirst (db.sessions.filter (olderThan o (oneDayAgo now))) = some e)
    (hu : findUserById db.users o = some u) :
    findAndRemoveLastInactiveDevice f now db o = (.ok (some e), removeDevice db o e.device) := by
  obtain ⟨h1, h2, h3, h4, h5⟩ := hf
  have hmem := List.mem_filter.1 (oldestFirst_mem _ _ he)
  have heu : e.user = o := by
    have := hmem.2
    simp only [olderThan, Bool.and_eq_true, beq_iff_eq] at this
    exact this.1
  unfold findAndRemoveLastInactiveDevice
  simp only [h1, h2, h3, h4, h5, he, hu, Bool.false_eq_true, if_false]
  rw [erase_id_removeDevice db e hwf hmem.1, heu]
  simp [removeDevice, indexOf, userIndex, hu]

theorem lid_eq_none (f : Faults) (now : Timestamp) (db : Db) (o : UserId)
    (hf : f .lidFind = false ∧ f .lidCommit = false)
    (he : oldestFirst (db.sessions.filter (olderThan o (oneDayAgo now))) = none) :
    findAndRemoveLastInactiveDevice f now db o = (.ok none, db) := by
  unfold findAndRemoveLastInactiveDevice
  simp only [hf.1, hf.2, he, Bool.false_eq_true, if_false]

theorem ois_eq_some (f : Faults) (db : Db) (o : UserId) (e : SessionRecord)
    (u : UserDoc) (hwf : WF db)
    (hf : f .oisFind = false ∧ f .oisDelete = false ∧ f .oisFindUser = false ∧
      f .oisSave = false ∧ f .oisCommit = false)
    (he : oldestFirst (db.sessions.filter (fun s => s.user == o)) = some e)
    (hu : findUserById db.users o = some u) :
    findAndRemoveOldestInactiveSession f db o = (.ok (some e), removeDevice db o e.device) := by
  obtain ⟨h1, h2, h3, h4, h5⟩ := hf
  have hmem := List.mem_filter.1 (oldestFirst_mem _ _ he)
  have heu : e.user = o := by simpa using hmem.2
  unfold findAndRemoveOldestInactiveSession
  simp only [h1, h2, h3, h4, h5, he, hu, Bool.false_eq_true, if_false]
  rw [erase_id_removeDevice db e hwf hmem.1, heu]
  simp [removeDevice, indexOf, userIndex, hu]

theorem oldestFirst_isSome (l : List SessionRecord) (s : SessionRecord) (hs : s ∈ l) :
    ∃ e, oldestFirst l = some e := by
  cases h : oldestFirst l with
  | none =>
    have := oldestFirst_eq_none l h
    subst this
    cases hs
  | some e => exact ⟨e, rfl⟩

theorem olderThan_iff (o : UserId) (cut : Timestamp) (s : SessionRecord) :
    olderThan o cut s = true ↔ s.user = o ∧ ∃ t, s.loginAt = some t ∧ t < cut := by
  unfold olderThan
  cases h : s.loginAt with
  | none => simp
  | some t => simp

theorem mem_removeDevice_sessions (db : Db) (e s : SessionRecord) (hwf : WF db)
    (he : e ∈ db.sessions) :
    s ∈ (removeDevice db e.user e.device).sessions ↔ s ∈ db.sessions ∧ s.id ≠ e.id := by
  have h1 := erase_id_removeDevice db e hwf he
  rw [erase_id_eq_filter _ _ hwf.1] at h1
  simp only [removeDevice]
  rw [← h1, List.mem_filter]
  simp

theorem removeDevice_no_pair (db : Db) (o : UserId) (d : DeviceID) :
    ∀ s ∈ (removeDevice db o d).sessions, ¬ (s.user = o ∧ s.device = d) := by
  intro s hs hsd
  simp only [removeDevice, List.mem_filter, isDeviceOf] at hs
  simp [hsd.1, hsd.2] at hs

theorem removeDevice_no_key (db : Db) (o : UserId) (d : DeviceID) :
    d ∉ indexKeys (removeDevice db o d) o := by
  rw [indexKeys_removeDevice]
  simp only [if_true, mem_mapKeys_mapDelete]
  exact fun h => h.2 rfl

theorem mem_ids_iff (ss : List SessionRecord) (i : Nat) :
    (∃ s ∈ ss, s.id = i) ↔ i ∈ ss.map (fun s => s.id) := by
  simp [List.mem_map]

/-- What is left once `e` was evicted, whatever the rest of the login does: of the
records that existed, exactly `e` is gone, and device `e.device` has neither a
record nor an index entry. -/
theorem after_eviction (f : Faults) (jwt : JwtEnv) (db : Db) (pd : ProfileData)
    (acct : UserDoc) (e : SessionRecord) (res : Except Err AuthPayload × Db) (hwf : WF db)
    (hacct : mpaAccount db pd = .ok acct) (he : e ∈ db.sessions) (heu : e.user = acct.id)
    (hrev : truthyStr pd.revokeDeviceSession = false)
    (hres : res = mpaFinish f (removeDevice db acct.id e.device) acct pd
      (mpaWrite f (removeDevice db acct.id e.device) acct.id
        (mapDelete acct.sessions e.device) (!mapHas acct.sessions pd.device)
        (getSessionData jwt acct.id pd acct.forSystem
          (validSessionDevice db acct.id pd.device).isNone) pd)) :
    (∀ s ∈ db.sessions, (∃ t ∈ res.2.sessions, t.id = s.id) ↔ s.id ≠ e.id) ∧
    e.device ∉ indexKeys res.2 acct.id ∧
    (∀ s ∈ res.2.sessions, ¬ (s.user = acct.id ∧ s.device = e.device)) := by
  have hfind := mpaAccount_find db pd acct hwf hacct
  have hwf1 := WF_removeDevice db acct.id e.device hwf
  have hmem1 : ∀ s, s ∈ (removeDevice db acct.id e.device).sessions ↔
      s ∈ db.sessions ∧ s.id ≠ e.id := by
    intro s
    rw [← heu]
    exact mem_removeDevice_sessions db e s hwf he
  have hids1 : ∀ s ∈ db.sessions,
      (∃ t ∈ (removeDevice db acct.id e.device).sessions, t.id = s.id) ↔ s.id ≠ e.id := by
    intro s hs
    constructor
    · rintro ⟨t, ht, hts⟩
      rw [← hts]
      exact ((hmem1 t).1 ht).2
    · intro hne
      exact ⟨s, (hmem1 s).2 ⟨hs, hne⟩, rfl⟩
  rcases mpaFinish_cases f (removeDevice db acct.id e.device) acct pd
      (mpaWrite f (removeDevice db acct.id e.device) acct.id
        (mapDelete acct.sessions e.device) (!mapHas acct.sessions pd.device)
        (getSessionData jwt acct.id pd acct.forSystem
          (validSessionDevice db acct.id pd.device).isNone) pd) with
    ⟨h, _⟩ | ⟨acc, w, hw, _, h⟩
  · rw [hres, h]
    exact ⟨hids1, removeDevice_no_key _ _ _, removeDevice_no_pair _ _ _⟩
  · rw [hres, h]
    simp only
    obtain ⟨ss1, ds1, hrv, husers, _, _, hup⟩ :=
      mpaWrite_shape f jwt _ w acct.id _ _ _ _ pd acc hwf1 hw
    have hss1 : ss1 = (removeDevice db acct.id e.device).sessions ∧
        ds1 = mapDelete acct.sessions e.device := by
      rcases hrv with ⟨_, h1, h2⟩ | ⟨r, hr, ht, _, _⟩
      · exact ⟨h1, h2⟩
      · rw [hr] at hrev
        rw [hrev] at ht
        exact absurd ht (by simp)
    obtain ⟨h1, h2⟩ := hss1
    subst h1 h2
    obtain ⟨u1, hu1⟩ := findUserById_removeDevice db acct.id e.device acct hfind
    have hkeys : ∀ (hne : pd.device ≠ e.device), e.device ∉ indexKeys w acct.id := by
      intro hne
      unfold indexKeys
      have : indexOf w acct.id =
          mapSet (mapDelete acct.sessions e.device) pd.device pd.deviceAgent := by
        unfold indexOf
        rw [husers, userIndex_update acct.id acct.id _ (applyAccountMeta_id pd _)]
        simp only [if_true, hu1, applyAccountMeta_sessions]
      rw [this, mem_mapKeys_mapSet, mem_mapKeys_mapDelete]
      rintro (⟨_, h⟩ | h)
      · exact h rfl
      · exact hne h.symm
    rcases hup with ⟨hc, hacc, _, hws, _, _⟩ | ⟨_, _, s, hs, _, hws, _⟩
    · -- created: the requesting device had no record, so it is not the evicted one
      have hne : pd.device ≠ e.device := by
        intro hpe
        have hnone : validSessionDevice db acct.id pd.device = none := by
          simpa using hc
        have := find_isDeviceOf_none _ _ _ hnone e he
        exact this ⟨heu, hpe.symm⟩
      have hau : acc.user = acct.id := by rw [hacc]; exact newSessionRecord_user _ _ _ _ _
      have had : acc.device = pd.device := by rw [hacc]; exact newSessionRecord_device _ _ _ _ _
      have haid : acc.id = db.nextId := by rw [hacc]; rfl
      refine ⟨?_, hkeys hne, ?_⟩
      · intro s hs
        rw [← hids1 s hs, hws]
        constructor
        · rintro ⟨t, ht, hts⟩
          rcases List.mem_append.1 ht with ht | ht
          · exact ⟨t, ht, hts⟩
          · exfalso
            simp only [List.mem_singleton] at ht
            have := hwf.2.2.2.2 s hs
            rw [← hts, ht, haid] at this
            exact Nat.lt_irrefl _ this
        · rintro ⟨t, ht, hts⟩
          exact ⟨t, List.mem_append_left _ ht, hts⟩
      · intro s hs
        rw [hws] at hs
        rcases List.mem_append.1 hs with hs | hs
        · exact removeDevice_no_pair _ _ _ s hs
        · simp only [List.mem_singleton] at hs
          rw [hs, had]
          exact fun hh => hne hh.2
    · -- updated in place: the requesting device still had a record after the eviction
      obtain ⟨hsm, hsu, hsd⟩ := find_isDeviceOf _ _ _ _ hs
      have hne : pd.device ≠ e.device := by
        intro hpe
        exact removeDevice_no_pair _ _ _ s hsm ⟨hsu, by rw [hsd, hpe]⟩
      have hidl := ids_updateOne (isDeviceOf acct.id pd.device)
        (applySessionMeta (getSessionData jwt acct.id pd acct.forSystem
          (validSessionDevice db acct.id pd.device).isNone))
        (removeDevice db acct.id e.device).sessions (applySessionMeta_id _)
      have hkl := keys_updateOne (isDeviceOf acct.id pd.device)
        (applySessionMeta (getSessionData jwt acct.id pd acct.forSystem
          (validSessionDevice db acct.id pd.device).isNone))
        (removeDevice db acct.id e.device).sessions
        (by
          intro s hp
          simp only [isDeviceOf, Bool.and_eq_true, beq_iff_eq] at hp
          rw [applySessionMeta_user _ _ _ _ _ _ hp.1, applySessionMeta_device _ _ _ _ _ _ hp.2]
          exact ⟨hp.1.symm, hp.2.symm⟩)
      refine ⟨?_, hkeys hne, ?_⟩
      · intro s hs
        rw [← hids1 s hs, hws, mem_ids_iff, mem_ids_iff, hidl]
      · intro s hs hsd
        rw [hws] at hs
        have hp : (acct.id, e.device) ∈
            (removeDevice db acct.id e.device).sessions.map (fun s => (s.user, s.device)) := by
          rw [← hkl, mem_pairs]
          exact ⟨s, hs, hsd.1, hsd.2⟩
        rw [mem_pairs] at hp
        obtain ⟨t, ht, htu, htd⟩ := hp
        exact removeDevice_no_pair _ _ _ t ht ⟨htu, htd⟩

theorem mpa_error_db (f : Faults) (jwt : JwtEnv) (now : Timestamp) (db : Db) (pd : ProfileData)
    (e : Err) (hwf : WF db) (hfail : (manageProfileAccount f jwt now db pd).1 = .error e) :
    (manageProfileAccount f jwt now db pd).2 = db ∨
    ∃ s ∈ db.sessions, (manageProfileAccount f jwt now db pd).2 = removeDevice db s.user s.device := by
  rcases mpa_cases f jwt now db pd hwf with ⟨h, _⟩ | ⟨acct, db1, _, _, _, _, hdb1, heq⟩
  · exact Or.inl h
  · rw [heq] at hfail ⊢
    rcases mpaFinish_cases f db1 acct pd
        (mpaWrite f db1 acct.id (indexOf db1 acct.id) (!mapHas acct.sessions pd.device)
          (getSessionData jwt acct.id pd acct.forSystem
            (validSessionDevice db acct.id pd.device).isNone) pd) with
      ⟨h, _⟩ | ⟨acc, w, _, _, h⟩
    · rw [h]
      rcases hdb1 with ⟨hd, _⟩ | ⟨_, _, s, hs, hsu, _, hd⟩
      · exact Or.inl hd
      · right
        refine ⟨s, hs, ?_⟩
        rw [hd, hsu]
    · rw [h] at hfail
      simp at hfail

theorem mpaEvict_eq_P1 (f : Faults) (now : Timestamp) (db : Db) (o : UserId)
    (e : SessionRecord) (u : UserDoc) (hwf : WF db)
    (hf : f .lidFind = false ∧ f .lidDelete = false ∧ f .lidFindUser = false ∧
      f .lidSave = false ∧ f .lidCommit = false)
    (he : oldestFirst (db.sessions.filter (olderThan o (oneDayAgo now))) = some e)
    (hu : findUserById db.users o = some u) :
    mpaEvict f now db o = (.ok e, removeDevice db o e.device) := by
  unfold mpaEvict
  rw [lid_eq_some f now db o e u hwf hf he hu]

theorem mpaEvict_eq_P2 (f : Faults) (now : Timestamp) (db : Db) (o : UserId)
    (e : SessionRecord) (u : UserDoc) (hwf : WF db)
    (hf1 : f .lidFind = false ∧ f .lidCommit = false)
    (hf2 : f .oisFind = false ∧ f .oisDelete = false ∧ f .oisFindUser = false ∧
      f .oisSave = false ∧ f .oisCommit = false)
    (hn : oldestFirst (db.sessions.filter (olderThan o (oneDayAgo now))) = none)
    (he : oldestFirst (db.sessions.filter (fun s => s.user == o)) = some e)
    (hu : findUserById db.users o = some u) :
    mpaEvict f now db o = (.ok e, removeDevice db o e.device) := by
  unfold mpaEvict
  rw [lid_eq_none f now db o hf1 hn]
  simp only
  rw [ois_eq_some f db o e u hwf hf2 he hu]

/-- A login without `revokeDeviceSession` over the limit whose eviction returns `e`
continues on the database without `e`. -/
theorem mpa_eq_evicted (f : Faults) (jwt : JwtEnv) (now : Timestamp) (db : Db)
    (pd : ProfileData) (acct : UserDoc) (e : SessionRecord)
    (hfa : f .mpaFindAccount = false) (hacct : mpaAccount db pd = .ok acct)
    (hfd : f .mpaFindDevice = false)
    (hrev : truthyStr pd.revokeDeviceSession = false)
    (hcount : prospectiveCount acct.sessions false (!mapHas acct.sessions pd.device) >
      (SessionModel.limit : Int))
    (hev : mpaEvict f now db acct.id = (.ok e, removeDevice db acct.id e.device)) :
    manageProfileAccount f jwt now db pd =
      mpaFinish f (removeDevice db acct.id e.device) acct pd
        (mpaWrite f (removeDevice db acct.id e.device) acct.id
          (mapDelete acct.sessions e.device) (!mapHas acct.sessions pd.device)
          (getSessionData jwt acct.id pd acct.forSystem
            (validSessionDevice db acct.id pd.device).isNone) pd) := by
  rw [mpa_eq f jwt now db pd acct hfa hacct hfd (by simp [hrev])]
  rw [hrev, mpaAdmit_eq_evict f now db _ acct.id acct.sessions _ e hcount hev]

theorem mpaAdmit_eq_pass (f : Faults) (now : Timestamp) (db : Db) (o : UserId)
    (ds : List (DeviceID × String)) (revoke : Bool) (count : Int)
    (h : revoke = true ∨ count ≤ (SessionModel.limit : Int)) :
    mpaAdmit f now db o ds revoke count = (.ok ds, db) := by
  unfold mpaAdmit
  have : (!revoke && decide (count > (SessionModel.limit : Int))) = false := by
    rcases h with h | h
    · simp [h]
    · have : ¬ count > (SessionModel.limit : Int) := not_lt.2 h
      simp [this]
  rw [if_neg (by simp [this])]

/-- A login that passes admission without eviction is the transactional writes on the
initial database. -/
theorem mpa_eq_pass (f : Faults) (jwt : JwtEnv) (now : Timestamp) (db : Db)
    (pd : ProfileData) (acct : UserDoc)
    (hfa : f .mpaFindAccount = false) (hacct : mpaAccount db pd = .ok acct)
    (hfd : f .mpaFindDevice = false)
    (hcheck : (truthyStr pd.revokeDeviceSession &&
      !mapHas acct.sessions (pd.revokeDeviceSession.getD "")) = false)
    (h : truthyStr pd.revokeDeviceSession = true ∨
      prospectiveCount acct.sessions (truthyStr pd.revokeDeviceSession)
        (!mapHas acct.sessions pd.device) ≤ (SessionModel.limit : Int)) :
    manageProfileAccount f jwt now db pd =
      mpaFinish f db acct pd
        (mpaWrite f db acct.id acct.sessions (!mapHas acct.sessions pd.device)
          (getSessionData jwt acct.id pd acct.forSystem
            (validSessionDevice db acct.id pd.device).isNone) pd) := by
  rw [mpa_eq f jwt now db pd acct hfa hacct hfd hcheck]
  rw [mpaAdmit_eq_pass f now db acct.id acct.sessions _ _ h]

/-- A run that returns a payload passed the two look-ups. -/
theorem mpa_ok_faults (f : Faults) (jwt : JwtEnv) (now : Timestamp) (db : Db)
    (pd : ProfileData) (p : AuthPayload)
    (hok : (manageProfileAccount f jwt now db pd).1 = .ok p) :
    f .mpaFindAccount = false ∧ f .mpaFindDevice = false := by
  unfold manageProfileAccount at hok
  split at hok
  · simp at hok
  · next h1 =>
    split at hok
    · simp at hok
    · simp only at hok
      split at hok
      · simp at hok
      · next h2 => exact ⟨by simpa using h1, by simpa using h2⟩

theorem mapSet_absent (m : List (DeviceID × String)) (d : DeviceID) (a : String)
    (h : mapHas m d = false) : mapSet m d a = m ++ [(d, a)] := by
  unfold mapSet
  simp [h]

theorem mapKeys_mapSet_present (m : List (DeviceID × String)) (d : DeviceID) (a : String)
    (h : mapHas m d = true) : mapKeys (mapSet m d a) = mapKeys m := by
  unfold mapSet mapKeys
  rw [if_pos h, List.map_map]
  apply List.map_congr_left
  intro e _
  by_cases he : e.1 = d
  · simp [he]
  · simp [he]

theorem updateOne_const (p : SessionRecord → Bool) (g : SessionRecord → SessionRecord)
    (ss : List SessionRecord) (old : SessionRecord) (h : ss.find? p = some old) :
    updateOneSession p g ss = updateOneSession p (fun _ => g old) ss := by
  induction ss with
  | nil => rfl
  | cons a t ih =>
    unfold updateOneSession
    by_cases hp : p a = true
    · simp only [List.find?_cons, hp, Option.some.injEq] at h
      subst h
      simp only [hp, if_true]
    · have hp2 : p a = false := by simpa using hp
      simp only [List.find?_cons, hp2] at h
      simp only [hp2, Bool.false_eq_true, if_false, ih h]

theorem find_updateOne (p : SessionRecord → Bool) (g : SessionRecord → SessionRecord)
    (ss : List SessionRecord) (old : SessionRecord) (h : ss.find? p = some old)
    (hg : p (g old) = true) : (updateOneSession p g ss).find? p = some (g old) := by
  induction ss with
  | nil => simp at h
  | cons a t ih =>
    unfold updateOneSession
    by_cases hp : p a = true
    · simp only [List.find?_cons, hp, Option.some.injEq] at h
      subst h
      simp only [hp, if_true, List.find?_cons, hg]
    · have hp2 : p a = false := by simpa using hp
      simp only [List.find?_cons, hp2] at h
      simp only [hp2, Bool.false_eq_true, if_false, List.find?_cons, ih h]

theorem lid_error_ne (f : Faults) (now : Timestamp) (db : Db) (o : UserId) (e : Err)
    (h : (findAndRemoveLastInactiveDevice f now db o).1 = .error e) :
    e ≠ .api "Unable to manage sessions. Please try again." "RESOURCE_NOT_FOUND" := by
  unfold findAndRemoveLastInactiveDevice at h
  repeat' split at h
  all_goals first
    | (simp only [Except.error.injEq] at h; subst h; decide)
    | simp at h

theorem lid_none_db (f : Faults) (now : Timestamp) (db db1 : Db) (o : UserId)
    (h : findAndRemoveLastInactiveDevice f now db o = (.ok none, db1)) : db1 = db := by
  unfold findAndRemoveLastInactiveDevice at h
  repeat' split at h
  all_goals first
    | (simp only [Prod.mk.injEq] at h; exact h.2.symm)
    | simp at h

theorem mpaRevoke_error (f : Faults) (w : Db) (o : UserId) (ds : List (DeviceID × String))
    (pd : ProfileData) (e : Err) (h : mpaRevoke f w o ds pd = .error e) :
    ∀ msg code, e ≠ .api msg code := by
  intro msg code
  unfold mpaRevoke at h
  repeat' split at h
  all_goals first
    | (simp only [Except.error.injEq] at h; subst h; simp)
    | simp at h

theorem create_error (w : Db) (m : SessionMeta) (e : Err)
    (h : SessionModel.create w m = .error e) : ∀ msg code, e ≠ .api msg code := by
  intro msg code
  unfold SessionModel.create at h
  split at h
  · simp only [Except.error.injEq] at h; subst h; simp
  · simp only at h
    split at h
    · simp only [Except.error.injEq] at h; subst h; simp
    · simp at h

theorem findOneAndUpdate_error (w : Db) (o : UserId) (d : DeviceID) (m : SessionMeta)
    (e : Err) (h : SessionModel.findOneAndUpdate w o d m = .error e) :
    ∀ msg code, e ≠ .api msg code := by
  intro msg code
  unfold SessionModel.findOneAndUpdate at h
  repeat' split at h
  all_goals first
    | (simp only [Except.error.injEq] at h; subst h; simp)
    | simp at h

theorem mpaUpsert_error (f : Faults) (w : Db) (o : UserId) (nd : Bool) (m : SessionMeta)
    (pd : ProfileData) (e : Err) (h : mpaUpsert f w o nd m pd = .error e) :
    ∀ msg code, e ≠ .api msg code := by
  intro msg code
  unfold mpaUpsert at h
  split at h
  · split at h
    · simp only [Except.error.injEq] at h; subst h; simp
    · exact create_error _ _ _ h msg code
  · split at h
    · simp only [Except.error.injEq] at h; subst h; simp
    · split at h
      · next e1 he1 =>
        simp only [Except.error.injEq] at h; subst h
        exact findOneAndUpdate_error _ _ _ _ _ he1 msg code
      · simp at h
      · split at h
        · simp only [Except.error.injEq] at h; subst h; simp
        · exact create_error _ _ _ h msg code

theorem mpaIndexUpdate_error (f : Faults) (w : Db) (o : UserId)
    (ds : List (DeviceID × String)) (pd : ProfileData) (e : Err)
    (h : mpaIndexUpdate f w o ds pd = .error e) : ∀ msg code, e ≠ .api msg code := by
  intro msg code
  unfold mpaIndexUpdate at h
  repeat' split at h
  all_goals first
    | (simp only [Except.error.injEq] at h; subst h; simp)
    | simp at h

theorem mpaWrite_error_ne (f : Faults) (w : Db) (o : UserId) (ds : List (DeviceID × String))
    (nd : Bool) (m : SessionMeta) (pd : ProfileData) (e : Err)
    (h : mpaWrite f w o ds nd m pd = .error e) : ∀ msg code, e ≠ .api msg code := by
  intro msg code
  unfold mpaWrite at h
  split at h
  · next e1 he1 =>
    simp only [Except.error.injEq] at h; subst h
    exact mpaRevoke_error _ _ _ _ _ _ he1 msg code
  · split at h
    · next e1 he1 =>
      simp only [Except.error.injEq] at h; subst h
      exact mpaUpsert_error _ _ _ _ _ _ _ he1 msg code
    · split at h
      · next e1 he1 =>
        simp only [Except.error.injEq] at h; subst h
        exact mpaIndexUpdate_error _ _ _ _ _ _ he1 msg code
      · simp at h

theorem ois_error_ne (f : Faults) (db : Db) (o : UserId) (e : Err)
    (h : (findAndRemoveOldestInactiveSession f db o).1 = .error e) :
    e ≠ .api "Unable to manage sessions. Please try again." "RESOURCE_NOT_FOUND" := by
  unfold findAndRemoveOldestInactiveSession at h
  repeat' split at h
  all_goals first
    | (simp only [Except.error.injEq] at h; subst h; simp)
    | simp at h

theorem ois_none (f : Faults) (db : Db) (o : UserId)
    (h : (findAndRemoveOldestInactiveSession f db o).1 = .ok none) :
    oldestFirst (db.sessions.filter (fun s => s.user == o)) = none := by
  unfold findAndRemoveOldestInactiveSession at h
  split at h
  · simp at h
  · split at h
    · repeat' split at h
      all_goals simp at h
    · next hn => exact hn

/-- The failure `Unable to manage sessions` of the eviction means that the owner has
no session record. -/
theorem mpaEvict_unable (f : Faults) (now : Timestamp) (db : Db) (o : UserId)
    (h : (mpaEvict f now db o).1 =
      .error (.api "Unable to manage sessions. Please try again." "RESOURCE_NOT_FOUND")) :
    oldestFirst (db.sessions.filter (fun s => s.user == o)) = none := by
  unfold mpaEvict at h
  rcases hl : findAndRemoveLastInactiveDevice f now db o with ⟨r, db1⟩
  rw [hl] at h
  cases r with
  | error e =>
    simp only [Except.error.injEq] at h
    have := lid_error_ne f now db o e (by rw [hl])
    exact absurd h this
  | ok x =>
    cases x with
    | some s => simp at h
    | none =>
      have hdb := lid_none_db f now db db1 o hl
      subst hdb
      simp only at h
      rcases ho : findAndRemoveOldestInactiveSession f db1 o with ⟨r2, db2⟩
      rw [ho] at h
      cases r2 with
      | error e =>
        simp only [Except.error.injEq] at h
        have := ois_error_ne f db1 o e (by rw [ho])
        exact absurd h this
      | ok y =>
        cases y with
        | some s => simp at h
        | none => exact ois_none f db1 o (by rw [ho])

theorem mpaAccount_error (db : Db) (pd : ProfileData) (e : Err)
    (h : mpaAccount db pd = .error e) : ∀ msg code, e ≠ .api msg code := by
  intro msg code
  unfold mpaAccount at h
  repeat' split at h
  all_goals first
    | (simp only [Except.error.injEq] at h; subst h; simp)
    | simp at h

theorem mpaFinish_error_ne (f : Faults) (db1 : Db) (acct : UserDoc) (pd : ProfileData)
    (r : Except Err (SessionRecord × Db)) (e : Err)
    (hr : ∀ e1, r = .error e1 → ∀ msg code, e1 ≠ .api msg code)
    (h : (mpaFinish f db1 acct pd r).1 = .error e) : ∀ msg code, e ≠ .api msg code := by
  intro msg code
  unfold mpaFinish at h
  split at h
  · next e1 =>
    simp only [Except.error.injEq] at h; subst h
    exact hr e1 rfl msg code
  · split at h
    · simp only [Except.error.injEq] at h; subst h; simp
    · simp at h

/-- A run that ends in `Unable to manage sessions` went through the eviction and found
no session record of the account. -/
theorem mpa_unable (f : Faults) (jwt : JwtEnv) (now : Timestamp) (db : Db) (pd : ProfileData)
    (h : (manageProfileAccount f jwt now db pd).1 =
      .error (.api "Unable to manage sessions. Please try again." "RESOURCE_NOT_FOUND")) :
    ∃ acct, mpaAccount db pd = .ok acct ∧
      oldestFirst (db.sessions.filter (fun s => s.user == acct.id)) = none := by
  unfold manageProfileAccount at h
  split at h
  · simp at h
  · split at h
    · next e he =>
      simp only [Except.error.injEq] at h
      exact absurd h (mpaAccount_error db pd e he _ _)
    · next acct hacct =>
      simp only at h
      split at h
      · simp at h
      · split at h
        · simp only [Except.error.injEq] at h
          exact absurd h (by decide)
        · refine ⟨acct, hacct, ?_⟩
          rcases hadm : mpaAdmit f now db acct.id acct.sessions
              (truthyStr pd.revokeDeviceSession)
              (prospectiveCount acct.sessions (truthyStr pd.revokeDeviceSession)
                (!mapHas acct.sessions pd.device)) with ⟨r, db1⟩
          rw [hadm] at h
          cases r with
          | error e =>
            simp only [Except.error.injEq] at h
            subst h
            unfold mpaAdmit at hadm
            split at hadm
            · rcases hev : mpaEvict f now db acct.id with ⟨r2, db2⟩
              rw [hev] at hadm
              cases r2 with
              | error e2 =>
                simp only [Prod.mk.injEq, Except.error.injEq] at hadm
                apply mpaEvict_unable f now db acct.id
                rw [hev, hadm.1]
              | ok s => simp at hadm
            · simp at hadm
          | ok ds1 =>
            simp only at h
            exfalso
            exact mpaFinish_error_ne f _ acct pd _ _
              (fun e1 he1 => mpaWrite_error_ne _ _ _ _ _ _ _ e1 he1) h _ _ rfl

theorem mapKeys_mapDelete_nodup (m : List (DeviceID × String)) (d : DeviceID)
    (h : (mapKeys m).Nodup) : (mapKeys (mapDelete m d)).Nodup :=
  h.sublist ((List.filter_sublist _).map _)

theorem mapKeys_foldl_nodup (l : List DeviceID) (m : List (DeviceID × String))
    (h : (mapKeys m).Nodup) : (mapKeys (l.foldl mapDelete m)).Nodup := by
  induction l generalizing m with
  | nil => exact h
  | cons a t ih => exact ih _ (mapKeys_mapDelete_nodup m a h)

theorem mapKeys_mapSet_nodup (m : List (DeviceID × String)) (d : DeviceID) (a : String)
    (h : (mapKeys m).Nodup) : (mapKeys (mapSet m d a)).Nodup := by
  by_cases hh : mapHas m d = true
  · rw [mapKeys_mapSet_present m d a hh]; exact h
  · have hh2 : mapHas m d = false := by simpa using hh
    rw [mapSet_absent m d a hh2]
    simp only [mapKeys, List.map_append, List.map_cons, List.map_nil]
    rw [List.nodup_append]
    refine ⟨h, List.nodup_singleton _, ?_⟩
    intro x hx hx2
    simp only [List.mem_singleton] at hx2
    subst hx2
    have := (mapHas_iff m x).2 hx
    rw [this] at hh2
    exact absurd hh2 (by simp)

/-- Replacing the `sessions` map of one user by a map with distinct keys, and the
session list by a list that keeps the unique indexes, keeps `WF`. -/
theorem WF_of_parts (db : Db) (ss : List SessionRecord) (o : UserId)
    (g : UserDoc → UserDoc) (n : Nat) (hwf : WF db)
    (hg : ∀ u, (g u).id = u.id)
    (hgk : ∀ u, findUserById db.users o = some u → (mapKeys (g u).sessions).Nodup)
    (h1 : (ss.map (fun s => s.id)).Nodup)
    (h2 : (ss.map (fun s => (s.user, s.device))).Nodup)
    (h5 : ∀ s ∈ ss, s.id < n) :
    WF { sessions := ss, users := updateUserById o g db.users, nextId := n } := by
  refine ⟨h1, h2, ?_, ?_, h5⟩
  · simp only
    rw [map_id_update o g hg]
    exact hwf.2.2.1
  · intro u hu
    rcases mem_update _ _ _ _ hu with h6 | ⟨v, hv, rfl⟩
    · exact hwf.2.2.2.1 u h6
    · exact hgk v hv

theorem WF_sessions_sublist (db : Db) (ss : List SessionRecord) (hwf : WF db)
    (h : ss.Sublist db.sessions) : WF { db with sessions := ss } :=
  ⟨hwf.1.sublist (h.map _), hwf.2.1.sublist (h.map _), hwf.2.2.1, hwf.2.2.2.1,
    fun s hs => hwf.2.2.2.2 s (h.subset hs)⟩

theorem WF_sublist_save (db : Db) (ss : List SessionRecord) (o : UserId)
    (m : List (DeviceID × String)) (hwf : WF db) (h : ss.Sublist db.sessions)
    (hm : (mapKeys m).Nodup) :
    WF { db with sessions := ss, users := saveUserSessions db.users o m } := by
  unfold saveUserSessions
  exact WF_of_parts db ss o (fun u => { u with sessions := m }) db.nextId hwf (fun _ => rfl)
    (fun _ _ => hm) (hwf.1.sublist (h.map _)) (hwf.2.1.sublist (h.map _))
    (fun s hs => hwf.2.2.2.2 s (h.subset hs))

theorem userIndex_nodup (db : Db) (o : UserId) (u : UserDoc) (hwf : WF db)
    (hu : findUserById db.users o = some u) : (mapKeys u.sessions).Nodup :=
  hwf.2.2.2.1 u (findUserById_mem _ _ _ hu)

theorem lid_WF (f : Faults) (now : Timestamp) (db : Db) (o : UserId) (hwf : WF db) :
    WF (findAndRemoveLastInactiveDevice f now db o).2 := by
  rcases lid_cases f now db o hwf with ⟨h, _⟩ | ⟨s, _, _, h⟩
  · rw [h]; exact hwf
  · rw [h]; exact WF_removeDevice _ _ _ hwf

theorem ois_WF (f : Faults) (db : Db) (o : UserId) (hwf : WF db) :
    WF (findAndRemoveOldestInactiveSession f db o).2 := by
  rcases ois_cases f db o hwf with ⟨h, _⟩ | ⟨s, _, _, h⟩
  · rw [h]; exact hwf
  · rw [h]; exact WF_removeDevice _ _ _ hwf

theorem mpaWrite_WF (f : Faults) (jwt : JwtEnv) (w w3 : Db) (o : UserId) (nd fs c : Bool)
    (pd : ProfileData) (acc : SessionRecord) (hwf : WF w)
    (h : mpaWrite f w o (indexOf w o) nd (getSessionData jwt o pd fs c) pd = .ok (acc, w3)) :
    WF w3 := by
  obtain ⟨ss1, ds1, hrv, husers, _, _, hup⟩ := mpaWrite_shape f jwt w w3 o _ nd fs c pd acc hwf h
  have hsub : ss1.Sublist w.sessions := by
    rcases hrv with ⟨_, h1, _⟩ | ⟨r, _, _, h1, _⟩
    · rw [h1]
    · rw [h1]; exact List.filter_sublist _
  have hds : (mapKeys (indexOf w o)).Nodup := indexKeys_nodup w o hwf
  have hds1 : (mapKeys ds1).Nodup := by
    rcases hrv with ⟨_, _, h1⟩ | ⟨r, _, _, _, h1⟩
    · rw [h1]; exact hds
    · rw [h1]; exact mapKeys_mapDelete_nodup _ _ hds
  have hids1 := hwf.1.sublist (hsub.map (fun s => s.id))
  have hpairs1 := hwf.2.1.sublist (hsub.map (fun s => (s.user, s.device)))
  have hlt1 : ∀ s ∈ ss1, s.id < w.nextId := fun s hs => hwf.2.2.2.2 s (hsub.subset hs)
  have hw3 : w3 =
      { sessions := w3.sessions,
        users := updateUserById o
          (applyAccountMeta pd (mapSet ds1 pd.device pd.deviceAgent)) w.users,
        nextId := w3.nextId } := by
    cases w3
    simp only at husers
    simp [husers]
  rw [hw3]
  apply WF_of_parts w _ o _ _ hwf (applyAccountMeta_id pd _)
  · intro u _
    rw [applyAccountMeta_sessions]
    exact mapKeys_mapSet_nodup _ _ _ hds1
  · rcases hup with ⟨_, hacc, _, hws, _, _⟩ | ⟨_, _, s, _, _, hws, _⟩
    · rw [hws, List.map_append, List.nodup_append]
      refine ⟨hids1, List.nodup_singleton _, ?_⟩
      intro x hx hx2
      simp only [List.map_cons, List.map_nil, List.mem_singleton] at hx2
      obtain ⟨s, hs, hsx⟩ := List.mem_map.1 hx
      have := hlt1 s hs
      rw [hsx, hx2, hacc] at this
      exact Nat.lt_irrefl _ this
    · rw [hws, ids_updateOne _ _ _ (applySessionMeta_id _)]
      exact hids1
  · rcases hup with ⟨_, hacc, hno, hws, _, _⟩ | ⟨_, _, s, _, _, hws, _⟩
    · rw [hws, List.map_append, List.nodup_append]
      refine ⟨hpairs1, List.nodup_singleton _, ?_⟩
      intro x hx hx2
      simp only [List.map_cons, List.map_nil, List.mem_singleton] at hx2
      obtain ⟨s, hs, hsx⟩ := List.mem_map.1 hx
      apply hno s hs
      rw [hx2] at hsx
      simp only [Prod.mk.injEq] at hsx
      rw [hacc, newSessionRecord_user, newSessionRecord_device] at hsx
      exact hsx
    · rw [hws, keys_updateOne]
      · exact hpairs1
      · intro s hp
        simp only [isDeviceOf, Bool.and_eq_true, beq_iff_eq] at hp
        rw [applySessionMeta_user _ _ _ _ _ _ hp.1, applySessionMeta_device _ _ _ _ _ _ hp.2]
        exact ⟨hp.1.symm, hp.2.symm⟩
  · rcases hup with ⟨_, hacc, _, hws, hn, _⟩ | ⟨_, _, s, _, _, hws, hn⟩
    · intro s hs
      rw [hws] at hs
      rw [hn]
      rcases List.mem_append.1 hs with hs | hs
      · exact Nat.lt_succ_of_lt (hlt1 s hs)
      · simp only [List.mem_singleton] at hs
        rw [hs, hacc]
        exact Nat.lt_succ_self _
    · intro s hs
      rw [hn]
      have : s.id ∈ w3.sessions.map (fun s => s.id) := List.mem_map_of_mem _ hs
      rw [hws, ids_updateOne _ _ _ (applySessionMeta_id _)] at this
      obtain ⟨t, ht, hts⟩ := List.mem_map.1 this
      rw [← hts]
      exact hlt1 t ht

theorem mpa_WF (f : Faults) (jwt : JwtEnv) (now : Timestamp) (db : Db) (pd : ProfileData)
    (hwf : WF db) : WF (manageProfileAccount f jwt now db pd).2 := by
  rcases mpa_cases f jwt now db pd hwf with ⟨h, _⟩ | ⟨acct, db1, _, _, _, _, hdb1, heq⟩
  · rw [h]; exact hwf
  · have hwf1 : WF db1 := by
      rcases hdb1 with ⟨h, _⟩ | ⟨_, _, s, _, _, _, h⟩
      · subst h; exact hwf
      · subst h; exact WF_removeDevice _ _ _ hwf
    rw [heq]
    rcases mpaFinish_cases f db1 acct pd
        (mpaWrite f db1 acct.id (indexOf db1 acct.id) (!mapHas acct.sessions pd.device)
          (getSessionData jwt acct.id pd acct.forSystem
            (validSessionDevice db acct.id pd.device).isNone) pd) with
      ⟨h, _⟩ | ⟨acc, w, hw, _, h⟩
    · rw [h]; exact hwf1
    · rw [h]
      exact mpaWrite_WF f jwt db1 w acct.id _ _ _ pd acc hwf1 hw

theorem rad_WF (f : Faults) (db : Db) (o : UserId) (d : DeviceID) (hwf : WF db) :
    WF (revokeAuthDevice f db o d).2 := by
  unfold revokeAuthDevice
  split
  · exact hwf
  · split
    · exact hwf
    · next account hacc =>
      have hk := userIndex_nodup db o account hwf hacc
      split
      · exact hwf
      · split
        · exact hwf
        · simp only
          split
          · exact hwf
          · split
            · exact hwf
            · split
              · exact hwf
              · apply WF_sublist_save db _ o _ hwf (List.eraseP_sublist _)
                apply mapKeys_foldl_nodup
                split
                · exact mapKeys_mapDelete_nodup _ _ hk
                · exact hk

theorem ts_WF (f : Faults) (db : Db) (sid : Nat) (hwf : WF db) :
    WF (terminateSession f db sid).2 := by
  unfold terminateSession
  split
  · exact hwf
  · split
    · exact hwf
    · simp only
      split
      · exact hwf
      · split
        · exact hwf
        · split
          · next user hu =>
            have hk := userIndex_nodup db _ user hwf hu
            split
            · split
              · exact hwf
              · split
                · exact hwf
                · exact WF_sublist_save db _ _ _ hwf (List.eraseP_sublist _)
                    (mapKeys_mapDelete_nodup _ _ hk)
            · split
              · exact hwf
              · exact WF_sessions_sublist db _ hwf (List.eraseP_sublist _)
          · split
            · exact hwf
            · exact WF_sessions_sublist db _ hwf (List.eraseP_sublist _)

theorem tus_WF (f : Faults) (db : Db) (o : UserId) (hwf : WF db) :
    WF (terminateUserSessions f db o).2 := by
  unfold terminateUserSessions
  split
  · exact hwf
  · simp only
    split
    · exact hwf
    · split
      · split
        · exact hwf
        · split
          · exact hwf
          · exact WF_sublist_save db _ _ _ hwf (List.filter_sublist _) (by simp [mapKeys])
      · split
        · exact hwf
        · exact WF_sessions_sublist db _ hwf (List.filter_sublist _)

theorem tds_WF (f : Faults) (db : Db) (o : UserId) (d : DeviceID) (hwf : WF db) :
    WF (terminateDeviceSession f db o d).2 := by
  unfold terminateDeviceSession
  split
  · exact hwf
  · split
    · exact hwf
    · simp only
      split
      · exact hwf
      · split
        · next user hu =>
          have hk := userIndex_nodup db _ user hwf hu
          split
          · split
            · exact hwf
            · split
              · exact hwf
              · exact WF_sublist_save db _ _ _ hwf (List.eraseP_sublist _)
                  (mapKeys_mapDelete_nodup _ _ hk)
          · split
            · exact hwf
            · exact WF_sessions_sublist db _ hwf (List.eraseP_sublist _)
        · split
          · exact hwf
          · exact WF_sessions_sublist db _ hwf (List.eraseP_sublist _)

theorem vus_WF (f : Faults) (db : Db) (o : UserId) (hwf : WF db) :
    WF (validateUserSessionMap f db o).2 := by
  unfold validateUserSessionMap
  split
  · exact hwf
  · simp only
    split
    · split <;> exact hwf
    · next user hu =>
      have hk := userIndex_nodup db _ user hwf hu
      split
      · split <;> exact hwf
      · split
        · exact hwf
        · split
          · split
            · exact hwf
            · split
              · exact hwf
              · exact WF_sublist_save db _ _ _ hwf (List.Sublist.refl _)
                  (mapKeys_foldl_nodup _ _ hk)
          · split <;> exact hwf

theorem ras_WF (f : Faults) (jwt : JwtEnv) (db : Db) (auth : AuthContext) (hwf : WF db) :
    WF (provideRenewAuthSession f jwt db auth).2 := by
  unfold provideRenewAuthSession
  simp only
  split
  · exact hwf
  · split
    · exact hwf
    · split
      · exact hwf
      · have hid := ids_updateOne (isDeviceOf auth.identity auth.device)
          (fun s => { s with accessToken :=
            (generateAuthTokens jwt auth.identity auth.platform auth.forSystem
              auth.device).accessToken }) db.sessions (fun _ => rfl)
        have hkey := keys_updateOne (isDeviceOf auth.identity auth.device)
          (fun s => { s with accessToken :=
            (generateAuthTokens jwt auth.identity auth.platform auth.forSystem
              auth.device).accessToken }) db.sessions (fun _ _ => ⟨rfl, rfl⟩)
        refine ⟨?_, ?_, hwf.2.2.1, hwf.2.2.2.1, ?_⟩
        · simp only; rw [hid]; exact hwf.1
        · simp only; rw [hkey]; exact hwf.2.1
        · intro s hs
          have : s.id ∈ (updateOneSession (isDeviceOf auth.identity auth.device)
              (fun s => { s with accessToken :=
                (generateAuthTokens jwt auth.identity auth.platform auth.forSystem
                  auth.device).accessToken }) db.sessions).map (fun s => s.id) :=
            List.mem_map_of_mem _ hs
          rw [hid] at this
          obtain ⟨t, ht, hts⟩ := List.mem_map.1 this
          rw [← hts]
          exact hwf.2.2.2.2 t ht

/-- The store guarantees `WF` are kept by every engine operation, in every run, so
`WF` holds along any sequence of operations that starts in a well-formed database. -/
theorem WF_preserved (db : Db) (hwf : WF db) :
    (∀ f jwt now pd, WF (manageProfileAccount f jwt now db pd).2) ∧
    (∀ f o d, WF (revokeAuthDevice f db o d).2) ∧
    (∀ f sid, WF (terminateSession f db sid).2) ∧
    (∀ f o d, WF (terminateDeviceSession f db o d).2) ∧
    (∀ f o, WF (terminateUserSessions f db o).2) ∧
    (∀ f o, WF (validateUserSessionMap f db o).2) ∧
    (∀ f jwt auth, WF (provideRenewAuthSession f jwt db auth).2) :=
  ⟨fun f jwt now pd => mpa_WF f jwt now db pd hwf,
   fun f o d => rad_WF f db o d hwf,
   fun f sid => ts_WF f db sid hwf,
   fun f o d => tds_WF f db o d hwf,
   fun f o => tus_WF f db o hwf,
   fun f o => vus_WF f db o hwf,
   fun f jwt auth => ras_WF f jwt db auth hwf⟩

theorem mapDelete_of_has (m : List (DeviceID × String)) (d : DeviceID) :
    (if mapHas m d = true then mapDelete m d else m) = mapDelete m d := by
  split
  · rfl
  · next hh =>
    symm
    unfold mapDelete
    rw [List.filter_eq_self]
    intro e he
    by_contra hc
    simp only [Bool.not_eq_true', Bool.not_eq_false, beq_iff_eq] at hc
    apply hh
    rw [mapHas_iff]
    exact List.mem_map.2 ⟨e, he, hc⟩

theorem foldl_mapDelete_eq_filter (l : List DeviceID) (m : List (DeviceID × String)) :
    l.foldl mapDelete m = m.filter (fun e => !l.contains e.1) := by
  induction l generalizing m with
  | nil => simp
  | cons a t ih =>
    rw [List.foldl_cons, ih, mapDelete, List.filter_filter]
    apply List.filter_congr
    intro e _
    simp only [List.contains_cons, Bool.not_or]
    rw [Bool.and_comm]

theorem mem_orphanKeys (ss : List SessionRecord) (u : UserId) (m : List (DeviceID × String))
    (d : DeviceID) :
    d ∈ orphanKeys ss u m ↔ d ∈ mapKeys m ∧ ¬ ∃ s ∈ ss, s.user = u ∧ s.device = d := by
  unfold orphanKeys
  rw [List.mem_filter]
  have hc : ((ss.filter (fun s => s.user == u)).map (fun s => s.device)).contains d = true ↔
      ∃ s ∈ ss, s.user = u ∧ s.device = d := by
    rw [List.contains_iff_exists_mem_beq]
    simp only [List.mem_map, List.mem_filter, beq_iff_eq]
    constructor
    · rintro ⟨x, ⟨s, ⟨hs, hu⟩, hd⟩, hx⟩; exact ⟨s, hs, hu, by rw [hd, hx]⟩
    · rintro ⟨s, hs, hu, hd⟩; exact ⟨s.device, ⟨s, ⟨hs, hu⟩, rfl⟩, hd.symm⟩
  rw [← hc]
  simp

/-- A run of `revokeAuthDevice` that returns a map: the account existed, the record
existed, and the result and the database are the ones of the fault-free path. -/
theorem rad_ok (f : Faults) (db : Db) (U : UserId) (d : DeviceID)
    (m : List (DeviceID × String)) (h : (revokeAuthDevice f db U d).1 = .ok m) :
    ∃ account, findUserById db.users U = some account ∧
      db.sessions.any (isDeviceOf U d) = true ∧
      m = (orphanKeys (db.sessions.eraseP (isDeviceOf U d)) U
            (mapDelete account.sessions d)).foldl mapDelete (mapDelete account.sessions d) ∧
      (revokeAuthDevice f db U d).2 =
        { db with sessions := db.sessions.eraseP (isDeviceOf U d),
                  users := saveUserSessions db.users U m } := by
  unfold revokeAuthDevice at h ⊢
  split at h
  · simp at h
  · split at h
    · simp at h
    · next account hacc =>
      split at h
      · simp at h
      · split at h
        · simp at h
        · next hany =>
          simp only at h
          split at h
          · simp at h
          · split at h
            · simp at h
            · split at h
              · simp at h
              · simp only [Except.ok.injEq] at h
                rw [mapDelete_of_has] at h
                refine ⟨account, hacc, by simpa using hany, ?_, ?_⟩
                · rw [← h]; rfl
                · simp only [*, Bool.false_eq_true, if_false]
                  simp only [mapDelete_of_has] at h ⊢
                  simp_all

/-- With no rejected call, `revokeAuthDevice` on an existing account and an existing
record returns a map. -/
theorem rad_succeeds (f : Faults) (db : Db) (U : UserId) (d : DeviceID) (account : UserDoc)
    (hu : findUserById db.users U = some account)
    (hs : db.sessions.any (isDeviceOf U d) = true)
    (hf : f .radFindUser = false ∧ f .radDelete = false ∧ f .radFindSessions = false ∧
      f .radUserUpdate = false ∧ f .radCommit = false) :
    ∃ m, (revokeAuthDevice f db U d).1 = .ok m := by
  obtain ⟨h1, h2, h3, h4, h5⟩ := hf
  unfold revokeAuthDevice
  simp only [h1, h2, h3, h4, h5, hu, hs, Bool.false_eq_true, if_false, Bool.not_true]
  exact ⟨_, rfl⟩

theorem mem_mapDelete (m : List (DeviceID × String)) (d : DeviceID) (e : DeviceID × String) :
    e ∈ mapDelete m d ↔ e ∈ m ∧ e.1 ≠ d := by
  unfold mapDelete
  rw [List.mem_filter]
  simp

theorem mem_foldl_mapDelete (l : List DeviceID) (m : List (DeviceID × String))
    (e : DeviceID × String) : e ∈ l.foldl mapDelete m ↔ e ∈ m ∧ e.1 ∉ l := by
  rw [foldl_mapDelete_eq_filter, List.mem_filter]
  simp

theorem foldl_mapDelete_sublist (l : List DeviceID) (m : List (DeviceID × String)) :
    (l.foldl mapDelete m).Sublist m := by
  rw [foldl_mapDelete_eq_filter]
  exact List.filter_sublist _

/-- No index key is an orphan when every key has a session record. -/
theorem orphanKeys_eq_nil (ss : List SessionRecord) (u : UserId) (m : List (DeviceID × String))
    (h : ∀ k ∈ mapKeys m, ∃ s ∈ ss, s.user = u ∧ s.device = k) : orphanKeys ss u m = [] := by
  rw [List.eq_nil_iff_forall_not_mem]
  intro k hk
  rw [mem_orphanKeys] at hk
  exact hk.2 (h k hk.1)

/-- The index that `revokeAuthDevice` and `validateUserSessionMap` store has no orphan
left and keeps every entry whose device has a session record. -/
theorem mem_swept (ss : List SessionRecord) (u : UserId) (m : List (DeviceID × String))
    (e : DeviceID × String) :
    e ∈ (orphanKeys ss u m).foldl mapDelete m ↔
      e ∈ m ∧ ∃ s ∈ ss, s.user = u ∧ s.device = e.1 := by
  rw [mem_foldl_mapDelete, mem_orphanKeys]
  constructor
  · rintro ⟨he, hn⟩
    refine ⟨he, ?_⟩
    by_contra hc
    exact hn ⟨List.mem_map.2 ⟨e, he, rfl⟩, hc⟩
  · rintro ⟨he, hs⟩
    exact ⟨he, fun hc => hc.2 hs⟩

/-- A run of `terminateUserSessions` that returns a count: the count is the number of
records of the user, and the database is the one of the fault-free path. -/
theorem tus_ok (f : Faults) (db : Db) (U : UserId) (n : Nat)
    (h : (terminateUserSessions f db U).1 = .ok n) :
    n = (sessionsOf db U).length ∧
    (terminateUserSessions f db U).2.sessions = db.sessions.filter (fun s => !(s.user == U)) ∧
    (terminateUserSessions f db U).2.users =
      (match findUserById db.users U with
       | some _ => saveUserSessions db.users U []
       | none => db.users) := by
  unfold terminateUserSessions at h ⊢
  split at h
  · simp at h
  · simp only at h
    split at h
    · simp at h
    · split at h
      · split at h
        · simp at h
        · split at h
          · simp at h
          · simp only [Except.ok.injEq] at h
            simp_all [sessionsOf]
      · split at h
        · simp at h
        · simp only [Except.ok.injEq] at h
          simp_all [sessionsOf]

/-- With no rejected call `terminateUserSessions` returns a count. -/
theorem tus_succeeds (f : Faults) (db : Db) (U : UserId)
    (hf : f .tusDeleteMany = false ∧ f .tusFindUser = false ∧ f .tusSave = false ∧
      f .tusCommit = false) :
    (terminateUserSessions f db U).1 = .ok (sessionsOf db U).length := by
  obtain ⟨h1, h2, h3, h4⟩ := hf
  unfold terminateUserSessions
  simp only [h1, h2, h3, h4, Bool.false_eq_true, if_false]
  split <;> rfl

/-- The run of `validateUserSessionMap` on an unknown user or an empty index, when it
reports success. -/
theorem vus_early (f : Faults) (db : Db) (u : UserId)
    (hu : ∀ user, findUserById db.users u = some user → user.sessions = [])
    (hv : (validateUserSessionMap f db u).1.validated = true) :
    validateUserSessionMap f db u =
      ({ validated := true, removedCount := some 0, invalidDevices := none,
         error := none, message := .noSessions }, db) := by
  unfold validateUserSessionMap at hv ⊢
  split at hv
  · simp [vusFailed] at hv
  · simp only at hv
    rename_i h1
    simp only [h1, Bool.false_eq_true, if_false]
    cases hfu : findUserById db.users u with
    | none =>
      rw [hfu] at hv
      simp only at hv ⊢
      split at hv
      · simp [vusFailed] at hv
      · rename_i h2
        simp [h2]
    | some user =>
      have hnil := hu user hfu
      rw [hfu] at hv
      simp only [hnil, mapSize, List.length_nil, beq_self_eq_true, if_true] at hv ⊢
      split at hv
      · simp [vusFailed] at hv
      · rename_i h2
        simp [h2]

/-- The run of `validateUserSessionMap` on a user with a non-empty index, when it
reports success. -/
theorem vus_main (f : Faults) (db : Db) (u : UserId) (user : UserDoc)
    (hu : findUserById db.users u = some user) (hne : user.sessions ≠ [])
    (hv : (validateUserSessionMap f db u).1.validated = true) :
    validateUserSessionMap f db u =
      ({ validated := true,
         removedCount := some (orphanKeys db.sessions u user.sessions).length,
         invalidDevices := some (orphanKeys db.sessions u user.sessions),
         error := none,
         message := if (orphanKeys db.sessions u user.sessions).length > 0
           then .removed (orphanKeys db.sessions u user.sessions).length else .allValid },
       if (orphanKeys db.sessions u user.sessions).length > 0 then
         { db with
           users := saveUserSessions db.users u
             ((orphanKeys db.sessions u user.sessions).foldl mapDelete user.sessions) }
       else db) := by
  have hsz : (mapSize user.sessions == 0) = false := by
    cases hs : user.sessions with
    | nil => exact absurd hs hne
    | cons a t => simp [mapSize]
  unfold validateUserSessionMap at hv ⊢
  split at hv
  · simp [vusFailed] at hv
  · rename_i h1
    rw [hu] at hv
    simp only [hsz, Bool.false_eq_true, if_false] at hv
    simp only [h1, Bool.false_eq_true, if_false, hu, hsz]
    split at hv
    · simp [vusFailed] at hv
    · rename_i h2
      simp only [h2, Bool.false_eq_true, if_false]
      by_cases hpos : (orphanKeys db.sessions u user.sessions).length > 0
      · have hpos2 := hpos
        unfold orphanKeys at hpos2
        simp only [hpos2, if_true] at hv
        split at hv
        · simp [vusFailed] at hv
        · split at hv
          · simp [vusFailed] at hv
          · rename_i h3 h4
            simp only [hpos, if_true]
            unfold orphanKeys
            simp only [hpos2, if_true, h3, h4, Bool.false_eq_true, if_false]
      · have hpos2 := hpos
        unfold orphanKeys at hpos2
        simp only [hpos2, if_false] at hv
        split at hv
        · simp [vusFailed] at hv
        · rename_i h3
          simp only [hpos, if_false]
          unfold orphanKeys
          simp only [hpos2, if_false, h3, Bool.false_eq_true]
          rw [Nat.eq_zero_of_not_pos hpos2]

/-- With no rejected call `validateUserSessionMap` reports success. -/
theorem vus_succeeds (f : Faults) (db : Db) (u : UserId)
    (hf : f .vusFindUser = false ∧ f .vusFindSessions = false ∧ f .vusSave = false ∧
      f .vusCommit = false) :
    (validateUserSessionMap f db u).1.validated = true := by
  obtain ⟨h1, h2, h3, h4⟩ := hf
  unfold validateUserSessionMap
  simp only [h1, h2, h3, h4, Bool.false_eq_true, if_false]
  split
  · rfl
  · split
    · rfl
    · split <;> rfl

theorem vus_sessions (f : Faults) (db : Db) (u : UserId) :
    (validateUserSessionMap f db u).2.sessions = db.sessions := by
  unfold validateUserSessionMap
  split
  · rfl
  · simp only
    split
    · split <;> rfl
    · split
      · split <;> rfl
      · split
        · rfl
        · split
          · split
            · rfl
            · split <;> rfl
          · split <;> rfl

theorem lid_faults (f : Faults) (now : Timestamp) (db : Db) (o : UserId) :
    findAndRemoveLastInactiveDevice f now db o =
        findAndRemoveLastInactiveDevice noFaults now db o ∨
      ∃ s, f s = true ∧ (findAndRemoveLastInactiveDevice f now db o).1 = .error (.store s) := by
  unfold findAndRemoveLastInactiveDevice
  simp only [noFaults, Bool.false_eq_true, if_false]
  split_ifs <;> (try split) <;> (try split) <;> simp_all

theorem ois_faults (f : Faults) (db : Db) (o : UserId) :
    findAndRemoveOldestInactiveSession f db o = findAndRemoveOldestInactiveSession noFaults db o ∨
      ∃ s, f s = true ∧ (findAndRemoveOldestInactiveSession f db o).1 = .error (.store s) := by
  unfold findAndRemoveOldestInactiveSession
  simp only [noFaults, Bool.false_eq_true, if_false]
  split_ifs <;> (try split) <;> (try split) <;> simp_all

theorem rad_faults (f : Faults) (db : Db) (U : UserId) (d : DeviceID) :
    revokeAuthDevice f db U d = revokeAuthDevice noFaults db U d ∨
      ∃ s, f s = true ∧ (revokeAuthDevice f db U d).1 = .error (.store s) := by
  unfold revokeAuthDevice
  simp only [noFaults, Bool.false_eq_true, if_false]
  split_ifs <;> (try split) <;> (try split_ifs) <;> simp_all

theorem tus_faults (f : Faults) (db : Db) (U : UserId) :
    terminateUserSessions f db U = terminateUserSessions noFaults db U ∨
      ∃ s, f s = true ∧ (terminateUserSessions f db U).1 = .error (.store s) := by
  unfold terminateUserSessions
  simp only [noFaults, Bool.false_eq_true, if_false]
  split_ifs <;> (try split) <;> simp_all

theorem tds_faults (f : Faults) (db : Db) (U : UserId) (d : DeviceID) :
    terminateDeviceSession f db U d = terminateDeviceSession noFaults db U d ∨
      ∃ s, f s = true ∧ (terminateDeviceSession f db U d).1 = .error (.store s) := by
  unfold terminateDeviceSession
  simp only [noFaults, Bool.false_eq_true, if_false]
  split_ifs <;> (try split) <;> (try split_ifs) <;> simp_all

theorem vus_faults (f : Faults) (db : Db) (u : UserId) :
    validateUserSessionMap f db u = validateUserSessionMap noFaults db u ∨
      ∃ s, f s = true ∧ validateUserSessionMap f db u = (vusFailed (.store s), db) := by
  unfold validateUserSessionMap
  simp only [noFaults, Bool.false_eq_true, if_false]
  split_ifs <;> (try split) <;> (try split_ifs) <;>
    first
    | (right; exact ⟨_, by assumption, rfl⟩)
    | simp_all

theorem mpaEvict_faults (f : Faults) (now : Timestamp) (db : Db) (o : UserId) :
    mpaEvict f now db o = mpaEvict noFaults now db o ∨
      ∃ s, f s = true ∧ (mpaEvict f now db o).1 = .error (.store s) := by
  unfold mpaEvict
  rcases lid_faults f now db o with h | ⟨s, hs, he⟩
  · rw [h]
    rcases hr : findAndRemoveLastInactiveDevice noFaults now db o with ⟨r, db1⟩
    rcases r with e | (_ | x)
    · exact Or.inl rfl
    · simp only
      rcases ois_faults f db1 o with h2 | ⟨s, hs, he⟩
      · rw [h2]; exact Or.inl rfl
      · right
        refine ⟨s, hs, ?_⟩
        rcases hr2 : findAndRemoveOldestInactiveSession f db1 o with ⟨r2, db2⟩
        rw [hr2] at he
        simp only at he
        rw [he]
    · exact Or.inl rfl
  · right
    refine ⟨s, hs, ?_⟩
    rcases hr : findAndRemoveLastInactiveDevice f now db o with ⟨r, db1⟩
    rw [hr] at he
    simp only at he
    rw [he]

theorem mpaAdmit_faults (f : Faults) (now : Timestamp) (db : Db) (o : UserId)
    (m : List (DeviceID × String)) (revoke : Bool) (count : Int) :
    mpaAdmit f now db o m revoke count = mpaAdmit noFaults now db o m revoke count ∨
      ∃ s, f s = true ∧ (mpaAdmit f now db o m revoke count).1 = .error (.store s) := by
  unfold mpaAdmit
  split
  · rcases mpaEvict_faults f now db o with h | ⟨s, hs, he⟩
    · rw [h]; exact Or.inl rfl
    · right
      refine ⟨s, hs, ?_⟩
      rcases hr : mpaEvict f now db o with ⟨r, db1⟩
      rw [hr] at he
      simp only at he
      rw [he]
  · exact Or.inl rfl

theorem mpaRevoke_faults (f : Faults) (w : Db) (o : UserId) (m : List (DeviceID × String))
    (pd : ProfileData) :
    mpaRevoke f w o m pd = mpaRevoke noFaults w o m pd ∨
      ∃ s, f s = true ∧ mpaRevoke f w o m pd = .error (.store s) := by
  unfold mpaRevoke
  simp only [noFaults, Bool.false_eq_true, if_false]
  split <;> (try split_ifs) <;> simp_all

theorem mpaUpsert_faults (f : Faults) (w : Db) (o : UserId) (newDevice : Bool)
    (sm : SessionMeta) (pd : ProfileData) :
    mpaUpsert f w o newDevice sm pd = mpaUpsert noFaults w o newDevice sm pd ∨
      ∃ s, f s = true ∧ mpaUpsert f w o newDevice sm pd = .error (.store s) := by
  unfold mpaUpsert
  simp only [noFaults, Bool.false_eq_true, if_false]
  split_ifs <;> (try split) <;> simp_all

theorem mpaIndexUpdate_faults (f : Faults) (w : Db) (o : UserId) (m : List (DeviceID × String))
    (pd : ProfileData) :
    mpaIndexUpdate f w o m pd = mpaIndexUpdate noFaults w o m pd ∨
      ∃ s, f s = true ∧ mpaIndexUpdate f w o m pd = .error (.store s) := by
  unfold mpaIndexUpdate
  simp only [noFaults, Bool.false_eq_true, if_false]
  split_ifs <;> simp_all

theorem mpaWrite_faults (f : Faults) (w : Db) (o : UserId) (m : List (DeviceID × String))
    (newDevice : Bool) (sm : SessionMeta) (pd : ProfileData) :
    mpaWrite f w o m newDevice sm pd = mpaWrite noFaults w o m newDevice sm pd ∨
      ∃ s, f s = true ∧ mpaWrite f w o m newDevice sm pd = .error (.store s) := by
  unfold mpaWrite
  rcases mpaRevoke_faults f w o m pd with h | ⟨s, hs, he⟩
  · rw [h]
    rcases mpaRevoke noFaults w o m pd with e | ⟨w1, m1⟩
    · exact Or.inl rfl
    · simp only
      rcases mpaUpsert_faults f w1 o newDevice sm pd with h2 | ⟨s, hs, he⟩
      · rw [h2]
        rcases mpaUpsert noFaults w1 o newDevice sm pd with e | ⟨a, w2⟩
        · exact Or.inl rfl
        · simp only
          rcases mpaIndexUpdate_faults f w2 o m1 pd with h3 | ⟨s, hs, he⟩
          · rw [h3]; exact Or.inl rfl
          · exact Or.inr ⟨s, hs, by rw [he]⟩
      · exact Or.inr ⟨s, hs, by rw [he]⟩
  · exact Or.inr ⟨s, hs, by rw [he]⟩

theorem mpaFinish_faults (f : Faults) (db1 : Db) (acct : UserDoc) (pd : ProfileData)
    (r : Except Err (SessionRecord × Db)) :
    mpaFinish f db1 acct pd r = mpaFinish noFaults db1 acct pd r ∨
      ∃ s, f s = true ∧ (mpaFinish f db1 acct pd r).1 = .error (.store s) := by
  unfold mpaFinish
  simp only [noFaults, Bool.false_eq_true, if_false]
  split <;> (try split_ifs) <;> simp_all

theorem mpa_faults (f : Faults) (jwt : JwtEnv) (now : Timestamp) (db : Db) (pd : ProfileData) :
    manageProfileAccount f jwt now db pd = manageProfileAccount noFaults jwt now db pd ∨
      ∃ s, f s = true ∧ (manageProfileAccount f jwt now db pd).1 = .error (.store s) := by
  unfold manageProfileAccount
  simp only [noFaults, Bool.false_eq_true, if_false]
  by_cases h1 : f .mpaFindAccount = true
  · exact Or.inr ⟨_, h1, by simp [h1]⟩
  simp only [h1, Bool.false_eq_true, if_false]
  rcases mpaAccount db pd with e | acct
  · exact Or.inl rfl
  simp only
  by_cases h2 : f .mpaFindDevice = true
  · exact Or.inr ⟨_, h2, by simp [h2]⟩
  simp only [h2, Bool.false_eq_true, if_false]
  split
  · exact Or.inl rfl
  · rcases mpaAdmit_faults f now db acct.id acct.sessions (truthyStr pd.revokeDeviceSession)
      (prospectiveCount acct.sessions (truthyStr pd.revokeDeviceSession)
        (!mapHas acct.sessions pd.device)) with h | ⟨s, hs, he⟩
    · rw [h]
      change (match mpaAdmit noFaults now db acct.id acct.sessions
          (truthyStr pd.revokeDeviceSession)
          (prospectiveCount acct.sessions (truthyStr pd.revokeDeviceSession)
            (!mapHas acct.sessions pd.device)) with
        | (.error e, db1) => _
        | (.ok m1, db1) => _) = _ ∨ _
      rcases mpaAdmit noFaults now db acct.id acct.sessions (truthyStr pd.revokeDeviceSession)
        (prospectiveCount acct.sessions (truthyStr pd.revokeDeviceSession)
          (!mapHas acct.sessions pd.device)) with ⟨r, db1⟩
      rcases r with e | m1
      · exact Or.inl rfl
      · simp only
        rcases mpaWrite_faults f db1 acct.id m1 (!mapHas acct.sessions pd.device)
          (getSessionData jwt acct.id pd acct.forSystem
            (validSessionDevice db acct.id pd.device).isNone) pd with hw | ⟨s, hs, he⟩
        · rw [hw]
          exact mpaFinish_faults f db1 acct pd _
        · right
          refine ⟨s, hs, ?_⟩
          rw [he]
          rfl
    · right
      refine ⟨s, hs, ?_⟩
      rcases hr : mpaAdmit f now db acct.id acct.sessions (truthyStr pd.revokeDeviceSession)
        (prospectiveCount acct.sessions (truthyStr pd.revokeDeviceSession)
          (!mapHas acct.sessions pd.device)) with ⟨r, db1⟩
      rw [hr] at he
      simp only at he
      rw [he]

/-- A run of `revokeAuthDevice` that returns a map had none of its store calls
rejected. -/
theorem rad_ok_faults (f : Faults) (db : Db) (U : UserId) (d : DeviceID)
    (m : List (DeviceID × String)) (h : (revokeAuthDevice f db U d).1 = .ok m) :
    f .radFindUser = false ∧ f .radDelete = false ∧ f .radFindSessions = false ∧
      f .radUserUpdate = false ∧ f .radCommit = false := by
  unfold revokeAuthDevice at h
  split_ifs at h <;> (try split at h) <;> (try split_ifs at h) <;> simp_all

/-- A run of `terminateUserSessions` that returns a count had none of the store calls
it made rejected; the save is made when the user exists. -/
theorem tus_ok_faults (f : Faults) (db : Db) (U : UserId) (n : Nat)
    (h : (terminateUserSessions f db U).1 = .ok n) :
    f .tusDeleteMany = false ∧ f .tusFindUser = false ∧ f .tusCommit = false ∧
      ((findUserById db.users U).isSome = true → f .tusSave = false) := by
  unfold terminateUserSessions at h
  split_ifs at h <;> (try split at h) <;> simp_all

/-- A run of `terminateDeviceSession` that returns a boolean had none of the store
calls it made rejected; after a delete that removed nothing no further call is made,
and the save is made when the device is an index key. -/
theorem tds_ok_faults (f : Faults) (db : Db) (U : UserId) (d : DeviceID) (b : Bool)
    (h : (terminateDeviceSession f db U d).1 = .ok b) :
    f .tdsDelete = false ∧
      (b = true → f .tdsFindUser = false ∧ f .tdsCommit = false ∧
        (mapHas (indexOf db U) d = true → f .tdsSave = false)) := by
  unfold terminateDeviceSession at h
  unfold indexOf userIndex
  split_ifs at h <;> (try split at h) <;> (try split_ifs at h) <;> simp_all [mapHas]

/-- A run of `manageProfileAccount` that returns a payload had none of the store calls
rejected that every successful login makes. -/
theorem mpa_ok_steps (f : Faults) (jwt : JwtEnv) (now : Timestamp) (db : Db)
    (pd : ProfileData) (p : AuthPayload)
    (hok : (manageProfileAccount f jwt now db pd).1 = .ok p) :
    f .mpaFindAccount = false ∧ f .mpaFindDevice = false ∧ f .mpaIndexSet = false ∧
      f .mpaUserUpdate = false ∧ f .mpaCommit = false := by
  obtain ⟨h1, h2⟩ := mpa_ok_faults f jwt now db pd p hok
  refine ⟨h1, h2, ?_⟩
  unfold manageProfileAccount at hok
  simp only [h1, h2, Bool.false_eq_true, if_false] at hok
  split at hok
  · simp at hok
  · split at hok
    · simp at hok
    · split at hok
      · simp at hok
      · next ds1 db1 _ =>
        unfold mpaFinish at hok
        split at hok
        · simp at hok
        · next acc w hw =>
          split at hok
          · simp at hok
          · next hc =>
            obtain ⟨w1, ds2, w2, _, _, hiu⟩ := mpaWrite_ok f _ _ _ _ _ _ _ _ hw
            unfold mpaIndexUpdate at hiu
            split_ifs at hiu
            simp_all

/-- The `try` block of `findAndRemoveLastInactiveDevice` throws exactly when the
operation fails. -/
theorem lidTry_threw (f : Faults) (now : Timestamp) (db : Db) (o : UserId) :
    (findAndRemoveLastInactiveDeviceTry f now db o).1 =
      !(findAndRemoveLastInactiveDevice f now db o).1.isOk := by
  unfold findAndRemoveLastInactiveDeviceTry findAndRemoveLastInactiveDevice
  split_ifs <;> (try split) <;> (try split) <;> simp_all [Except.isOk, Except.toBool]

theorem oisTry_threw (f : Faults) (db : Db) (o : UserId) :
    (findAndRemoveOldestInactiveSessionTry f db o).1 =
      !(findAndRemoveOldestInactiveSession f db o).1.isOk := by
  unfold findAndRemoveOldestInactiveSessionTry findAndRemoveOldestInactiveSession
  split_ifs <;> (try split) <;> (try split) <;> simp_all [Except.isOk, Except.toBool]

theorem radTry_threw (f : Faults) (db : Db) (U : UserId) (d : DeviceID) :
    (revokeAuthDeviceTry f db U d).1 = !(revokeAuthDevice f db U d).1.isOk := by
  unfold revokeAuthDeviceTry revokeAuthDevice
  split_ifs <;> (try split) <;> (try split_ifs) <;> simp_all [Except.isOk, Except.toBool]

theorem tsTry_threw (f : Faults) (db : Db) (i : Nat) :
    (terminateSessionTry f db i).1 = !(terminateSession f db i).1.isOk := by
  unfold terminateSessionTry terminateSession
  split_ifs <;> (try split) <;> (try split) <;> (try split_ifs) <;>
    simp_all [Except.isOk, Except.toBool]

theorem tusTry_threw (f : Faults) (db : Db) (U : UserId) :
    (terminateUserSessionsTry f db U).1 = !(terminateUserSessions f db U).1.isOk := by
  unfold terminateUserSessionsTry terminateUserSessions
  split_ifs <;> (try split) <;> simp_all [Except.isOk, Except.toBool]

theorem tdsTry_threw (f : Faults) (db : Db) (U : UserId) (d : DeviceID) :
    (terminateDeviceSessionTry f db U d).1 = !(terminateDeviceSession f db U d).1.isOk := by
  unfold terminateDeviceSessionTry terminateDeviceSession
  split_ifs <;> (try split) <;> (try split_ifs) <;> simp_all [Except.isOk, Except.toBool]

/-- The `try` block of `validateUserSessionMap` throws exactly when the result reports
`validated = false`. -/
theorem vusTry_threw (f : Faults) (db : Db) (u : UserId) :
    (validateUserSessionMapTry f db u).1 = !(validateUserSessionMap f db u).1.validated := by
  unfold validateUserSessionMapTry validateUserSessionMap orphanKeys
  by_cases h1 : f .vusFindUser = true
  · simp [h1, vusFailed]
  simp only [h1, Bool.false_eq_true, if_false]
  rcases findUserById db.users u with _ | user
  · simp only
    split_ifs <;> simp [vusFailed]
  · simp only
    split_ifs <;> simp [vusFailed]

/-- Once the session is obtained, the `try` block of `manageProfileAccount` throws
exactly when the login fails. -/
theorem mpaTry_threw (f : Faults) (jwt : JwtEnv) (now : Timestamp) (db : Db)
    (pd : ProfileData) (acct : UserDoc) (hfa : f .mpaFindAccount = false)
    (hacct : mpaAccount db pd = .ok acct) (hfd : f .mpaFindDevice = false) :
    (manageProfileAccountTry f jwt now db pd acct).1 =
      !(manageProfileAccount f jwt now db pd).1.isOk := by
  unfold manageProfileAccountTry manageProfileAccount
  simp only [hfa, hfd, hacct, Bool.false_eq_true, if_false]
  split
  · rfl
  · rcases mpaAdmit f now db acct.id acct.sessions (truthyStr pd.revokeDeviceSession)
      (prospectiveCount acct.sessions (truthyStr pd.revokeDeviceSession)
        (!mapHas acct.sessions pd.device)) with ⟨r, db1⟩
    rcases r with e | ds1
    · rfl
    · simp only
      unfold mpaFinish
      rcases mpaWrite f db1 acct.id ds1 (!mapHas acct.sessions pd.device)
        (getSessionData jwt acct.id pd acct.forSystem
          (validSessionDevice db acct.id pd.device).isNone) pd with e | ⟨acc, w⟩
      · rfl
      · simp only
        split_ifs <;> rfl

/-- The calls of every `try … catch … finally` of the engine release the session. -/
theorem tryCatchFinally_released (body : Bool × List TxCall)
    (h : body = (true, []) ∨ body = (true, [.commitTransaction]) ∨
      body = (false, [.commitTransaction]) ∨ body = (false, [.abortTransaction])) :
    Released (tryCatchFinally body) := by
  rcases h with h | h | h | h <;> subst h <;> decide

theorem lidTry_shape (f : Faults) (now : Timestamp) (db : Db) (o : UserId) :
    findAndRemoveLastInactiveDeviceTry f now db o = (true, []) ∨
    findAndRemoveLastInactiveDeviceTry f now db o = (true, [.commitTransaction]) ∨
    findAndRemoveLastInactiveDeviceTry f now db o = (false, [.commitTransaction]) ∨
    findAndRemoveLastInactiveDeviceTry f now db o = (false, [.abortTransaction]) := by
  unfold findAndRemoveLastInactiveDeviceTry
  split_ifs <;> (try split) <;> (try split) <;> simp_all

theorem oisTry_shape (f : Faults) (db : Db) (o : UserId) :
    findAndRemoveOldestInactiveSessionTry f db o = (true, []) ∨
    findAndRemoveOldestInactiveSessionTry f db o = (true, [.commitTransaction]) ∨
    findAndRemoveOldestInactiveSessionTry f db o = (false, [.commitTransaction]) ∨
    findAndRemoveOldestInactiveSessionTry f db o = (false, [.abortTransaction]) := by
  unfold findAndRemoveOldestInactiveSessionTry
  split_ifs <;> (try split) <;> (try split) <;> simp_all

theorem mpaTry_shape (f : Faults) (jwt : JwtEnv) (now : Timestamp) (db : Db)
    (pd : ProfileData) (acct : UserDoc) :
    manageProfileAccountTry f jwt now db pd acct = (true, []) ∨
    manageProfileAccountTry f jwt now db pd acct = (true, [.commitTransaction]) ∨
    manageProfileAccountTry f jwt now db pd acct = (false, [.commitTransaction]) ∨
    manageProfileAccountTry f jwt now db pd acct = (false, [.abortTransaction]) := by
  unfold manageProfileAccountTry
  simp only
  split
  · exact Or.inl rfl
  · split
    · exact Or.inl rfl
    · split
      · exact Or.inl rfl
      · split_ifs
        · exact Or.inr (Or.inl rfl)
        · exact Or.inr (Or.inr (Or.inl rfl))

theorem radTry_shape (f : Faults) (db : Db) (U : UserId) (d : DeviceID) :
    revokeAuthDeviceTry f db U d = (true, []) ∨
    revokeAuthDeviceTry f db U d = (true, [.commitTransaction]) ∨
    revokeAuthDeviceTry f db U d = (false, [.commitTransaction]) ∨
    revokeAuthDeviceTry f db U d = (false, [.abortTransaction]) := by
  unfold revokeAuthDeviceTry
  split_ifs <;> (try split) <;> simp_all

theorem tsTry_shape (f : Faults) (db : Db) (i : Nat) :
    terminateSessionTry f db i = (true, []) ∨
    terminateSessionTry f db i = (true, [.commitTransaction]) ∨
    terminateSessionTry f db i = (false, [.commitTransaction]) ∨
    terminateSessionTry f db i = (false, [.abortTransaction]) := by
  unfold terminateSessionTry
  split_ifs <;> (try split) <;> (try split) <;> (try split_ifs) <;> simp_all

theorem tusTry_shape (f : Faults) (db : Db) (U : UserId) :
    terminateUserSessionsTry f db U = (true, []) ∨
    terminateUserSessionsTry f db U = (true, [.commitTransaction]) ∨
    terminateUserSessionsTry f db U = (false, [.commitTransaction]) ∨
    terminateUserSessionsTry f db U = (false, [.abortTransaction]) := by
  unfold terminateUserSessionsTry
  split_ifs <;> (try split) <;> simp_all

theorem tdsTry_shape (f : Faults) (db : Db) (U : UserId) (d : DeviceID) :
    terminateDeviceSessionTry f db U d = (true, []) ∨
    terminateDeviceSessionTry f db U d = (true, [.commitTransaction]) ∨
    terminateDeviceSessionTry f db U d = (false, [.commitTransaction]) ∨
    terminateDeviceSessionTry f db U d = (false, [.abortTransaction]) := by
  unfold terminateDeviceSessionTry
  split_ifs <;> (try split) <;> (try split_ifs) <;> simp_all

theorem vusTry_shape (f : Faults) (db : Db) (u : UserId) :
    validateUserSessionMapTry f db u = (true, []) ∨
    validateUserSessionMapTry f db u = (true, [.commitTransaction]) ∨
    validateUserSessionMapTry f db u = (false, [.commitTransaction]) ∨
    validateUserSessionMapTry f db u = (false, [.abortTransaction]) := by
  unfold validateUserSessionMapTry
  by_cases h1 : f .vusFindUser = true
  · simp [h1]
  simp only [h1, Bool.false_eq_true, if_false]
  rcases findUserById db.users u with _ | user
  · simp only
    split_ifs <;> simp
  · simp only
    split_ifs <;> simp

/-- The first document matching `p` splits the list; `updateOneSession` rewrites that
document in place. -/
theorem updateOne_split (p : SessionRecord → Bool) (g : SessionRecord → SessionRecord)
    (ss : List SessionRecord) (s : SessionRecord) (h : ss.find? p = some s) :
    ∃ front back, ss = front ++ s :: back ∧ (∀ r ∈ front, p r = false) ∧
      updateOneSession p g ss = front ++ g s :: back := by
  induction ss with
  | nil => simp at h
  | cons a t ih =>
    by_cases hp : p a = true
    · rw [List.find?_cons_of_pos _ hp] at h
      cases h
      exact ⟨[], t, rfl, by simp, by simp [updateOneSession, hp]⟩
    · rw [List.find?_cons_of_neg _ hp] at h
      obtain ⟨front, back, h1, h2, h3⟩ := ih h
      refine ⟨a :: front, back, by rw [h1]; rfl, ?_, ?_⟩
      · intro r hr
        rcases List.mem_cons.1 hr with hr | hr
        · rw [hr]; simpa using hp
        · exact h2 r hr
      · simp [updateOneSession, hp, h3]

/-- Under the unique index on `(user, device)`, the record of `(o, d)` is the one
`findOne({ user, device })` returns. -/
theorem find_isDeviceOf_of_mem (ss : List SessionRecord) (o : UserId) (d : DeviceID)
    (s : SessionRecord) (hn : (ss.map (fun s => (s.user, s.device))).Nodup)
    (hs : s ∈ ss) (hu : s.user = o) (hd : s.device = d) :
    ss.find? (isDeviceOf o d) = some s := by
  induction ss with
  | nil => simp at hs
  | cons a t ih =>
    rw [List.map_cons, List.nodup_cons] at hn
    rcases List.mem_cons.1 hs with hs | hs
    · subst hs
      rw [List.find?_cons_of_pos]
      simp [isDeviceOf, hu, hd]
    · have hne : isDeviceOf o d a = false := by
        by_contra hc
        simp only [Bool.not_eq_false, isDeviceOf, Bool.and_eq_true, beq_iff_eq] at hc
        apply hn.1
        rw [List.mem_map]
        exact ⟨s, hs, by rw [hu, hd, hc.1, hc.2]⟩
      rw [List.find?_cons_of_neg _ (by simp [hne])]
      exact ih hn.2 hs

/-- With non-null, pairwise distinct `loginAt`, the oldest session older than the
cut-off, when there is one, is the oldest session of the user. -/
theorem oldestFirst_filter_eq (ss : List SessionRecord) (o : UserId) (cut : Timestamp)
    (e e1 : SessionRecord)
    (hnn : ∀ s ∈ ss, s.user = o → s.loginAt ≠ none)
    (hdist : ∀ s ∈ ss, ∀ t ∈ ss, s.user = o → t.user = o → s.loginAt = t.loginAt → s = t)
    (he : oldestFirst (ss.filter (fun s => s.user == o)) = some e)
    (he1 : oldestFirst (ss.filter (olderThan o cut)) = some e1) : e1 = e := by
  have hem := oldestFirst_mem _ _ he
  have he1m := oldestFirst_mem _ _ he1
  rw [List.mem_filter] at hem he1m
  have heu : e.user = o := by simpa using hem.2
  obtain ⟨he1u, t1, ht1, hlt1⟩ := (olderThan_iff o cut e1).1 he1m.2
  have hmin := oldestFirst_min _ _ he e1 (by rw [List.mem_filter]; exact ⟨he1m.1, by simp [he1u]⟩)
  obtain ⟨te, hte⟩ := Option.ne_none_iff_exists'.1 (hnn e hem.1 heu)
  rw [ht1, hte] at hmin
  have hle : te ≤ t1 := by
    simp only [loginAtLt, decide_eq_false_iff_not, not_lt] at hmin
    exact hmin
  have hein : e ∈ ss.filter (olderThan o cut) := by
    rw [List.mem_filter, olderThan_iff]
    exact ⟨hem.1, heu, te, hte, lt_of_le_of_lt hle hlt1⟩
  have hmin1 := oldestFirst_min _ _ he1 e hein
  rw [ht1, hte] at hmin1
  have hge : t1 ≤ te := by
    simp only [loginAtLt, decide_eq_false_iff_not, not_lt] at hmin1
    exact hmin1
  apply hdist e1 he1m.1 e hem.1 he1u heu
  rw [ht1, hte, le_antisymm hge hle]

theorem toInt32_of_small (n : Nat) (hn : n < 2147483648) : toInt32 (n : Int) = (n : Int) := by
  unfold toInt32
  omega

theorem getD_randomFillSync (rand : RandomBytes) (k len j : Nat) (hj : j < len) :
    (randomFillSync rand k len).getD j 0 = rand k j % 256 := by
  unfold randomFillSync
  rw [List.getD_eq_getElem?_getD, List.getElem?_map, List.getElem?_range hj]
  rfl


theorem refillPool_initial (rand : RandomBytes) (n : Nat) :
    refillPool rand PoolState.initial (n : Int) =
      some { pool := some (randomFillSync rand 0 (n * 128)), poolIndex := (n : Int),
             fills := 1 } := by
  have h0 : ¬ ((n : Int) * 128 < 0) := by omega
  have h1 : ((n : Int) * 128).toNat = n * 128 := by omega
  unfold refillPool
  simp only [PoolState.initial, RANDOM_POOL_EXPANSION_FACTOR, h0, h1, if_false, zero_add,
    Nat.zero_add]


/-- From the initial module state, `generateUniqueCode(n)` maps the first `n` bytes of
the first fill through the alphabet and skips those that `& 63` sends to `62` or
`63`. -/
theorem generateUniqueCode_initial (rand : RandomBytes) (n : Nat) (hn : n < 2147483648) :
    generateUniqueCode rand PoolState.initial (n : Int) =
      some (String.mk ((List.range n).filterMap
              (fun k => alphabetAt ((rand 0 k % 256) &&& 63))),
            { pool := some (randomFillSync rand 0 (n * 128)), poolIndex := (n : Int),
              fills := 1 }) := by
  rw [generateUniqueCode, toInt32_of_small n hn, refillPool_initial]
  simp only [Option.getD_some, Int.toNat_ofNat, Option.some.injEq, Prod.mk.injEq, and_true]
  congr 1
  apply List.filterMap_congr
  intro k hk
  rw [List.mem_range] at hk
  unfold poolIndex63
  have h2 : (n : Int) - n + k = (k : Int) := by omega
  rw [h2, if_pos (Int.ofNat_nonneg k), Int.toNat_ofNat, getD_randomFillSync rand 0 _ k (by omega)]

/-- Every character of a generated code is in the alphabet and the code has at most
`size | 0` characters. -/
theorem generateUniqueCode_bounds (rand : RandomBytes) (st st1 : PoolState) (size : Int)
    (id : String) (h : generateUniqueCode rand st size = some (id, st1)) :
    id.length ≤ (toInt32 size).toNat ∧ ∀ c ∈ id.data, c ∈ RANDOM_POOL_ALPHABET.data := by
  rw [generateUniqueCode] at h
  generalize toInt32 size = sz at h ⊢
  cases hr : refillPool rand st sz with
  | none => rw [hr] at h; simp at h
  | some s1 =>
    rw [hr] at h
    simp only [Option.some.injEq, Prod.mk.injEq] at h
    obtain ⟨h1, _⟩ := h
    subst h1
    constructor
    · show (List.filterMap _ _).length ≤ _
      exact le_trans (List.length_filterMap_le _ _) (by simp)
    · intro c hc
      simp only [List.mem_filterMap] at hc
      obtain ⟨k, _, hk⟩ := hc
      unfold alphabetAt at hk
      exact List.get?_mem hk

/-- `refillPool` returns for a size that is not negative. -/
theorem refillPool_isSome (rand : RandomBytes) (st : PoolState) (size : Int) (h : 0 ≤ size) :
    ∃ st1, refillPool rand st size = some st1 := by
  have h0 : ¬ (size * RANDOM_POOL_EXPANSION_FACTOR < 0) := by
    unfold RANDOM_POOL_EXPANSION_FACTOR; omega
  unfold refillPool
  simp only [h0, if_false]
  split
  · exact ⟨_, rfl⟩
  · split_ifs <;> exact ⟨_, rfl⟩

/-- `generateUniqueCode(21)` returns in every module state. -/
theorem generateUniqueCode_21 (rand : RandomBytes) (st : PoolState) :
    ∃ id st1, generateUniqueCode rand st 21 = some (id, st1) := by
  have h21 : toInt32 21 = 21 := toInt32_of_small 21 (by norm_num)
  rw [generateUniqueCode, h21]
  obtain ⟨st1, h1⟩ := refillPool_isSome rand st 21 (by norm_num)
  rw [h1]
  exact ⟨_, _, rfl⟩

/-- The run of `generateAuthTokens`: the constructor draws a code that is not used,
`signAccessToken` reads the clock again and draws the code both tokens carry. -/
theorem generateAuthTokensRun_eq (cfg : JwtConfig) (sign : SignCall → String)
    (rand : RandomBytes) (clock : Nat → Int) (st : ProcState) (identity : UserId)
    (platform : String) (forSystem : Bool) (device : DeviceID)
    (c0 c1 : String) (p1 p2 : PoolState)
    (h0 : generateUniqueCode rand st.codegen 21 = some (c0, p1))
    (h1 : generateUniqueCode rand p1 21 = some (c1, p2)) :
    generateAuthTokensRun cfg sign rand clock st identity platform forSystem device =
      some ({ identity := identity, platform := platform,
              accessToken := sign
                { payload := { identity := identity, platform := platform,
                               forSystem := forSystem, device := device,
                               iat := clock (st.clockReads + 1), jti := c1,
                               noTimestamp := none },
                  secret := cfg.ACCESS_SECRET,
                  options := { algorithm := "HS256", issuer := cfg.PLATFORM_NAME,
                               expiresIn := cfg.ACCESS_EXP, noTimestamp := some false } },
              refreshToken := sign
                { payload := { identity := identity, platform := platform,
                               forSystem := forSystem, device := device,
                               iat := clock (st.clockReads + 1), jti := c1,
                               noTimestamp := some false },
                  secret := cfg.REFRESH_SECRET,
                  options := { algorithm := "HS256", issuer := cfg.PLATFORM_NAME,
                               expiresIn := cfg.REFRESH_EXP, noTimestamp := none } },
              device := device },
            { codegen := p2, clockReads := st.clockReads + 2 }) := by
  simp only [generateAuthTokensRun, JwtService.construct, JwtService.signAccessToken,
    JwtService.signRefreshToken, getEpocTime, h0, h1]

theorem length_randomFillSync (rand : RandomBytes) (k len : Nat) :
    (randomFillSync rand k len).length = len := by
  simp [randomFillSync]

/-- Reading inside a pool that holds the bytes of fill `k`. -/
theorem poolIndex63_fill (rand : RandomBytes) (k len j : Nat) (hj : j < len) :
    poolIndex63 (randomFillSync rand k len) (j : Int) = (rand k j % 256) &&& 63 := by
  unfold poolIndex63
  rw [if_pos (Int.ofNat_nonneg j), Int.toNat_ofNat, getD_randomFillSync rand k len j hj]

theorem PoolWF_initial (rand : RandomBytes) : PoolWF rand PoolState.initial := by
  simp [PoolWF, PoolState.initial]

/-- The identifier built by the loop of `generateUniqueCode`, when the window read lies
inside a pool that holds the bytes of fill `k`. -/
theorem code_of_window (rand : RandomBytes) (k len p n : Nat) (h : p + n ≤ len) :
    String.mk ((List.range n).filterMap (fun (i : Nat) =>
      alphabetAt (poolIndex63 (randomFillSync rand k len) (((p + n : Nat) : Int) - (n : Int) + (i : Int))))) =
    codeOfBytes rand k p n := by
  unfold codeOfBytes
  congr 1
  apply List.filterMap_congr
  intro i hi
  rw [List.mem_range] at hi
  have h2 : ((p + n : Nat) : Int) - (n : Int) + (i : Int) = ((p + i : Nat) : Int) := by omega
  rw [h2, poolIndex63_fill rand k len (p + i) (by omega)]

/-- Under the invariant, `refillPool` either starts a new fill, whose first `n` bytes
the caller reads, or advances `poolIndex` inside the current fill. -/
theorem refillPool_cases (rand : RandomBytes) (st : PoolState) (n : Nat)
    (hwf : PoolWF rand st) :
    (∃ len, n ≤ len ∧
      refillPool rand st (n : Int) =
        some { pool := some (randomFillSync rand st.fills len), poolIndex := (n : Int),
               fills := st.fills + 1 }) ∨
    (∃ (len p : Nat), st.pool = some (randomFillSync rand (st.fills - 1) len) ∧ 0 < st.fills ∧
      st.poolIndex = (p : Int) ∧ p + n ≤ len ∧
      refillPool rand st (n : Int) = some { st with poolIndex := ((p + n : Nat) : Int) }) := by
  have h0 : ¬ ((n : Int) * RANDOM_POOL_EXPANSION_FACTOR < 0) := by
    unfold RANDOM_POOL_EXPANSION_FACTOR; omega
  have h1 : ((n : Int) * RANDOM_POOL_EXPANSION_FACTOR).toNat = n * 128 := by
    unfold RANDOM_POOL_EXPANSION_FACTOR; omega
  unfold PoolWF at hwf
  unfold refillPool
  cases hp : st.pool with
  | none =>
    left
    refine ⟨n * 128, by omega, ?_⟩
    simp only [h0, h1, if_false, zero_add]
  | some pool =>
    rw [hp] at hwf
    obtain ⟨hf, hpool, hlo, hhi⟩ := hwf
    simp only [h0, h1, if_false, zero_add]
    by_cases hsmall : (pool.length : Int) < (n : Int)
    · left
      refine ⟨n * 128, by omega, ?_⟩
      simp only [hsmall, if_true]
    · simp only [hsmall, if_false]
      by_cases hover : st.poolIndex + (n : Int) > (pool.length : Int)
      · left
        refine ⟨pool.length, by omega, ?_⟩
        simp only [hover, if_true]
      · right
        refine ⟨pool.length, st.poolIndex.toNat, ?_, hf, by omega, by omega, ?_⟩
        · rw [← hpool]
        · simp only [hover, if_false]
          have : ((st.poolIndex.toNat + n : Nat) : Int) = st.poolIndex + (n : Int) := by omega
          rw [this]

/-- One call of `generateUniqueCode(n)` under the invariant: the code is spelt by the
`n` bytes of a window `(k, p)` of the random stream that no earlier call has read
(none of them is consumed before the call), all of which are consumed afterwards;
what was consumed stays consumed and the invariant is kept. -/
theorem generateUniqueCode_window (rand : RandomBytes) (st : PoolState) (n : Nat)
    (hn : n < 2147483648) (hwf : PoolWF rand st) :
    ∃ k p st1, generateUniqueCode rand st (n : Int) = some (codeOfBytes rand k p n, st1) ∧
      PoolWF rand st1 ∧
      (∀ i, i < n → ¬ Consumed st k (p + i)) ∧
      (∀ i, i < n → Consumed st1 k (p + i)) ∧
      (∀ k' j, Consumed st k' j → Consumed st1 k' j) := by
  rw [generateUniqueCode, toInt32_of_small n hn]
  rcases refillPool_cases rand st n hwf with ⟨len, hlen, hre⟩ | ⟨len, p, hpool, hf, hpi, hle, hre⟩
  · rw [hre]
    refine ⟨st.fills, 0,
      { pool := some (randomFillSync rand st.fills len), poolIndex := (n : Int),
        fills := st.fills + 1 }, ?_, ?_, ?_, ?_, ?_⟩
    · simp only [Option.getD_some, Int.toNat_ofNat, Option.some.injEq, Prod.mk.injEq, and_true]
      have := code_of_window rand st.fills len 0 n (by omega)
      simpa using this
    · simp only [PoolWF, length_randomFillSync, Nat.add_sub_cancel]
      exact ⟨by omega, trivial, by omega, by omega⟩
    · intro i _ hc
      unfold Consumed at hc
      omega
    · intro i hi
      unfold Consumed
      dsimp only
      omega
    · intro k' j hc
      unfold Consumed at hc ⊢
      dsimp only at hc ⊢
      omega
  · rw [hre]
    refine ⟨st.fills - 1, p, { st with poolIndex := ((p + n : Nat) : Int) }, ?_, ?_, ?_, ?_, ?_⟩
    · simp only [hpool, Option.getD_some, Int.toNat_ofNat, Option.some.injEq, Prod.mk.injEq,
        and_true]
      exact code_of_window rand (st.fills - 1) len p n hle
    · simp only [PoolWF, hpool, length_randomFillSync]
      exact ⟨hf, trivial, by omega, by omega⟩
    · intro i _ hc
      unfold Consumed at hc
      omega
    · intro i hi
      unfold Consumed
      dsimp only
      omega
    · intro k' j hc
      unfold Consumed at hc ⊢
      dsimp only at hc ⊢
      omega

/-- A call of `generateUniqueCode(n)` that finds `n` unread bytes in the pool reads them
and advances `poolIndex`. -/
theorem generateUniqueCode_advance (rand : RandomBytes) (st : PoolState) (k len p n : Nat)
    (hn : n < 2147483648) (hpool : st.pool = some (randomFillSync rand k len))
    (hp : st.poolIndex = (p : Int)) (hle : p + n ≤ len) :
    generateUniqueCode rand st (n : Int) =
      some (codeOfBytes rand k p n, { st with poolIndex := ((p + n : Nat) : Int) }) := by
  have hre : refillPool rand st (n : Int) =
      some { st with poolIndex := ((p + n : Nat) : Int) } := by
    unfold refillPool
    rw [hpool]
    have h1 : ¬ (((randomFillSync rand k len).length : Int) < (n : Int)) := by
      rw [length_randomFillSync]; omega
    have h2 : ¬ ((p : Int) + (n : Int) > ((randomFillSync rand k len).length : Int)) := by
      rw [length_randomFillSync]; omega
    have h3 : ((p + n : Nat) : Int) = (p : Int) + (n : Int) := by omega
    simp only [hp, h1, h2, h3, if_false]
  rw [generateUniqueCode, toInt32_of_small n hn, hre]
  simp only [hpool, Option.getD_some, Int.toNat_ofNat, Option.some.injEq, Prod.mk.injEq,
    and_true]
  exact code_of_window rand k len p n hle

/-- The first call of `generateUniqueCode(n)` after load reads the first `n` bytes of
the first fill. -/
theorem generateUniqueCode_first (rand : RandomBytes) (n : Nat) (hn : n < 2147483648) :
    generateUniqueCode rand PoolState.initial (n : Int) =
      some (codeOfBytes rand 0 0 n,
            { pool := some (randomFillSync rand 0 (n * 128)), poolIndex := (n : Int),
              fills := 1 }) := by
  rw [generateUniqueCode_initial rand n hn]
  simp [codeOfBytes]

/-! ## Properties of the specification -/

/-- C1. Mirror invariant I2 is kept by every engine operation, whether it succeeds or
fails: if the index keys of user `U` and the devices with a session record of `U`
are the same set before, they are the same set after `manageProfileAccount`,
`revokeAuthDevice`, `terminateSession`, `terminateDeviceSession`,
`terminateUserSessions`, `validateUserSessionMap` and `provideRenewAuthSession`,
for every argument and every pattern of rejected store calls. -/
theorem mirror_invariant_preserved (db : Db) (U : UserId) (hwf : WF db) (hI : I2 db U) :
    (∀ f jwt now pd, I2 (manageProfileAccount f jwt now db pd).2 U) ∧
    (∀ f o d, I2 (revokeAuthDevice f db o d).2 U) ∧
    (∀ f sid, I2 (terminateSession f db sid).2 U) ∧
    (∀ f o d, I2 (terminateDeviceSession f db o d).2 U) ∧
    (∀ f o, I2 (terminateUserSessions f db o).2 U) ∧
    (∀ f o, I2 (validateUserSessionMap f db o).2 U) ∧
    (∀ f jwt auth, I2 (provideRenewAuthSession f jwt db auth).2 U) :=
  ⟨fun f jwt now pd => mpa_I2 f jwt now db pd U hwf hI,
   fun f o d => rad_I2 f db o U d hwf hI,
   fun f sid => ts_I2 f db U sid hwf hI,
   fun f o d => tds_I2 f db o U d hwf hI,
   fun f o => tus_I2 f db o U hI,
   fun f o => vus_I2 f db o U hI,
   fun f jwt auth => ras_I2 f jwt db auth U hI⟩

/-- Witness of C1 at the five-session state of user `1`. -/
theorem mirror_invariant_preserved_witness :
    WF exDb5 ∧ I2 exDb5 1 ∧
    ((∀ f jwt now pd, I2 (manageProfileAccount f jwt now exDb5 pd).2 1) ∧
     (∀ f o d, I2 (revokeAuthDevice f exDb5 o d).2 1) ∧
     (∀ f sid, I2 (terminateSession f exDb5 sid).2 1) ∧
     (∀ f o d, I2 (terminateDeviceSession f exDb5 o d).2 1) ∧
     (∀ f o, I2 (terminateUserSessions f exDb5 o).2 1) ∧
     (∀ f o, I2 (validateUserSessionMap f exDb5 o).2 1) ∧
     (∀ f jwt auth, I2 (provideRenewAuthSession f jwt exDb5 auth).2 1)) :=
  ⟨by decide, by decide, mirror_invariant_preserved exDb5 1 (by decide) (by decide)⟩

/-- C2. Device-limit invariant I3: for a user whose state satisfies the mirror
invariant I2 and who has at most `SessionModel.limit` (5) session records, the number
of session records is still at most 5 after any `manageProfileAccount` call completes
(new or existing device, with or without `revokeDeviceSession`, success or failure). -/
theorem device_limit_preserved (f : Faults) (jwt : JwtEnv) (now : Timestamp) (db : Db)
    (pd : ProfileData) (U : UserId) (hwf : WF db) (hI2 : I2 db U) (hI3 : I3 db U) :
    I3 (manageProfileAccount f jwt now db pd).2 U :=
  mpa_I3 f jwt now db pd U hwf hI2 hI3

/-- Witness of C2: a sixth device logs in at the limit. -/
theorem device_limit_preserved_witness :
    WF exDb5 ∧ I2 exDb5 1 ∧ I3 exDb5 1 ∧
    I3 (manageProfileAccount noFaults exJwt exNow exDb5 (exLogin "d6")).2 1 :=
  ⟨by decide, by decide, by decide,
   device_limit_preserved noFaults exJwt exNow exDb5 (exLogin "d6") 1
     (by decide) (by decide) (by decide)⟩

/-- C3 (all-or-nothing login), evaluated where the code departs from it: user `1`
holds five sessions and logs in from a sixth device.  When the update of the user
document rejects, and likewise when `SessionModel.create` rejects the new record
(a platform outside the enum), the call fails but the session evicted to make room
(`d2`, logged in 30h ago) and its index entry stay removed. -/
theorem login_failure_keeps_eviction :
    (manageProfileAccount exFaultUserUpdate exJwt exNow exDb5 (exLogin "d6")).1 =
      .error (.store .mpaUserUpdate) ∧
    (manageProfileAccount exFaultUserUpdate exJwt exNow exDb5 (exLogin "d6")).2 =
      removeDevice exDb5 1 "d2" ∧
    (manageProfileAccount noFaults exJwt exNow exDb5
      { exLogin "d6" with platform := "desktop" }).1 = .error .validation ∧
    (manageProfileAccount noFaults exJwt exNow exDb5
      { exLogin "d6" with platform := "desktop" }).2 = removeDevice exDb5 1 "d2" ∧
    removeDevice exDb5 1 "d2" ≠ exDb5 ∧
    sessionDevices (removeDevice exDb5 1 "d2") 1 = ["d1", "d3", "d4", "d5"] ∧
    indexKeys (removeDevice exDb5 1 "d2") 1 = ["d1", "d3", "d4", "d5"] := by
  decide

/-- C4. Atomicity of the dual write: when the device-index update
(`UserModel.findByIdAndUpdate`) of a login rejects, the call fails and the write to
the requesting device's session record does not survive: the database is the one
from before the call, up to one evicted device, every session record present
afterwards is a record from before the call, and the mirror invariant of every user
is kept (no session record for a device the index does not list). -/
theorem index_update_failure_rolls_back (f : Faults) (jwt : JwtEnv) (now : Timestamp)
    (db : Db) (pd : ProfileData) (hwf : WF db)
    (hfail : (manageProfileAccount f jwt now db pd).1 = .error (.store .mpaUserUpdate)) :
    ((manageProfileAccount f jwt now db pd).2 = db ∨
      ∃ s ∈ db.sessions,
        (manageProfileAccount f jwt now db pd).2 = removeDevice db s.user s.device) ∧
    (∀ s ∈ (manageProfileAccount f jwt now db pd).2.sessions, s ∈ db.sessions) ∧
    (∀ U, I2 db U → I2 (manageProfileAccount f jwt now db pd).2 U) := by
  have h := mpa_error_db f jwt now db pd _ hwf hfail
  refine ⟨h, ?_, fun U hI => mpa_I2 f jwt now db pd U hwf hI⟩
  intro s hs
  rcases h with h | ⟨t, _, h⟩
  · rw [h] at hs; exact hs
  · rw [h] at hs
    exact (List.mem_filter.1 hs).1

/-- Witness of C4: a second device logs in, the index update rejects, and the database
is exactly the one from before the call. -/
theorem index_update_failure_rolls_back_witness :
    WF exDb1 ∧
    (manageProfileAccount exFaultUserUpdate exJwt exNow exDb1 (exLogin "d2")).1 =
      .error (.store .mpaUserUpdate) ∧
    (manageProfileAccount exFaultUserUpdate exJwt exNow exDb1 (exLogin "d2")).2 = exDb1 ∧
    (((manageProfileAccount exFaultUserUpdate exJwt exNow exDb1 (exLogin "d2")).2 = exDb1 ∨
      ∃ s ∈ exDb1.sessions,
        (manageProfileAccount exFaultUserUpdate exJwt exNow exDb1 (exLogin "d2")).2 =
          removeDevice exDb1 s.user s.device) ∧
    (∀ s ∈ (manageProfileAccount exFaultUserUpdate exJwt exNow exDb1 (exLogin "d2")).2.sessions,
      s ∈ exDb1.sessions) ∧
    (∀ U, I2 exDb1 U →
      I2 (manageProfileAccount exFaultUserUpdate exJwt exNow exDb1 (exLogin "d2")).2 U)) :=
  ⟨by decide, by decide, by decide,
   index_update_failure_rolls_back exFaultUserUpdate exJwt exNow exDb1 (exLogin "d2")
     (by decide) (by decide)⟩

/-- C5. Eviction policy P1: in a login without `revokeDeviceSession` whose
prospective count exceeds the limit, when some session of the user has `loginAt`
more than 24 hours before the current time (and the account lookup and the store
calls of the eviction go through), the session evicted is one with the smallest
`loginAt` among the user's sessions older than 24 hours; of the records that
existed, exactly that one is missing afterwards, and its device has neither a
session record nor an index entry, whatever the rest of the login does. -/
theorem eviction_policy_P1 (f : Faults) (jwt : JwtEnv) (now : Timestamp) (db : Db)
    (pd : ProfileData) (acct : UserDoc) (hwf : WF db)
    (hacct : mpaAccount db pd = .ok acct)
    (hrev : truthyStr pd.revokeDeviceSession = false)
    (hcount : prospectiveCount acct.sessions false (!mapHas acct.sessions pd.device) >
      (SessionModel.limit : Int))
    (hold : ∃ s ∈ db.sessions, s.user = acct.id ∧ ∃ t, s.loginAt = some t ∧ t < now - dayMs)
    (hf : f .mpaFindAccount = false ∧ f .mpaFindDevice = false ∧ f .lidFind = false ∧
      f .lidDelete = false ∧ f .lidFindUser = false ∧ f .lidSave = false ∧
      f .lidCommit = false) :
    ∃ e ∈ db.sessions, e.user = acct.id ∧
      (∃ te, e.loginAt = some te ∧ te < now - dayMs ∧
        ∀ s ∈ db.sessions, s.user = acct.id →
          ∀ ts, s.loginAt = some ts → ts < now - dayMs → te ≤ ts) ∧
      (∀ s ∈ db.sessions,
        (∃ t ∈ (manageProfileAccount f jwt now db pd).2.sessions, t.id = s.id) ↔ s.id ≠ e.id) ∧
      e.device ∉ indexKeys (manageProfileAccount f jwt now db pd).2 acct.id ∧
      (∀ s ∈ (manageProfileAccount f jwt now db pd).2.sessions,
        ¬ (s.user = acct.id ∧ s.device = e.device)) := by
  obtain ⟨hfa, hfd, hlid⟩ := hf
  obtain ⟨s0, hs0, hs0u, t0, hs0t, ht0⟩ := hold
  have hs0f : s0 ∈ db.sessions.filter (olderThan acct.id (oneDayAgo now)) := by
    rw [List.mem_filter, olderThan_iff]
    exact ⟨hs0, hs0u, t0, hs0t, ht0⟩
  obtain ⟨e, he⟩ := oldestFirst_isSome _ s0 hs0f
  have hef := List.mem_filter.1 (oldestFirst_mem _ _ he)
  obtain ⟨heu, te, hte, htelt⟩ := (olderThan_iff _ _ _).1 hef.2
  have hmin := oldestFirst_min _ _ he
  have hfind := mpaAccount_find db pd acct hwf hacct
  have hev := mpaEvict_eq_P1 f now db acct.id e acct hwf hlid he hfind
  have heq := mpa_eq_evicted f jwt now db pd acct e hfa hacct hfd hrev hcount hev
  refine ⟨e, hef.1, heu, ⟨te, hte, htelt, ?_⟩, ?_⟩
  · intro s hs hsu ts hts htslt
    have hsf : s ∈ db.sessions.filter (olderThan acct.id (oneDayAgo now)) := by
      rw [List.mem_filter, olderThan_iff]
      exact ⟨hs, hsu, ts, hts, htslt⟩
    have := hmin s hsf
    rw [hts, hte] at this
    simpa [loginAtLt] using this
  · exact after_eviction f jwt db pd acct e _ hwf hacct hef.1 heu hrev heq

/-- Witness of C5: sessions logged in 20h, 30h, 10h, 5h and 1h ago, and a sixth
device logs in; the 30h-old session `d2` is the one evicted. -/
theorem eviction_policy_P1_witness :
    (∃ e ∈ exDb5.sessions, e.user = exAccount5.id ∧
      (∃ te, e.loginAt = some te ∧ te < exNow - dayMs ∧
        ∀ s ∈ exDb5.sessions, s.user = exAccount5.id →
          ∀ ts, s.loginAt = some ts → ts < exNow - dayMs → te ≤ ts) ∧
      (∀ s ∈ exDb5.sessions,
        (∃ t ∈ (manageProfileAccount noFaults exJwt exNow exDb5 (exLogin "d6")).2.sessions,
          t.id = s.id) ↔ s.id ≠ e.id) ∧
      e.device ∉ indexKeys (manageProfileAccount noFaults exJwt exNow exDb5 (exLogin "d6")).2
        exAccount5.id ∧
      (∀ s ∈ (manageProfileAccount noFaults exJwt exNow exDb5 (exLogin "d6")).2.sessions,
        ¬ (s.user = exAccount5.id ∧ s.device = e.device))) ∧
    sessionDevices (manageProfileAccount noFaults exJwt exNow exDb5 (exLogin "d6")).2 1 =
      ["d1", "d3", "d4", "d5", "d6"] ∧
    indexKeys (manageProfileAccount noFaults exJwt exNow exDb5 (exLogin "d6")).2 1 =
      ["d1", "d3", "d4", "d5", "d6"] :=
  ⟨eviction_policy_P1 noFaults exJwt exNow exDb5 (exLogin "d6")
      exAccount5 (by decide) (by decide) (by decide) (by decide)
      ⟨exSession 2 "d2" (exNow - 30 * exHour), by decide, by decide,
        exNow - 30 * exHour, rfl, by decide⟩
      (by decide),
   by decide, by decide⟩

/-- C6. Eviction fallback P2: in a login without `revokeDeviceSession` whose
prospective count exceeds the limit, when none of the user's sessions has `loginAt`
older than 24 hours (the user has at least one session record, and the account
lookup and the store calls of the eviction go through), the session evicted is one
with the smallest `loginAt`, in the order of `sort({ loginAt: 1 })`, among all of the
user's sessions; of the records that existed, exactly that one is missing afterwards,
and its device has neither a session record nor an index entry, whatever the rest of
the login does. -/
theorem eviction_fallback_P2 (f : Faults) (jwt : JwtEnv) (now : Timestamp) (db : Db)
    (pd : ProfileData) (acct : UserDoc) (hwf : WF db)
    (hacct : mpaAccount db pd = .ok acct)
    (hrev : truthyStr pd.revokeDeviceSession = false)
    (hcount : prospectiveCount acct.sessions false (!mapHas acct.sessions pd.device) >
      (SessionModel.limit : Int))
    (hnone : ∀ s ∈ db.sessions, s.user = acct.id →
      ∀ t, s.loginAt = some t → ¬ t < now - dayMs)
    (hsome : ∃ s ∈ db.sessions, s.user = acct.id)
    (hf : f .mpaFindAccount = false ∧ f .mpaFindDevice = false ∧
      (f .lidFind = false ∧ f .lidCommit = false) ∧
      (f .oisFind = false ∧ f .oisDelete = false ∧ f .oisFindUser = false ∧
        f .oisSave = false ∧ f .oisCommit = false)) :
    ∃ e ∈ db.sessions, e.user = acct.id ∧
      (∀ s ∈ db.sessions, s.user = acct.id → loginAtLt s.loginAt e.loginAt = false) ∧
      (∀ s ∈ db.sessions,
        (∃ t ∈ (manageProfileAccount f jwt now db pd).2.sessions, t.id = s.id) ↔ s.id ≠ e.id) ∧
      e.device ∉ indexKeys (manageProfileAccount f jwt now db pd).2 acct.id ∧
      (∀ s ∈ (manageProfileAccount f jwt now db pd).2.sessions,
        ¬ (s.user = acct.id ∧ s.device = e.device)) := by
  obtain ⟨hfa, hfd, hlid, hois⟩ := hf
  obtain ⟨s0, hs0, hs0u⟩ := hsome
  have hP1 : oldestFirst (db.sessions.filter (olderThan acct.id (oneDayAgo now))) = none := by
    cases h : oldestFirst (db.sessions.filter (olderThan acct.id (oneDayAgo now))) with
    | none => rfl
    | some x =>
      exfalso
      have hx := List.mem_filter.1 (oldestFirst_mem _ _ h)
      obtain ⟨hxu, t, hxt, hlt⟩ := (olderThan_iff _ _ _).1 hx.2
      exact hnone x hx.1 hxu t hxt hlt
  have hs0f : s0 ∈ db.sessions.filter (fun s => s.user == acct.id) := by
    rw [List.mem_filter]
    exact ⟨hs0, by simpa using hs0u⟩
  obtain ⟨e, he⟩ := oldestFirst_isSome _ s0 hs0f
  have hef := List.mem_filter.1 (oldestFirst_mem _ _ he)
  have heu : e.user = acct.id := by simpa using hef.2
  have hmin := oldestFirst_min _ _ he
  have hfind := mpaAccount_find db pd acct hwf hacct
  have hev := mpaEvict_eq_P2 f now db acct.id e acct hwf hlid hois hP1 he hfind
  have heq := mpa_eq_evicted f jwt now db pd acct e hfa hacct hfd hrev hcount hev
  refine ⟨e, hef.1, heu, ?_, ?_⟩
  · intro s hs hsu
    apply hmin s
    rw [List.mem_filter]
    exact ⟨hs, by simpa using hsu⟩
  · exact after_eviction f jwt db pd acct e _ hwf hacct hef.1 heu hrev heq

/-- Witness of C6: five sessions logged in within the last two hours and a sixth
device logs in; the oldest session `d3` is the one evicted. -/
theorem eviction_fallback_P2_witness :
    (∃ e ∈ exDbRecent.sessions, e.user = exAccount5.id ∧
      (∀ s ∈ exDbRecent.sessions, s.user = exAccount5.id →
        loginAtLt s.loginAt e.loginAt = false) ∧
      (∀ s ∈ exDbRecent.sessions,
        (∃ t ∈ (manageProfileAccount noFaults exJwt exNow exDbRecent (exLogin "d6")).2.sessions,
          t.id = s.id) ↔ s.id ≠ e.id) ∧
      e.device ∉
        indexKeys (manageProfileAccount noFaults exJwt exNow exDbRecent (exLogin "d6")).2
          exAccount5.id ∧
      (∀ s ∈ (manageProfileAccount noFaults exJwt exNow exDbRecent (exLogin "d6")).2.sessions,
        ¬ (s.user = exAccount5.id ∧ s.device = e.device))) ∧
    sessionDevices (manageProfileAccount noFaults exJwt exNow exDbRecent (exLogin "d6")).2 1 =
      ["d1", "d2", "d4", "d5", "d6"] ∧
    indexKeys (manageProfileAccount noFaults exJwt exNow exDbRecent (exLogin "d6")).2 1 =
      ["d1", "d2", "d4", "d5", "d6"] :=
  ⟨eviction_fallback_P2 noFaults exJwt exNow exDbRecent (exLogin "d6") exAccount5
      (by decide) (by decide) (by decide) (by decide)
      (by
        intro s hs _ t ht
        simp only [exDbRecent, List.mem_cons, List.mem_singleton, List.not_mem_nil,
          or_false] at hs
        rcases hs with rfl | rfl | rfl | rfl | rfl <;>
          · simp only [exSession, Option.some.injEq] at ht
            subst ht
            decide)
      ⟨exSession 1 "d1" (exNow - 90 * exMinute), by decide, by decide⟩
      (by decide),
   by decide, by decide⟩

/-- C7. First login from a new device: for an existing user whose state satisfies
I2, with fewer than 5 session records, and a device `d` that is not a key of the
index (no `revokeDeviceSession`), a successful `manageProfileAccount` appends exactly
one session record, for `(user, d)`, and exactly one index entry `d -> deviceAgent`;
every other session record and index entry is unchanged, and the `accessToken` and
`refreshToken` returned are the ones stored in the new record.  Both counts grow by
one, so a user with 0 sessions ends with 1 record and 1 index entry. -/
theorem first_login_new_device (f : Faults) (jwt : JwtEnv) (now : Timestamp) (db : Db)
    (pd : ProfileData) (acct : UserDoc) (p : AuthPayload) (hwf : WF db)
    (hacct : mpaAccount db pd = .ok acct) (hI2 : I2 db acct.id)
    (hlt : (sessionsOf db acct.id).length < SessionModel.limit)
    (hnew : mapHas acct.sessions pd.device = false)
    (hrev : truthyStr pd.revokeDeviceSession = false)
    (hok : (manageProfileAccount f jwt now db pd).1 = .ok p) :
    ∃ r, r = newSessionRecord db.nextId (getSessionData jwt acct.id pd acct.forSystem true) ∧
      r.user = acct.id ∧ r.device = pd.device ∧
      (manageProfileAccount f jwt now db pd).2.sessions = db.sessions ++ [r] ∧
      indexOf (manageProfileAccount f jwt now db pd).2 acct.id =
        indexOf db acct.id ++ [(pd.device, pd.deviceAgent)] ∧
      (∀ U, U ≠ acct.id → indexOf (manageProfileAccount f jwt now db pd).2 U = indexOf db U) ∧
      p.accessToken = r.accessToken ∧ p.refreshToken = r.refreshToken ∧
      (sessionsOf (manageProfileAccount f jwt now db pd).2 acct.id).length =
        (sessionsOf db acct.id).length + 1 ∧
      mapSize (indexOf (manageProfileAccount f jwt now db pd).2 acct.id) =
        mapSize (indexOf db acct.id) + 1 := by
  obtain ⟨hfa, hfd⟩ := mpa_ok_faults f jwt now db pd p hok
  have hidx := mpaAccount_index db pd acct hwf hacct
  have hfind := mpaAccount_find db pd acct hwf hacct
  have hsz := index_size_eq db acct.id hwf hI2
  rw [hidx] at hsz
  have hcount : prospectiveCount acct.sessions (truthyStr pd.revokeDeviceSession)
      (!mapHas acct.sessions pd.device) ≤ (SessionModel.limit : Int) := by
    simp only [prospectiveCount, hrev, hnew, Bool.not_false, Bool.false_eq_true, if_false,
      if_true]
    have : mapSize acct.sessions + 1 ≤ SessionModel.limit := by omega
    have h2 : ((mapSize acct.sessions + 1 : Nat) : Int) ≤ (SessionModel.limit : Int) :=
      Int.ofNat_le.2 this
    simpa using h2
  have heq := mpa_eq_pass f jwt now db pd acct hfa hacct hfd (by simp [hrev]) (Or.inr hcount)
  rw [heq] at hok ⊢
  rcases mpaFinish_cases f db acct pd
      (mpaWrite f db acct.id acct.sessions (!mapHas acct.sessions pd.device)
        (getSessionData jwt acct.id pd acct.forSystem
          (validSessionDevice db acct.id pd.device).isNone) pd) with
    ⟨_, e, he⟩ | ⟨acc, w, hw, _, h⟩
  · rw [he] at hok; simp at hok
  · rw [h] at hok ⊢
    simp only [Except.ok.injEq] at hok
    obtain ⟨ss1, ds1, hrv, husers, _, _, hup⟩ :=
      mpaWrite_shape f jwt db w acct.id _ _ _ _ pd acc hwf hw
    have hss1 : ss1 = db.sessions ∧ ds1 = acct.sessions := by
      rcases hrv with ⟨_, h1, h2⟩ | ⟨r, hr, ht, _, _⟩
      · exact ⟨h1, h2⟩
      · rw [hr] at hrev
        rw [hrev] at ht
        exact absurd ht (by simp)
    obtain ⟨h1, h2⟩ := hss1
    subst h1 h2
    rcases hup with ⟨_, hacc, _, hws, _, _⟩ | ⟨hnd, _⟩
    · have hau : acc.user = acct.id := by rw [hacc]; exact newSessionRecord_user _ _ _ _ _
      have had : acc.device = pd.device := by rw [hacc]; exact newSessionRecord_device _ _ _ _ _
      have hix : indexOf w acct.id = acct.sessions ++ [(pd.device, pd.deviceAgent)] := by
        unfold indexOf
        rw [husers, userIndex_update acct.id acct.id _ (applyAccountMeta_id pd _)]
        simp only [if_true, hfind, applyAccountMeta_sessions]
        exact mapSet_absent _ _ _ hnew
      refine ⟨acc, hacc, hau, had, hws, ?_, ?_, ?_, ?_, ?_, ?_⟩
      · rw [hix, hidx]
      · intro U hU
        unfold indexOf
        rw [husers, userIndex_update acct.id U _ (applyAccountMeta_id pd _)]
        simp only [hU, if_false]
      · rw [← hok]
      · rw [← hok]
      · simp only [sessionsOf_length, hws, List.countP_append]
        simp [List.countP_cons, hau]
      · rw [hix, hidx]
        simp [mapSize]
    · simp [hnew] at hnd

/-- Witness of C7: user `1` without any session logs in from device `d1` and ends with
one session record and one index entry. -/
theorem first_login_new_device_witness :
    WF exDb0 ∧ I2 exDb0 1 ∧
    (manageProfileAccount noFaults exJwt exNow exDb0 (exLogin "d1")).1 = .ok exPayloadD1 ∧
    (∃ r, r = newSessionRecord 1 (getSessionData exJwt 1 (exLogin "d1") false true) ∧
      r.user = 1 ∧ r.device = "d1" ∧
      (manageProfileAccount noFaults exJwt exNow exDb0 (exLogin "d1")).2.sessions =
        exDb0.sessions ++ [r] ∧
      indexOf (manageProfileAccount noFaults exJwt exNow exDb0 (exLogin "d1")).2 1 =
        indexOf exDb0 1 ++ [("d1", "agent2")] ∧
      (∀ U, U ≠ 1 →
        indexOf (manageProfileAccount noFaults exJwt exNow exDb0 (exLogin "d1")).2 U =
          indexOf exDb0 U) ∧
      exPayloadD1.accessToken = r.accessToken ∧ exPayloadD1.refreshToken = r.refreshToken ∧
      (sessionsOf (manageProfileAccount noFaults exJwt exNow exDb0 (exLogin "d1")).2 1).length =
        (sessionsOf exDb0 1).length + 1 ∧
      mapSize (indexOf (manageProfileAccount noFaults exJwt exNow exDb0 (exLogin "d1")).2 1) =
        mapSize (indexOf exDb0 1) + 1) ∧
    (sessionsOf (manageProfileAccount noFaults exJwt exNow exDb0 (exLogin "d1")).2 1).length = 1 ∧
    indexOf (manageProfileAccount noFaults exJwt exNow exDb0 (exLogin "d1")).2 1 =
      [("d1", "agent2")] :=
  ⟨by decide, by decide, by decide,
   first_login_new_device noFaults exJwt exNow exDb0 (exLogin "d1") (exUser []) exPayloadD1
     (by decide) (by decide) (by decide) (by decide) (by decide) (by decide) (by decide),
   by decide, by decide⟩

/-- C8, counterexample: user `1` logged in from `d1` ten hours ago and logs in again
from `d1` (state satisfying I2, no `revokeDeviceSession`).  The call succeeds and
the `loginAt` of the record is no longer the one from before the call: it is the time
of the request.  And in a state satisfying I2 with six session records, the re-login
from `d1` succeeds after an eviction, so the number of session records and of index
keys changes. -/
theorem relogin_changes_loginAt :
    (WF exDb1 ∧ I2 exDb1 1 ∧ (exLogin "d1").revokeDeviceSession = none ∧
      mapHas (indexOf exDb1 1) "d1" = true ∧
      (manageProfileAccount noFaults exJwt exNow exDb1 (exLogin "d1")).1 = .ok exPayloadD1 ∧
      (validSessionDevice exDb1 1 "d1").map (fun s => s.loginAt) =
        some (some (exNow - 10 * exHour)) ∧
      (validSessionDevice (manageProfileAccount noFaults exJwt exNow exDb1 (exLogin "d1")).2
        1 "d1").map (fun s => s.loginAt) = some (some exNow) ∧
      (validSessionDevice (manageProfileAccount noFaults exJwt exNow exDb1 (exLogin "d1")).2
        1 "d1").map (fun s => s.loginAt) ≠
        (validSessionDevice exDb1 1 "d1").map (fun s => s.loginAt)) ∧
    (WF exDb6 ∧ I2 exDb6 1 ∧ mapHas (indexOf exDb6 1) "d1" = true ∧
      (manageProfileAccount noFaults exJwt exNow exDb6 (exLogin "d1")).1 = .ok exPayloadD1 ∧
      (sessionsOf exDb6 1).length = 6 ∧
      (sessionsOf (manageProfileAccount noFaults exJwt exNow exDb6 (exLogin "d1")).2 1).length
        = 5 ∧
      indexKeys (manageProfileAccount noFaults exJwt exNow exDb6 (exLogin "d1")).2 1 =
        ["d1", "d3", "d4", "d5", "d6"]) := by
  decide

/-- C8, amended. Re-login from a device that already has a session record (state
satisfying I2, at most 5 session records, no `revokeDeviceSession`): a successful
call updates that record in place and nothing else in the session store; the number
of session records and the index keys are unchanged; the record gets the newly
issued `accessToken` and `refreshToken`, which the call returns, the `deviceAgent` and
`ip` of the request, and `loginAt` set to the time of the request; its `createdAt`,
`user`, `device`, `platform` and `_id` are unchanged. -/
theorem relogin_existing_device (f : Faults) (jwt : JwtEnv) (now : Timestamp) (db : Db)
    (pd : ProfileData) (acct : UserDoc) (p : AuthPayload) (old : SessionRecord)
    (hwf : WF db) (hacct : mpaAccount db pd = .ok acct) (hI2 : I2 db acct.id)
    (hI3 : (sessionsOf db acct.id).length ≤ SessionModel.limit)
    (hold : validSessionDevice db acct.id pd.device = some old)
    (hrev : truthyStr pd.revokeDeviceSession = false)
    (hok : (manageProfileAccount f jwt now db pd).1 = .ok p) :
    ∃ r, r = { old with
                 deviceAgent := pd.deviceAgent, ip := pd.ip,
                 loginAt := some pd.currentutc,
                 accessToken := (generateAuthTokens jwt acct.id pd.platform acct.forSystem
                   pd.device).accessToken,
                 refreshToken := (generateAuthTokens jwt acct.id pd.platform acct.forSystem
                   pd.device).refreshToken } ∧
      (manageProfileAccount f jwt now db pd).2.sessions =
        updateOneSession (isDeviceOf acct.id pd.device) (fun _ => r) db.sessions ∧
      validSessionDevice (manageProfileAccount f jwt now db pd).2 acct.id pd.device = some r ∧
      p.accessToken = r.accessToken ∧ p.refreshToken = r.refreshToken ∧
      r.loginAt = some pd.currentutc ∧
      r.createdAt = old.createdAt ∧ r.user = old.user ∧ r.device = old.device ∧
      r.platform = old.platform ∧ r.id = old.id ∧
      (sessionsOf (manageProfileAccount f jwt now db pd).2 acct.id).length =
        (sessionsOf db acct.id).length ∧
      indexKeys (manageProfileAccount f jwt now db pd).2 acct.id = indexKeys db acct.id := by
  obtain ⟨hfa, hfd⟩ := mpa_ok_faults f jwt now db pd p hok
  have hidx := mpaAccount_index db pd acct hwf hacct
  have hfind := mpaAccount_find db pd acct hwf hacct
  have hsz := index_size_eq db acct.id hwf hI2
  rw [hidx] at hsz
  obtain ⟨holdm, holdu, holdd⟩ := find_isDeviceOf _ _ _ _ hold
  have hhas : mapHas acct.sessions pd.device = true := by
    rw [← hidx, mapHas_iff]
    exact hI2.2 _ ((mem_sessionDevices db acct.id pd.device).2 ⟨old, holdm, holdu, holdd⟩)
  have hcount : prospectiveCount acct.sessions (truthyStr pd.revokeDeviceSession)
      (!mapHas acct.sessions pd.device) ≤ (SessionModel.limit : Int) := by
    simp only [prospectiveCount, hrev, hhas, Bool.not_true, Bool.false_eq_true, if_false]
    have h2 : ((mapSize acct.sessions : Nat) : Int) ≤ (SessionModel.limit : Int) :=
      Int.ofNat_le.2 (by omega)
    simpa using h2
  have heq := mpa_eq_pass f jwt now db pd acct hfa hacct hfd (by simp [hrev]) (Or.inr hcount)
  rw [heq] at hok ⊢
  rcases mpaFinish_cases f db acct pd
      (mpaWrite f db acct.id acct.sessions (!mapHas acct.sessions pd.device)
        (getSessionData jwt acct.id pd acct.forSystem
          (validSessionDevice db acct.id pd.device).isNone) pd) with
    ⟨_, e, he⟩ | ⟨acc, w, hw, _, h⟩
  · rw [he] at hok; simp at hok
  · rw [h] at hok ⊢
    simp only [Except.ok.injEq] at hok
    obtain ⟨ss1, ds1, hrv, husers, _, _, hup⟩ :=
      mpaWrite_shape f jwt db w acct.id _ _ _ _ pd acc hwf hw
    have hss1 : ss1 = db.sessions ∧ ds1 = acct.sessions := by
      rcases hrv with ⟨_, h1, h2⟩ | ⟨r, hr, ht, _, _⟩
      · exact ⟨h1, h2⟩
      · rw [hr] at hrev
        rw [hrev] at ht
        exact absurd ht (by simp)
    obtain ⟨h1, h2⟩ := hss1
    subst h1 h2
    have hold' : List.find? (isDeviceOf acct.id pd.device) db.sessions = some old := hold
    rcases hup with ⟨_, _, _, _, _, hnd⟩ | ⟨_, _, s, hs, hacc, hws, _⟩
    · exfalso
      rcases hnd with hnd | hnd
      · simp [hhas] at hnd
      · rw [hold'] at hnd; simp at hnd
    · rw [hold'] at hs
      simp only [Option.some.injEq] at hs
      subst hs
      have hc : (validSessionDevice db acct.id pd.device).isNone = false := by
        rw [hold]; rfl
      rw [hc] at hacc hws
      have hr : acc = { old with
                 deviceAgent := pd.deviceAgent, ip := pd.ip,
                 loginAt := some pd.currentutc,
                 accessToken := (generateAuthTokens jwt acct.id pd.platform acct.forSystem
                   pd.device).accessToken,
                 refreshToken := (generateAuthTokens jwt acct.id pd.platform acct.forSystem
                   pd.device).refreshToken } := by
        rw [hacc]
        simp [applySessionMeta, getSessionData]
      have hupd : updateOneSession (isDeviceOf acct.id pd.device)
          (applySessionMeta (getSessionData jwt acct.id pd acct.forSystem false)) db.sessions =
          updateOneSession (isDeviceOf acct.id pd.device) (fun _ => acc) db.sessions := by
        rw [hacc]
        exact updateOne_const _ _ _ _ hold'
      refine ⟨acc, hr, ?_, ?_, ?_, ?_, ?_, ?_, ?_, ?_, ?_, ?_, ?_, ?_⟩
      · rw [hws, hupd]
      · unfold validSessionDevice
        rw [hws, hacc]
        apply find_updateOne _ _ _ _ hold'
        simp only [isDeviceOf, Bool.and_eq_true, beq_iff_eq]
        exact ⟨applySessionMeta_user _ _ _ _ _ _ holdu,
          applySessionMeta_device _ _ _ _ _ _ holdd⟩
      · rw [← hok]
      · rw [← hok]
      · rw [hr]
      · rw [hr]
      · rw [hr]
      · rw [hr]
      · rw [hr]
      · rw [hr]
      · simp only [sessionsOf_length, hws]
        apply countP_updateOne
        intro s hp
        simp only [isDeviceOf, Bool.and_eq_true, beq_iff_eq] at hp
        rw [applySessionMeta_user _ _ _ _ _ _ hp.1]
        exact hp.1.symm
      · unfold indexKeys
        have : indexOf w acct.id = mapSet acct.sessions pd.device pd.deviceAgent := by
          unfold indexOf
          rw [husers, userIndex_update acct.id acct.id _ (applyAccountMeta_id pd _)]
          simp only [if_true, hfind, applyAccountMeta_sessions]
        rw [this, hidx]
        exact mapKeys_mapSet_present _ _ _ hhas

/-- Witness of C8 (amended): user `1` logs in again from `d1`. -/
theorem relogin_existing_device_witness :
    WF exDb1 ∧ I2 exDb1 1 ∧
    (manageProfileAccount noFaults exJwt exNow exDb1 (exLogin "d1")).1 = .ok exPayloadD1 ∧
    ∃ r, r = { exSession 1 "d1" (exNow - 10 * exHour) with
                 deviceAgent := "agent2", ip := "10.0.0.2", loginAt := some exNow,
                 accessToken := "A-d1", refreshToken := "R-d1" } ∧
      (manageProfileAccount noFaults exJwt exNow exDb1 (exLogin "d1")).2.sessions =
        updateOneSession (isDeviceOf 1 "d1") (fun _ => r) exDb1.sessions ∧
      validSessionDevice (manageProfileAccount noFaults exJwt exNow exDb1 (exLogin "d1")).2
        1 "d1" = some r ∧
      exPayloadD1.accessToken = r.accessToken ∧ exPayloadD1.refreshToken = r.refreshToken ∧
      r.loginAt = some exNow ∧
      r.createdAt = some (exNow - 10 * exHour) ∧ r.user = 1 ∧ r.device = "d1" ∧
      r.platform = "APP" ∧ r.id = 1 ∧
      (sessionsOf (manageProfileAccount noFaults exJwt exNow exDb1 (exLogin "d1")).2 1).length =
        (sessionsOf exDb1 1).length ∧
      indexKeys (manageProfileAccount noFaults exJwt exNow exDb1 (exLogin "d1")).2 1 =
        indexKeys exDb1 1 :=
  ⟨by decide, by decide, by decide,
   relogin_existing_device noFaults exJwt exNow exDb1 (exLogin "d1") exAccount1 exPayloadD1
     (exSession 1 "d1" (exNow - 10 * exHour))
     (by decide) (by decide) (by decide) (by decide) (by decide) (by decide) (by decide)⟩

/-- C9. A login whose `revokeDeviceSession` names a device that is not a key of the
user's device index changes neither the session store nor the device index and
fails; once the account is resolved and the two look-ups go through, the error is
the not-found error `No device session found.` with code `RESOURCE_NOT_FOUND`. -/
theorem revoke_unknown_device_fails (f : Faults) (jwt : JwtEnv) (now : Timestamp) (db : Db)
    (pd : ProfileData) (acct : UserDoc) (r : DeviceID)
    (hacct : mpaAccount db pd = .ok acct)
    (hr : pd.revokeDeviceSession = some r) (hne : r ≠ "")
    (hnot : mapHas acct.sessions r = false) :
    (manageProfileAccount f jwt now db pd).2 = db ∧
    (∃ e, (manageProfileAccount f jwt now db pd).1 = .error e) ∧
    (f .mpaFindAccount = false → f .mpaFindDevice = false →
      (manageProfileAccount f jwt now db pd).1 =
        .error (.api "No device session found." "RESOURCE_NOT_FOUND")) := by
  have ht : truthyStr pd.revokeDeviceSession = true := by
    rw [hr]; simp [truthyStr, hne]
  have hcheck : (truthyStr pd.revokeDeviceSession &&
      !mapHas acct.sessions (pd.revokeDeviceSession.getD "")) = true := by
    rw [ht, hr]; simp [hnot]
  unfold manageProfileAccount
  split
  · exact ⟨rfl, ⟨_, rfl⟩, fun h => by simp_all⟩
  · rw [hacct]
    simp only
    split
    · exact ⟨rfl, ⟨_, rfl⟩, fun _ h => by simp_all⟩
    · simp [hcheck]

/-- Witness of C9: user `1` holds `d1` only and asks to revoke `d9`. -/
theorem revoke_unknown_device_fails_witness :
    (manageProfileAccount noFaults exJwt exNow exDb1
      { exLogin "d2" with revokeDeviceSession := some "d9" }).2 = exDb1 ∧
    (∃ e, (manageProfileAccount noFaults exJwt exNow exDb1
      { exLogin "d2" with revokeDeviceSession := some "d9" }).1 = .error e) ∧
    (noFaults .mpaFindAccount = false → noFaults .mpaFindDevice = false →
      (manageProfileAccount noFaults exJwt exNow exDb1
        { exLogin "d2" with revokeDeviceSession := some "d9" }).1 =
        .error (.api "No device session found." "RESOURCE_NOT_FOUND")) :=
  revoke_unknown_device_fails noFaults exJwt exNow exDb1
    { exLogin "d2" with revokeDeviceSession := some "d9" } exAccount1 "d9"
    (by decide) rfl (by decide) (by decide)

/-- C10. In a state satisfying the mirror invariant I2, whenever a login without
`revokeDeviceSession` has a prospective count greater than the device limit, an
eviction candidate exists (the user has a session record, so policy P2 finds one),
and no run of the login ends in the failure `Unable to manage sessions. Please try
again.`; that failure therefore occurs only when I2 does not hold. -/
theorem no_candidate_failure_unreachable (f : Faults) (jwt : JwtEnv) (now : Timestamp)
    (db : Db) (pd : ProfileData) (acct : UserDoc) (hwf : WF db)
    (hacct : mpaAccount db pd = .ok acct) (hI2 : I2 db acct.id)
    (hrev : truthyStr pd.revokeDeviceSession = false)
    (hcount : prospectiveCount acct.sessions (truthyStr pd.revokeDeviceSession)
      (!mapHas acct.sessions pd.device) > (SessionModel.limit : Int)) :
    (∃ e, oldestFirst (sessionsOf db acct.id) = some e) ∧
    (manageProfileAccount f jwt now db pd).1 ≠
      .error (.api "Unable to manage sessions. Please try again." "RESOURCE_NOT_FOUND") := by
  have hidx := mpaAccount_index db pd acct hwf hacct
  have hex : ∃ s, s ∈ sessionsOf db acct.id := by
    have hpos : 0 < mapSize acct.sessions := by
      simp only [prospectiveCount, hrev, Bool.false_eq_true, if_false] at hcount
      have hl : (SessionModel.limit : Int) = 5 := rfl
      rw [hl] at hcount
      by_cases hb : (!mapHas acct.sessions pd.device) = true
      · simp only [hb, if_true] at hcount
        omega
      · simp only [hb, if_false] at hcount
        omega
    have hne : acct.sessions ≠ [] := by
      intro h
      rw [h] at hpos
      exact Nat.lt_irrefl _ hpos
    obtain ⟨k, hk⟩ := List.exists_mem_of_ne_nil _ hne
    have hkey : k.1 ∈ indexKeys db acct.id := by
      unfold indexKeys
      rw [hidx]
      exact List.mem_map.2 ⟨k, hk, rfl⟩
    obtain ⟨s, hs, hsu, _⟩ := (mem_sessionDevices db acct.id k.1).1 (hI2.1 _ hkey)
    exact ⟨s, List.mem_filter.2 ⟨hs, by simpa using hsu⟩⟩
  obtain ⟨s, hs⟩ := hex
  refine ⟨oldestFirst_isSome _ s hs, ?_⟩
  intro hfail
  obtain ⟨acct1, hacct1, hnone⟩ := mpa_unable f jwt now db pd hfail
  rw [hacct] at hacct1
  simp only [Except.ok.injEq] at hacct1
  subst hacct1
  have := oldestFirst_eq_none _ hnone
  unfold sessionsOf at hs
  rw [this] at hs
  cases hs

/-- Witness of C10: user `1` at the limit logs in from a sixth device.  In the drifted
state `exDbDrift`, where I2 fails, the same login does end in the failure. -/
theorem no_candidate_failure_unreachable_witness :
    WF exDb5 ∧ I2 exDb5 1 ∧
    ((∃ e, oldestFirst (sessionsOf exDb5 1) = some e) ∧
      (manageProfileAccount noFaults exJwt exNow exDb5 (exLogin "d6")).1 ≠
        .error (.api "Unable to manage sessions. Please try again." "RESOURCE_NOT_FOUND")) ∧
    ¬ I2 exDbDrift 1 ∧
    (manageProfileAccount noFaults exJwt exNow exDbDrift (exLogin "d6")).1 =
      .error (.api "Unable to manage sessions. Please try again." "RESOURCE_NOT_FOUND") :=
  ⟨by decide, by decide,
   no_candidate_failure_unreachable noFaults exJwt exNow exDb5 (exLogin "d6") exAccount5
     (by decide) (by decide) (by decide) (by decide) (by decide),
   by decide, by decide⟩

/-- C11. For an existing user `U` and a device `d` without a session record of `U`
(whatever the index of `U` holds, so in particular when `d` is no index key and when
`U` has no session at all), every run of `revokeAuthDevice U d` fails and leaves the
whole database, session store and device indexes, unchanged; when the account look-up
and the delete are not rejected by the store the error is `Device not found or already
revoked.` with code `RESOURCE_NOT_FOUND`. -/
theorem revoke_absent_device_fails (f : Faults) (db : Db) (U : UserId) (d : DeviceID)
    (account : UserDoc) (hu : findUserById db.users U = some account)
    (hs : ¬ ∃ s ∈ db.sessions, s.user = U ∧ s.device = d) :
    (revokeAuthDevice f db U d).2 = db ∧
    (∃ e, (revokeAuthDevice f db U d).1 = .error e) ∧
    (f .radFindUser = false → f .radDelete = false →
      (revokeAuthDevice f db U d).1 =
        .error (.api "Device not found or already revoked." "RESOURCE_NOT_FOUND")) := by
  have hany : db.sessions.any (isDeviceOf U d) = false := by
    rw [← Bool.not_eq_true, any_isDeviceOf]; exact hs
  unfold revokeAuthDevice
  split
  · exact ⟨rfl, ⟨_, rfl⟩, fun h => by simp_all⟩
  · rw [hu]
    simp only
    split
    · exact ⟨rfl, ⟨_, rfl⟩, fun _ h => by simp_all⟩
    · simp [hany]

/-- Witness of C11: user `1` exists and has no session; revoking `deviceA` fails with
the not-found error and nothing changes. -/
theorem revoke_absent_device_fails_witness :
    (revokeAuthDevice noFaults exDb0 1 "deviceA").2 = exDb0 ∧
    (∃ e, (revokeAuthDevice noFaults exDb0 1 "deviceA").1 = .error e) ∧
    (noFaults .radFindUser = false → noFaults .radDelete = false →
      (revokeAuthDevice noFaults exDb0 1 "deviceA").1 =
        .error (.api "Device not found or already revoked." "RESOURCE_NOT_FOUND")) :=
  revoke_absent_device_fails noFaults exDb0 1 "deviceA" (exUser []) (by decide) (by decide)

/-- C12. For an existing user `U` and a device `d` that has a session record of `U`,
`revokeAuthDevice U d` succeeds when no store call is rejected: it returns a map, the
session store afterwards is the one before without the record `(U, d)` (every other
record, of `U` and of every other user, is kept as it was and in place), `d` is no key
of the stored index of `U`, the returned map is the stored index of `U`, the indexes
of all other users are unchanged, and when the index of `U` mirrored the session
records before the call the stored index is the previous one without the entry `d`. -/
theorem revoke_existing_device (f : Faults) (db : Db) (U : UserId) (d : DeviceID)
    (account : UserDoc) (hwf : WF db) (hu : findUserById db.users U = some account)
    (hs : ∃ s ∈ db.sessions, s.user = U ∧ s.device = d)
    (hf : f .radFindUser = false ∧ f .radDelete = false ∧ f .radFindSessions = false ∧
      f .radUserUpdate = false ∧ f .radCommit = false) :
    ∃ m, (revokeAuthDevice f db U d).1 = .ok m ∧
      (revokeAuthDevice f db U d).2.sessions =
        db.sessions.filter (fun s => !isDeviceOf U d s) ∧
      d ∉ indexKeys (revokeAuthDevice f db U d).2 U ∧
      indexOf (revokeAuthDevice f db U d).2 U = m ∧
      (∀ V, V ≠ U → indexOf (revokeAuthDevice f db U d).2 V = indexOf db V) ∧
      (I2 db U → m = mapDelete (indexOf db U) d) := by
  have hany := (any_isDeviceOf db.sessions U d).2 hs
  obtain ⟨m, hm⟩ := rad_succeeds f db U d account hu hany hf
  obtain ⟨a, ha, _, hmeq, hdb⟩ := rad_ok f db U d m hm
  rw [hu] at ha
  cases ha
  have hidx : indexOf db U = account.sessions := by
    simp [indexOf, userIndex, hu]
  have herase := erase_device_eq_filter db.sessions U d hwf.2.1
  have hiU : indexOf (revokeAuthDevice f db U d).2 U = m := by
    rw [hdb]
    simp [indexOf, userIndex_save, hu]
  refine ⟨m, hm, ?_, ?_, hiU, ?_, ?_⟩
  · rw [hdb]; exact herase
  · unfold indexKeys
    rw [hiU, hmeq, mem_mapKeys_foldl_mapDelete, mem_mapKeys_mapDelete]
    exact fun h => h.1.2 rfl
  · intro V hV
    rw [hdb]
    simp [indexOf, userIndex_save, hV]
  · intro hI2
    rw [hmeq, hidx, orphanKeys_eq_nil]
    · rfl
    · intro k hk
      rw [mem_mapKeys_mapDelete] at hk
      have hk1 : k ∈ indexKeys db U := by
        unfold indexKeys; rw [hidx]; exact hk.1
      obtain ⟨s, hsm, hsu, hsd⟩ := (mem_sessionDevices db U k).1 (hI2.1 k hk1)
      refine ⟨s, ?_, hsu, hsd⟩
      rw [herase, List.mem_filter]
      refine ⟨hsm, ?_⟩
      simp only [isDeviceOf, Bool.not_and, Bool.or_eq_true, Bool.not_eq_true', beq_eq_false_iff_ne]
      exact Or.inr (by rw [hsd]; exact hk.2)

/-- Witness of C12: user `1` holds five devices and revokes `d2`. -/
theorem revoke_existing_device_witness :
    ∃ m, (revokeAuthDevice noFaults exDb5 1 "d2").1 = .ok m ∧
      (revokeAuthDevice noFaults exDb5 1 "d2").2.sessions =
        exDb5.sessions.filter (fun s => !isDeviceOf 1 "d2" s) ∧
      "d2" ∉ indexKeys (revokeAuthDevice noFaults exDb5 1 "d2").2 1 ∧
      indexOf (revokeAuthDevice noFaults exDb5 1 "d2").2 1 = m ∧
      (∀ V, V ≠ 1 → indexOf (revokeAuthDevice noFaults exDb5 1 "d2").2 V = indexOf exDb5 V) ∧
      (I2 exDb5 1 → m = mapDelete (indexOf exDb5 1) "d2") :=
  revoke_existing_device noFaults exDb5 1 "d2" exAccount5 (by decide) (by decide)
    ⟨exSession 2 "d2" (exNow - 30 * exHour), by decide, by decide, by decide⟩
    ⟨rfl, rfl, rfl, rfl, rfl⟩

/-- C13. Orphan sweep.  After a successful `revokeAuthDevice U d`, whatever the index of
`U` held before, every key left in the stored index of `U` has a session record of `U`
in the store, and every index entry with a key other than `d` whose device had a
session record of `U` is still there with the same `deviceAgent` value.  After a
successful `terminateUserSessions U`, every key left in the stored index of `U` has a
session record of `U` as well. -/
theorem orphan_sweep (f : Faults) (db : Db) (U : UserId) (d : DeviceID) :
    (∀ m, (revokeAuthDevice f db U d).1 = .ok m →
      (∀ k ∈ indexKeys (revokeAuthDevice f db U d).2 U,
        ∃ s ∈ (revokeAuthDevice f db U d).2.sessions, s.user = U ∧ s.device = k) ∧
      (∀ k a, (k, a) ∈ indexOf db U → k ≠ d →
        (∃ s ∈ db.sessions, s.user = U ∧ s.device = k) →
        (k, a) ∈ indexOf (revokeAuthDevice f db U d).2 U)) ∧
    (∀ n, (terminateUserSessions f db U).1 = .ok n →
      ∀ k ∈ indexKeys (terminateUserSessions f db U).2 U,
        ∃ s ∈ (terminateUserSessions f db U).2.sessions, s.user = U ∧ s.device = k) := by
  constructor
  · intro m hm
    obtain ⟨account, hu, _, hmeq, hdb⟩ := rad_ok f db U d m hm
    have hidx : indexOf db U = account.sessions := by
      simp [indexOf, userIndex, hu]
    have hiU : indexOf (revokeAuthDevice f db U d).2 U = m := by
      rw [hdb]
      simp [indexOf, userIndex_save, hu]
    have hss : (revokeAuthDevice f db U d).2.sessions =
        db.sessions.eraseP (isDeviceOf U d) := by rw [hdb]
    constructor
    · intro k hk
      unfold indexKeys mapKeys at hk
      rw [hiU, List.mem_map] at hk
      obtain ⟨e, he, hek⟩ := hk
      rw [hmeq, mem_swept] at he
      rw [hss, ← hek]
      exact he.2
    · intro k a hka hkd hs
      rw [hiU, hmeq, mem_swept, mem_mapDelete, ← hidx]
      refine ⟨⟨hka, hkd⟩, ?_⟩
      obtain ⟨s, hsm, hsu, hsd⟩ := hs
      refine ⟨s, ?_, hsu, hsd⟩
      apply (List.mem_eraseP_of_neg _).2 hsm
      simp only [isDeviceOf, Bool.and_eq_true, beq_iff_eq, not_and]
      intro _ h
      exact hkd (by rw [← hsd, h])
  · intro n hn k hk
    obtain ⟨_, _, hus⟩ := tus_ok f db U n hn
    exfalso
    unfold indexKeys indexOf at hk
    rw [hus] at hk
    cases hfu : findUserById db.users U with
    | none =>
      rw [hfu] at hk
      simp [userIndex, hfu, mapKeys] at hk
    | some user =>
      rw [hfu] at hk
      simp [userIndex_save, hfu, mapKeys] at hk

/-- Witness of C13: the index of user `1` lists `d3, d1, d4, d2` while only `d1` and
`d2` have a record; revoking `d1` leaves exactly the entry of `d2`, and terminating all
sessions leaves no key. -/
theorem orphan_sweep_witness :
    (revokeAuthDevice noFaults exDbOrphan 1 "d1").1 = .ok [("d2", "agent2")] ∧
    (terminateUserSessions noFaults exDbOrphan 1).1 = .ok 2 ∧
    ((∀ k ∈ indexKeys (revokeAuthDevice noFaults exDbOrphan 1 "d1").2 1,
        ∃ s ∈ (revokeAuthDevice noFaults exDbOrphan 1 "d1").2.sessions,
          s.user = 1 ∧ s.device = k) ∧
      (∀ k a, (k, a) ∈ indexOf exDbOrphan 1 → k ≠ "d1" →
        (∃ s ∈ exDbOrphan.sessions, s.user = 1 ∧ s.device = k) →
        (k, a) ∈ indexOf (revokeAuthDevice noFaults exDbOrphan 1 "d1").2 1)) ∧
    (∀ k ∈ indexKeys (terminateUserSessions noFaults exDbOrphan 1).2 1,
        ∃ s ∈ (terminateUserSessions noFaults exDbOrphan 1).2.sessions,
          s.user = 1 ∧ s.device = k) :=
  ⟨by decide, by decide,
   (orphan_sweep noFaults exDbOrphan 1 "d1").1 [("d2", "agent2")] (by decide),
   (orphan_sweep noFaults exDbOrphan 1 "d1").2 2 (by decide)⟩

/-- C14. For an existing user `U`, `terminateUserSessions U`, when no store call is
rejected, returns the number of session records `U` had before the call; afterwards
`U` has no session record and the stored index of `U` is empty, the session store is
the previous one without the records of `U`, and the session records and the index of
every other user are unchanged. -/
theorem terminate_user_sessions_clears (f : Faults) (db : Db) (U : UserId) (account : UserDoc)
    (hu : findUserById db.users U = some account)
    (hf : f .tusDeleteMany = false ∧ f .tusFindUser = false ∧ f .tusSave = false ∧
      f .tusCommit = false) :
    (terminateUserSessions f db U).1 = .ok (sessionsOf db U).length ∧
    sessionsOf (terminateUserSessions f db U).2 U = [] ∧
    indexOf (terminateUserSessions f db U).2 U = [] ∧
    (terminateUserSessions f db U).2.sessions = db.sessions.filter (fun s => !(s.user == U)) ∧
    (∀ V, V ≠ U →
      sessionsOf (terminateUserSessions f db U).2 V = sessionsOf db V ∧
      indexOf (terminateUserSessions f db U).2 V = indexOf db V) := by
  have hok := tus_succeeds f db U hf
  obtain ⟨_, hss, hus⟩ := tus_ok f db U _ hok
  rw [hu] at hus
  simp only at hus
  refine ⟨hok, ?_, ?_, hss, ?_⟩
  · unfold sessionsOf
    rw [hss, List.filter_filter, List.filter_eq_nil_iff]
    intro s _
    simp
  · unfold indexOf
    rw [hus]
    simp [userIndex_save, hu]
  · intro V hV
    constructor
    · unfold sessionsOf
      rw [hss, List.filter_filter]
      apply List.filter_congr
      intro s _
      by_cases hsv : s.user = V
      · simp [hsv, hV]
      · simp [hsv]
    · unfold indexOf
      rw [hus]
      simp [userIndex_save, hV]

/-- Witness of C14: user `1` has two records and four index entries, user `2` one
record and one entry; terminating the sessions of user `1` returns `2`. -/
theorem terminate_user_sessions_clears_witness :
    (terminateUserSessions noFaults exDbOrphan 1).1 = .ok 2 ∧
    sessionsOf (terminateUserSessions noFaults exDbOrphan 1).2 1 = [] ∧
    indexOf (terminateUserSessions noFaults exDbOrphan 1).2 1 = [] ∧
    (terminateUserSessions noFaults exDbOrphan 1).2.sessions =
      exDbOrphan.sessions.filter (fun s => !(s.user == 1)) ∧
    (∀ V, V ≠ 1 →
      sessionsOf (terminateUserSessions noFaults exDbOrphan 1).2 V = sessionsOf exDbOrphan V ∧
      indexOf (terminateUserSessions noFaults exDbOrphan 1).2 V = indexOf exDbOrphan V) :=
  terminate_user_sessions_clears noFaults exDbOrphan 1
    (exUser [("d3", "agent3"), ("d1", "agent1"), ("d4", "agent4"), ("d2", "agent2")])
    (by decide) ⟨rfl, rfl, rfl, rfl⟩

/-- C15. For a user with a non-empty device index, `validateUserSessionMap`, when no
store call is rejected, reports success with `invalidDevices` equal to the index keys,
in index order, whose device has no session record of that user (a key is listed
exactly when no record of the user carries it) and with `removedCount` equal to the
length of that list; the index stored afterwards is the previous index without the
entries of those keys, the remaining entries keeping their place and their
`deviceAgent` value, and the indexes of all other users are unchanged. -/
theorem reconcile_removes_orphans (f : Faults) (db : Db) (u : UserId) (user : UserDoc)
    (hu : findUserById db.users u = some user) (hne : user.sessions ≠ [])
    (hf : f .vusFindUser = false ∧ f .vusFindSessions = false ∧ f .vusSave = false ∧
      f .vusCommit = false) :
    (validateUserSessionMap f db u).1.validated = true ∧
    (validateUserSessionMap f db u).1.invalidDevices =
      some ((indexKeys db u).filter (fun k => !(sessionDevices db u).contains k)) ∧
    (∀ l, (validateUserSessionMap f db u).1.invalidDevices = some l →
      (∀ k, k ∈ l ↔ k ∈ indexKeys db u ∧ ¬ ∃ s ∈ db.sessions, s.user = u ∧ s.device = k) ∧
      (validateUserSessionMap f db u).1.removedCount = some l.length ∧
      indexOf (validateUserSessionMap f db u).2 u =
        (indexOf db u).filter (fun e => !l.contains e.1)) ∧
    (∀ V, V ≠ u → indexOf (validateUserSessionMap f db u).2 V = indexOf db V) := by
  have hv := vus_succeeds f db u hf
  have hm := vus_main f db u user hu hne hv
  have hidx : indexOf db u = user.sessions := by
    simp [indexOf, userIndex, hu]
  have hkeys : indexKeys db u = mapKeys user.sessions := by
    unfold indexKeys; rw [hidx]
  have horph : (indexKeys db u).filter (fun k => !(sessionDevices db u).contains k) =
      orphanKeys db.sessions u user.sessions := by
    rw [hkeys]; rfl
  refine ⟨hv, ?_, ?_, ?_⟩
  · rw [hm, horph]
  · intro l hl
    rw [hm] at hl
    simp only [Option.some.injEq] at hl
    subst hl
    refine ⟨?_, ?_, ?_⟩
    · intro k
      rw [mem_orphanKeys, hkeys]
    · rw [hm]
    · rw [hm, hidx]
      simp only
      split
      · simp only [indexOf, userIndex_save, hu, Option.isSome_some, if_true]
        exact foldl_mapDelete_eq_filter _ _
      · next hz =>
        rw [hidx, Nat.eq_zero_of_not_pos hz |> List.length_eq_zero.1]
        simp
  · intro V hV
    rw [hm]
    simp only
    split
    · simp [indexOf, userIndex_save, hV]
    · rfl

/-- Witness of C15: the index of user `1` lists `d3, d1, d4, d2`, records exist for `d1`
and `d2`; the reconciler reports `d3, d4` and stores the entries of `d1` and `d2`. -/
theorem reconcile_removes_orphans_witness :
    (validateUserSessionMap noFaults exDbOrphan 1).1.invalidDevices = some ["d3", "d4"] ∧
    (validateUserSessionMap noFaults exDbOrphan 1).1.removedCount = some 2 ∧
    indexOf (validateUserSessionMap noFaults exDbOrphan 1).2 1 =
      [("d1", "agent1"), ("d2", "agent2")] ∧
    ((validateUserSessionMap noFaults exDbOrphan 1).1.validated = true ∧
    (validateUserSessionMap noFaults exDbOrphan 1).1.invalidDevices =
      some ((indexKeys exDbOrphan 1).filter (fun k => !(sessionDevices exDbOrphan 1).contains k)) ∧
    (∀ l, (validateUserSessionMap noFaults exDbOrphan 1).1.invalidDevices = some l →
      (∀ k, k ∈ l ↔ k ∈ indexKeys exDbOrphan 1 ∧
        ¬ ∃ s ∈ exDbOrphan.sessions, s.user = 1 ∧ s.device = k) ∧
      (validateUserSessionMap noFaults exDbOrphan 1).1.removedCount = some l.length ∧
      indexOf (validateUserSessionMap noFaults exDbOrphan 1).2 1 =
        (indexOf exDbOrphan 1).filter (fun e => !l.contains e.1)) ∧
    (∀ V, V ≠ 1 → indexOf (validateUserSessionMap noFaults exDbOrphan 1).2 V =
      indexOf exDbOrphan V)) :=
  ⟨by decide, by decide, by decide,
   reconcile_removes_orphans noFaults exDbOrphan 1
    (exUser [("d3", "agent3"), ("d1", "agent1"), ("d4", "agent4"), ("d2", "agent2")])
    (by decide) (by decide) ⟨rfl, rfl, rfl, rfl⟩⟩

/-- C16. The reconciler `validateUserSessionMap` never deletes or modifies a session
record: for every user, every state and every pattern of rejected store calls, the
session store after the call is the session store before it. -/
theorem reconcile_keeps_session_store (f : Faults) (db : Db) (u : UserId) :
    (validateUserSessionMap f db u).2.sessions = db.sessions :=
  vus_sessions f db u

/-- C17. The reconciler is idempotent: when a call of `validateUserSessionMap` for a
user reports success and is followed at once by a second call for the same user in
which no store call is rejected, the second call reports success with `removedCount`
equal to `0` and leaves the whole database, the index included, as the first call
left it. -/
theorem reconcile_idempotent (f g : Faults) (db : Db) (u : UserId)
    (hv : (validateUserSessionMap f db u).1.validated = true)
    (hg : g .vusFindUser = false ∧ g .vusFindSessions = false ∧ g .vusSave = false ∧
      g .vusCommit = false) :
    (validateUserSessionMap g (validateUserSessionMap f db u).2 u).1.validated = true ∧
    (validateUserSessionMap g (validateUserSessionMap f db u).2 u).1.removedCount = some 0 ∧
    (validateUserSessionMap g (validateUserSessionMap f db u).2 u).2 =
      (validateUserSessionMap f db u).2 := by
  have hv2 := vus_succeeds g (validateUserSessionMap f db u).2 u hg
  refine ⟨hv2, ?_⟩
  -- the state after the first call has no orphan key in the index of `u`
  have hclean : ∀ user2, findUserById (validateUserSessionMap f db u).2.users u = some user2 →
      orphanKeys (validateUserSessionMap f db u).2.sessions u user2.sessions = [] := by
    intro user2 h2
    rw [vus_sessions]
    by_cases hE : ∀ user, findUserById db.users u = some user → user.sessions = []
    · rw [vus_early f db u hE hv] at h2
      rw [hE user2 h2]
      rfl
    · push_neg at hE
      obtain ⟨user, hu, hne⟩ := hE
      rw [vus_main f db u user hu hne hv] at h2
      simp only at h2
      split at h2
      · have hfind := findUserById_update u u
          (fun w : UserDoc => { w with
            sessions := (orphanKeys db.sessions u user.sessions).foldl mapDelete user.sessions })
          (fun _ => rfl) db.users
        rw [if_pos rfl, hu] at hfind
        unfold saveUserSessions at h2
        simp only at h2
        rw [hfind] at h2
        simp only [Option.map_some', Option.some.injEq] at h2
        rw [← h2]
        apply orphanKeys_eq_nil
        intro k hk
        unfold mapKeys at hk
        rw [List.mem_map] at hk
        obtain ⟨e, he, hek⟩ := hk
        rw [mem_swept] at he
        rw [← hek]
        exact he.2
      · next hz =>
        rw [hu] at h2
        cases h2
        exact List.length_eq_zero.1 (Nat.eq_zero_of_not_pos hz)
  by_cases hE2 : ∀ user2, findUserById (validateUserSessionMap f db u).2.users u = some user2 →
      user2.sessions = []
  · rw [vus_early g _ u hE2 hv2]
    exact ⟨rfl, rfl⟩
  · push_neg at hE2
    obtain ⟨user2, hu2, hne2⟩ := hE2
    rw [vus_main g _ u user2 hu2 hne2 hv2, hclean user2 hu2]
    exact ⟨rfl, rfl⟩

/-- Witness of C17: the first call on the drifted index of user `1` removes `d3` and
`d4`; the second call removes nothing and changes nothing. -/
theorem reconcile_idempotent_witness :
    (validateUserSessionMap noFaults exDbOrphan 1).1.removedCount = some 2 ∧
    ((validateUserSessionMap noFaults
        (validateUserSessionMap noFaults exDbOrphan 1).2 1).1.validated = true ∧
    (validateUserSessionMap noFaults
        (validateUserSessionMap noFaults exDbOrphan 1).2 1).1.removedCount = some 0 ∧
    (validateUserSessionMap noFaults (validateUserSessionMap noFaults exDbOrphan 1).2 1).2 =
      (validateUserSessionMap noFaults exDbOrphan 1).2) :=
  ⟨by decide,
   reconcile_idempotent noFaults noFaults exDbOrphan 1 (by decide) ⟨rfl, rfl, rfl, rfl⟩⟩

/-- C18, counterexample: for user `1`, who exists and has an empty index, and for the
unknown user id `7`, `validateUserSessionMap` does not fail (`validated` is `true`) and
the result carries `removedCount = 0` but no `invalidDevices` at all. -/
theorem reconcile_early_result_lacks_invalidDevices :
    ((validateUserSessionMap noFaults exDb0 1).1.validated = true ∧
      (validateUserSessionMap noFaults exDb0 1).1.removedCount = some 0 ∧
      (validateUserSessionMap noFaults exDb0 1).1.invalidDevices = none) ∧
    (findUserById exDb0.users 7 = none ∧
      (validateUserSessionMap noFaults exDb0 7).1.validated = true ∧
      (validateUserSessionMap noFaults exDb0 7).1.removedCount = some 0 ∧
      (validateUserSessionMap noFaults exDb0 7).1.invalidDevices = none) ∧
    ¬ (∀ (f : Faults) (db : Db) (u : UserId), (validateUserSessionMap f db u).1.validated = true →
        ∃ l, (validateUserSessionMap f db u).1.invalidDevices = some l ∧
          (validateUserSessionMap f db u).1.removedCount = some l.length) := by
  refine ⟨by decide, by decide, ?_⟩
  intro h
  obtain ⟨l, hl, _⟩ := h noFaults exDb0 1 (by decide)
  have hnone : (validateUserSessionMap noFaults exDb0 1).1.invalidDevices = none := by decide
  rw [hnone] at hl
  cases hl

/-- C18, amended. Every result of `validateUserSessionMap` that does not fail carries
`removedCount`; it carries `invalidDevices` exactly when the user exists and has a
non-empty device index, and then `removedCount` is the number of entries of
`invalidDevices`; for an unknown user and for a user with an empty index the result
has `removedCount = 0` and no `invalidDevices`. -/
theorem reconcile_result_shape (f : Faults) (db : Db) (u : UserId)
    (hv : (validateUserSessionMap f db u).1.validated = true) :
    (∃ n, (validateUserSessionMap f db u).1.removedCount = some n) ∧
    (((validateUserSessionMap f db u).1.invalidDevices).isSome = true ↔
      ∃ user, findUserById db.users u = some user ∧ user.sessions ≠ []) ∧
    (∀ l, (validateUserSessionMap f db u).1.invalidDevices = some l →
      (validateUserSessionMap f db u).1.removedCount = some l.length) ∧
    ((validateUserSessionMap f db u).1.invalidDevices = none →
      (validateUserSessionMap f db u).1.removedCount = some 0) := by
  by_cases hE : ∀ user, findUserById db.users u = some user → user.sessions = []
  · rw [vus_early f db u hE hv]
    refine ⟨⟨0, rfl⟩, ?_, ?_, fun _ => rfl⟩
    · simp only [Option.isSome_none, Bool.false_eq_true, false_iff, not_exists, not_and,
        not_not]
      exact hE
    · intro l hl
      simp at hl
  · have hE2 := hE
    push_neg at hE2
    obtain ⟨user, hu, hne⟩ := hE2
    rw [vus_main f db u user hu hne hv]
    refine ⟨⟨_, rfl⟩, ?_, ?_, ?_⟩
    · simp only [Option.isSome_some, true_iff]
      exact ⟨user, hu, hne⟩
    · intro l hl
      simp only [Option.some.injEq] at hl
      rw [← hl]
    · intro hn
      simp at hn

/-- Witness of C18 (amended): the reconciler on the drifted index of user `1` reports
two invalid devices and `removedCount = 2`. -/
theorem reconcile_result_shape_witness :
    (validateUserSessionMap noFaults exDbOrphan 1).1.invalidDevices = some ["d3", "d4"] ∧
    ((∃ n, (validateUserSessionMap noFaults exDbOrphan 1).1.removedCount = some n) ∧
    (((validateUserSessionMap noFaults exDbOrphan 1).1.invalidDevices).isSome = true ↔
      ∃ user, findUserById exDbOrphan.users 1 = some user ∧ user.sessions ≠ []) ∧
    (∀ l, (validateUserSessionMap noFaults exDbOrphan 1).1.invalidDevices = some l →
      (validateUserSessionMap noFaults exDbOrphan 1).1.removedCount = some l.length) ∧
    ((validateUserSessionMap noFaults exDbOrphan 1).1.invalidDevices = none →
      (validateUserSessionMap noFaults exDbOrphan 1).1.removedCount = some 0)) :=
  ⟨by decide, reconcile_result_shape noFaults exDbOrphan 1 (by decide)⟩

/-- C19, counterexample: `SessionModel.find` rejects inside `validateUserSessionMap` for
user `1`, whose index is not empty.  The call does not fail: it returns the object with
`validated = false` and the message `Failed to validate sessions`, which carries
neither `removedCount` nor `invalidDevices`, and the database is unchanged (the orphan
keys `d3` and `d4` stay in the index). -/
theorem reconcile_swallows_store_failure :
    exFaultFindSessions .vusFindSessions = true ∧
    validateUserSessionMap exFaultFindSessions exDbOrphan 1 =
      ({ validated := false, removedCount := none, invalidDevices := none,
         error := some (.store .vusFindSessions), message := .failed }, exDbOrphan) ∧
    (validateUserSessionMap noFaults exDbOrphan 1).1.removedCount = some 2 := by
  decide

/-- C19, amended. In `manageProfileAccount`, `revokeAuthDevice`, `terminateUserSessions`
and `terminateDeviceSession` no store failure is swallowed: every run either is the run
in which no store call is rejected, or fails with the error of a rejected store call,
and a run that returns a normal result had none of the store calls it made rejected.
`validateUserSessionMap` is the exception: after a rejected store call it does not
fail but returns the object `validated = false` with the error inside, and leaves the
database unchanged. -/
theorem store_failure_reaches_caller (f : Faults) (jwt : JwtEnv) (now : Timestamp) (db : Db)
    (pd : ProfileData) (U : UserId) (d : DeviceID) :
    ((manageProfileAccount f jwt now db pd = manageProfileAccount noFaults jwt now db pd ∨
        ∃ s, f s = true ∧ (manageProfileAccount f jwt now db pd).1 = .error (.store s)) ∧
      (∀ p, (manageProfileAccount f jwt now db pd).1 = .ok p →
        f .mpaFindAccount = false ∧ f .mpaFindDevice = false ∧ f .mpaIndexSet = false ∧
          f .mpaUserUpdate = false ∧ f .mpaCommit = false)) ∧
    ((revokeAuthDevice f db U d = revokeAuthDevice noFaults db U d ∨
        ∃ s, f s = true ∧ (revokeAuthDevice f db U d).1 = .error (.store s)) ∧
      (∀ m, (revokeAuthDevice f db U d).1 = .ok m →
        f .radFindUser = false ∧ f .radDelete = false ∧ f .radFindSessions = false ∧
          f .radUserUpdate = false ∧ f .radCommit = false)) ∧
    ((terminateUserSessions f db U = terminateUserSessions noFaults db U ∨
        ∃ s, f s = true ∧ (terminateUserSessions f db U).1 = .error (.store s)) ∧
      (∀ n, (terminateUserSessions f db U).1 = .ok n →
        f .tusDeleteMany = false ∧ f .tusFindUser = false ∧ f .tusCommit = false ∧
          ((findUserById db.users U).isSome = true → f .tusSave = false))) ∧
    ((terminateDeviceSession f db U d = terminateDeviceSession noFaults db U d ∨
        ∃ s, f s = true ∧ (terminateDeviceSession f db U d).1 = .error (.store s)) ∧
      (∀ b, (terminateDeviceSession f db U d).1 = .ok b →
        f .tdsDelete = false ∧
          (b = true → f .tdsFindUser = false ∧ f .tdsCommit = false ∧
            (mapHas (indexOf db U) d = true → f .tdsSave = false)))) ∧
    (validateUserSessionMap f db U = validateUserSessionMap noFaults db U ∨
      ∃ s, f s = true ∧ validateUserSessionMap f db U = (vusFailed (.store s), db)) :=
  ⟨⟨mpa_faults f jwt now db pd, mpa_ok_steps f jwt now db pd⟩,
   ⟨rad_faults f db U d, rad_ok_faults f db U d⟩,
   ⟨tus_faults f db U, tus_ok_faults f db U⟩,
   ⟨tds_faults f db U d, tds_ok_faults f db U d⟩,
   vus_faults f db U⟩

/-- Witness of C19 (amended): `SessionModel.find` of the reconciler rejects and every
other call goes through, in the state where the index of user `1` lists two orphans.
The login from `d1`, the revocation of `d1`, the termination of all sessions and the
termination of `d1` do not make that call and return their normal results; the
reconciler returns its failure object. -/
theorem store_failure_reaches_caller_witness :
    (exFaultFindSessions .mpaFindAccount = false ∧ exFaultFindSessions .mpaFindDevice = false ∧
      exFaultFindSessions .mpaIndexSet = false ∧ exFaultFindSessions .mpaUserUpdate = false ∧
      exFaultFindSessions .mpaCommit = false) ∧
    (exFaultFindSessions .radFindUser = false ∧ exFaultFindSessions .radDelete = false ∧
      exFaultFindSessions .radFindSessions = false ∧
      exFaultFindSessions .radUserUpdate = false ∧ exFaultFindSessions .radCommit = false) ∧
    (exFaultFindSessions .tusDeleteMany = false ∧ exFaultFindSessions .tusFindUser = false ∧
      exFaultFindSessions .tusCommit = false ∧
      ((findUserById exDbOrphan.users 1).isSome = true →
        exFaultFindSessions .tusSave = false)) ∧
    (exFaultFindSessions .tdsDelete = false ∧
      (true = true → exFaultFindSessions .tdsFindUser = false ∧
        exFaultFindSessions .tdsCommit = false ∧
        (mapHas (indexOf exDbOrphan 1) "d1" = true → exFaultFindSessions .tdsSave = false))) ∧
    (validateUserSessionMap exFaultFindSessions exDbOrphan 1 =
        validateUserSessionMap noFaults exDbOrphan 1 ∨
      ∃ s, exFaultFindSessions s = true ∧
        validateUserSessionMap exFaultFindSessions exDbOrphan 1 =
          (vusFailed (.store s), exDbOrphan)) :=
  ⟨(store_failure_reaches_caller exFaultFindSessions exJwt exNow exDbOrphan (exLogin "d1")
      1 "d1").1.2 exPayloadD1 (by decide),
   (store_failure_reaches_caller exFaultFindSessions exJwt exNow exDbOrphan (exLogin "d1")
      1 "d1").2.1.2 [("d2", "agent2")] (by decide),
   (store_failure_reaches_caller exFaultFindSessions exJwt exNow exDbOrphan (exLogin "d1")
      1 "d1").2.2.1.2 2 (by decide),
   (store_failure_reaches_caller exFaultFindSessions exJwt exNow exDbOrphan (exLogin "d1")
      1 "d1").2.2.2.1.2 true (by decide),
   (store_failure_reaches_caller exFaultFindSessions exJwt exNow exDbOrphan (exLogin "d1")
      1 "d1").2.2.2.2⟩

/-- C20. Guaranteed release.  In every run of `findAndRemoveLastInactiveDevice`,
`findAndRemoveOldestInactiveSession`, `revokeAuthDevice`, `terminateSession`,
`terminateUserSessions`, `terminateDeviceSession` and `validateUserSessionMap`, and in
every run of `manageProfileAccount` that gets as far as obtaining its transaction
session, whatever store calls are rejected and whether the `try` block returns,
returns early or throws, the calls made on the session contain `commitTransaction`
or `abortTransaction` and end with the one and only call of `endSession`. -/
theorem session_always_released (f : Faults) (jwt : JwtEnv) (now : Timestamp) (db : Db)
    (pd : ProfileData) (U : UserId) (d : DeviceID) (i : Nat) :
    (∀ calls, manageProfileAccountCalls f jwt now db pd = some calls → Released calls) ∧
    Released (tryCatchFinally (findAndRemoveLastInactiveDeviceTry f now db U)) ∧
    Released (tryCatchFinally (findAndRemoveOldestInactiveSessionTry f db U)) ∧
    Released (tryCatchFinally (revokeAuthDeviceTry f db U d)) ∧
    Released (tryCatchFinally (terminateSessionTry f db i)) ∧
    Released (tryCatchFinally (terminateUserSessionsTry f db U)) ∧
    Released (tryCatchFinally (terminateDeviceSessionTry f db U d)) ∧
    Released (tryCatchFinally (validateUserSessionMapTry f db U)) := by
  refine ⟨?_, tryCatchFinally_released _ (lidTry_shape f now db U),
    tryCatchFinally_released _ (oisTry_shape f db U),
    tryCatchFinally_released _ (radTry_shape f db U d),
    tryCatchFinally_released _ (tsTry_shape f db i),
    tryCatchFinally_released _ (tusTry_shape f db U),
    tryCatchFinally_released _ (tdsTry_shape f db U d),
    tryCatchFinally_released _ (vusTry_shape f db U)⟩
  intro calls h
  unfold manageProfileAccountCalls at h
  split at h
  · simp at h
  · split at h
    · simp at h
    · next acct _ =>
      split at h
      · simp at h
      · simp only [Option.some.injEq] at h
        rw [← h]
        exact tryCatchFinally_released _ (mpaTry_shape f jwt now db pd acct)

/-- Witness of C20: the login of user `1` from the new device `d6` commits and ends the
session; when `UserModel.findByIdAndUpdate` rejects, it aborts and ends the session;
terminating an unknown session id aborts, returns and ends the session. -/
theorem session_always_released_witness :
    manageProfileAccountCalls noFaults exJwt exNow exDb5 (exLogin "d6") =
      some [.commitTransaction, .endSession] ∧
    manageProfileAccountCalls exFaultUserUpdate exJwt exNow exDb5 (exLogin "d6") =
      some [.abortTransaction, .endSession] ∧
    tryCatchFinally (terminateSessionTry noFaults exDb5 99) =
      [.abortTransaction, .endSession] ∧
    Released [.commitTransaction, .endSession] ∧
    Released [.abortTransaction, .endSession] :=
  ⟨by decide, by decide, by decide,
   (session_always_released noFaults exJwt exNow exDb5 (exLogin "d6") 1 "d1" 99).1
     [.commitTransaction, .endSession] (by decide),
   (session_always_released exFaultUserUpdate exJwt exNow exDb5 (exLogin "d6") 1 "d1" 99).1
     [.abortTransaction, .endSession] (by decide)⟩

/-- C21. For an identity and a device that have a session record `s` (the only one,
by the unique index on `(user, device)`), `provideRenewAuthSession`, when its update
is not rejected and the access token minted by `generateAuthTokens` for this call is
a non-empty string, returns that new access token together with the refresh token
and the id of `s`; the session store afterwards is the one before with `s` replaced,
in place, by `s` with the new access token and every other field as it was, so no
record is created or deleted and no other record changes; the user documents, hence
every device index, are unchanged. -/
theorem renew_updates_access_token_only (f : Faults) (jwt : JwtEnv) (db : Db)
    (auth : AuthContext) (s : SessionRecord) (tok : String) (hwf : WF db)
    (hs : s ∈ db.sessions) (hu : s.user = auth.identity) (hd : s.device = auth.device)
    (hf : f .rasUpdate = false)
    (hmint : tok =
      (generateAuthTokens jwt auth.identity auth.platform auth.forSystem auth.device).accessToken)
    (htok : tok ≠ "") :
    (provideRenewAuthSession f jwt db auth).1 =
      .ok { identity := auth.identity, accessToken := tok, refreshToken := s.refreshToken,
            session := s.id, device := auth.device, type := auth.type } ∧
    (∃ front back, db.sessions = front ++ s :: back ∧
      (provideRenewAuthSession f jwt db auth).2.sessions =
        front ++ { s with accessToken := tok } :: back) ∧
    (provideRenewAuthSession f jwt db auth).2.sessions.length = db.sessions.length ∧
    (provideRenewAuthSession f jwt db auth).2.users = db.users ∧
    (∀ U, indexOf (provideRenewAuthSession f jwt db auth).2 U = indexOf db U) := by
  have hfind := find_isDeviceOf_of_mem db.sessions auth.identity auth.device s hwf.2.1 hs hu hd
  obtain ⟨front, back, h1, _, h3⟩ := updateOne_split (isDeviceOf auth.identity auth.device)
    (fun r => { r with accessToken := tok }) db.sessions s hfind
  have hreq : requiredStr tok = true := by
    simp [requiredStr, htok]
  have hrun : provideRenewAuthSession f jwt db auth =
      (.ok { identity := auth.identity, accessToken := tok, refreshToken := s.refreshToken,
             session := s.id, device := auth.device, type := auth.type },
        { db with
          sessions := updateOneSession (isDeviceOf auth.identity auth.device)
            (fun r => { r with accessToken := tok }) db.sessions }) := by
    unfold provideRenewAuthSession
    simp only [← hmint, hf, hreq, hfind, Bool.false_eq_true, if_false, Bool.not_true]
  rw [hrun]
  refine ⟨rfl, ⟨front, back, h1, h3⟩, ?_, rfl, fun U => rfl⟩
  simp only [h3]
  rw [h1]
  simp

/-- Witness of C21: user `1` renews on `d1`; the record keeps its refresh token and
gets the access token `A-d1`. -/
theorem renew_updates_access_token_only_witness :
    (provideRenewAuthSession noFaults exJwt exDb1
      { identity := 1, device := "d1", platform := "WEB", forSystem := false,
        type := ["CLIENT"] }).1 =
      .ok { identity := 1, accessToken := "A-d1",
            refreshToken := (exSession 1 "d1" (exNow - 10 * exHour)).refreshToken,
            session := 1, device := "d1", type := ["CLIENT"] } ∧
    (provideRenewAuthSession noFaults exJwt exDb1
      { identity := 1, device := "d1", platform := "WEB", forSystem := false,
        type := ["CLIENT"] }).2.sessions =
      [{ exSession 1 "d1" (exNow - 10 * exHour) with accessToken := "A-d1" }] ∧
    (provideRenewAuthSession noFaults exJwt exDb1
      { identity := 1, device := "d1", platform := "WEB", forSystem := false,
        type := ["CLIENT"] }).2.users = exDb1.users :=
  ⟨(renew_updates_access_token_only noFaults exJwt exDb1
      { identity := 1, device := "d1", platform := "WEB", forSystem := false,
        type := ["CLIENT"] } (exSession 1 "d1" (exNow - 10 * exHour)) "A-d1"
      (by decide) (by decide) rfl rfl rfl (by decide) (by decide)).1,
   by decide, by decide⟩

/-- C22, counterexample.  The refresh token `R-d9` is valid and its claims name
user `1` and device `d9`, and no session record matches `(1, d9)`.  First, a request
that sends it with the identity header `2` fails with `MALFORMED_AUTH_TOKEN`, not with
`REVOKED_REFRESH_TOKEN`.  Second, in a well-formed state where the record of `(1, d1)`
stores this token, the request with the identity header `1` does not fail: the guard finds the
record by `(user, refreshToken)`, never reads the device claim, and
`provideRenewAuthSession` writes a new access token into the record of `d1`, so the
session store changes. -/
theorem renew_lookup_ignores_device_claim :
    exVerify "R-d9" exJwtService.refreshSecret exJwtService.issuer = .ok (exClaims "d9") ∧
    (¬ ∃ s ∈ exDbRenew.sessions, s.user = 1 ∧ s.device = "d9") ∧
    (renewSession (fun _ => false) noFaults exVerify exJwtService exJwt false exDbRenew
      { authIdentity := some "2", authRefreshToken := some "R-d9" }).1 =
      .error (.guard (.api
        " The refresh token provided is unacceptable. Unable to renew your session. Please log in again."
        "MALFORMED_AUTH_TOKEN")) ∧
    WF exDbForeign ∧
    (¬ ∃ s ∈ exDbForeign.sessions, s.user = 1 ∧ s.device = "d9") ∧
    (renewSession (fun _ => false) noFaults exVerify exJwtService exJwt false exDbForeign
      { authIdentity := some "1", authRefreshToken := some "R-d9" }).1 =
      .ok { identity := 1, accessToken := "A-d1", refreshToken := "R-d9", session := 1,
            device := "d1", type := ["CLIENT"] } ∧
    (renewSession (fun _ => false) noFaults exVerify exJwtService exJwt false exDbForeign
      { authIdentity := some "1", authRefreshToken := some "R-d9" }).2 ≠ exDbForeign := by
  decide

/-- C22, amended.  A request carries both headers, its refresh token is valid (the
verifier returns `claims`) and the identity of `claims` is the one of the header
`x-auth-identity`.  When no session record of that identity stores the token as its
`refreshToken`, renewal, the guard followed by `provideRenewAuthSession`, fails in
every run and leaves the session store and the user documents unchanged, and the error
is `Refresh token is revoked. Please log in again.` with code `REVOKED_REFRESH_TOKEN`
when the session look-up is not rejected.  When a record `s` of that identity is the
one found by `(user, refreshToken)`, the account exists and the two reads of the guard
are not rejected, the guard lets the request through with the device and the platform
of `s`: the device claim of the token is not consulted. -/
theorem renew_unstored_token_fails (g : GuardStep → Bool) (f : Faults)
    (verify : String → String → String → Except JsError JwtClaims) (JWT : JwtService)
    (jwt : JwtEnv) (forSystem : Bool) (db : Db) (req : RefreshRequest)
    (idHeader tokenHeader : String) (claims : JwtClaims)
    (h1 : req.authIdentity = some idHeader) (h2 : req.authRefreshToken = some tokenHeader)
    (h3 : idHeader ≠ "") (h4 : tokenHeader ≠ "")
    (hvalid : verify (jsTrim tokenHeader) JWT.refreshSecret JWT.issuer = .ok claims)
    (hsame : showId claims.identity = jsTrim idHeader) :
    ((¬ ∃ s ∈ db.sessions, s.user = claims.identity ∧ s.refreshToken = jsTrim tokenHeader) →
      (renewSession g f verify JWT jwt forSystem db req).2 = db ∧
      (∃ e, (renewSession g f verify JWT jwt forSystem db req).1 = .error e) ∧
      (g .findSession = false →
        (renewSession g f verify JWT jwt forSystem db req).1 =
          .error (.guard (.api "Refresh token is revoked. Please log in again."
            "REVOKED_REFRESH_TOKEN")))) ∧
    (∀ s account,
      db.sessions.find? (fun r => r.user == claims.identity &&
        r.refreshToken == jsTrim tokenHeader) = some s →
      findUserById db.users claims.identity = some account →
      g .findSession = false → g .findAccount = false →
      RefreshTokenGuard g verify JWT forSystem db req =
        .ok { identity := claims.identity, device := s.device, platform := s.platform,
              forSystem := forSystem, type := userType account }) := by
  have hhdr : (!truthyStr req.authRefreshToken || !truthyStr req.authIdentity) = false := by
    rw [h1, h2]
    simp [truthyStr, h3, h4]
  have hne : (showId claims.identity != jsTrim idHeader) = false := by
    rw [hsame]; simp
  constructor
  · intro hnone
    have hfind : getProvideRefreshTokenSession db claims.identity (jsTrim tokenHeader) = none := by
      unfold getProvideRefreshTokenSession
      rw [List.find?_eq_none]
      intro s hs hc
      simp only [Bool.and_eq_true, beq_iff_eq] at hc
      exact hnone ⟨s, hs, hc.1, hc.2⟩
    have hguard : (∃ e, RefreshTokenGuard g verify JWT forSystem db req = .error e) ∧
        (g .findSession = false → RefreshTokenGuard g verify JWT forSystem db req =
          .error (.api "Refresh token is revoked. Please log in again."
            "REVOKED_REFRESH_TOKEN")) := by
      unfold RefreshTokenGuard JwtService.validateRefreshToken
      rw [hhdr, h1, h2]
      simp only [Option.getD_some, hvalid, hne, hfind, Bool.false_eq_true, if_false]
      by_cases hg : g .findSession = true
      · simp only [hg, if_true]
        exact ⟨⟨_, rfl⟩, fun h => by simp at h⟩
      · simp only [hg, if_false]
        exact ⟨⟨_, rfl⟩, fun _ => rfl⟩
    obtain ⟨⟨e, he⟩, hrev⟩ := hguard
    unfold renewSession
    refine ⟨by rw [he], ⟨_, by rw [he]⟩, ?_⟩
    intro hg
    rw [hrev hg]
  · intro s account hs hacc hg1 hg2
    unfold RefreshTokenGuard JwtService.validateRefreshToken getProvideRefreshTokenSession
      getAuthProfile
    rw [hhdr, h1, h2]
    simp only [Option.getD_some, hvalid, hne, hs, hacc, hg1, hg2, Bool.false_eq_true, if_false]

/-- Witness of C22 (amended): user `1` has one session, on `d1`, storing `R-d1`.  The
valid token `R-d9` is stored in no record, and renewal with it fails with
`REVOKED_REFRESH_TOKEN`; the token `R-d1` is found and the guard lets the request
through with the device of the record. -/
theorem renew_unstored_token_fails_witness :
    ((renewSession (fun _ => false) noFaults exVerify exJwtService exJwt false exDbRenew
        { authIdentity := some "1", authRefreshToken := some "R-d9" }).2 = exDbRenew ∧
      (∃ e, (renewSession (fun _ => false) noFaults exVerify exJwtService exJwt false exDbRenew
        { authIdentity := some "1", authRefreshToken := some "R-d9" }).1 = .error e) ∧
      ((fun _ => false) GuardStep.findSession = false →
        (renewSession (fun _ => false) noFaults exVerify exJwtService exJwt false exDbRenew
          { authIdentity := some "1", authRefreshToken := some "R-d9" }).1 =
          .error (.guard (.api "Refresh token is revoked. Please log in again."
            "REVOKED_REFRESH_TOKEN")))) ∧
    RefreshTokenGuard (fun _ => false) exVerify exJwtService false exDbRenew
        { authIdentity := some "1", authRefreshToken := some "R-d1" } =
      .ok { identity := 1, device := "d1", platform := "APP", forSystem := false,
            type := ["CLIENT"] } :=
  ⟨(renew_unstored_token_fails (fun _ => false) noFaults exVerify exJwtService exJwt false
      exDbRenew { authIdentity := some "1", authRefreshToken := some "R-d9" } "1" "R-d9"
      (exClaims "d9") rfl rfl (by decide) (by decide) (by decide) (by decide)).1 (by decide),
   (renew_unstored_token_fails (fun _ => false) noFaults exVerify exJwtService exJwt false
      exDbRenew { authIdentity := some "1", authRefreshToken := some "R-d1" } "1" "R-d1"
      (exClaims "d1") rfl rfl (by decide) (by decide) (by decide) (by decide)).2
      { exSession 1 "d1" (exNow - 10 * exHour) with
        accessToken := "A-d1", refreshToken := "R-d1" }
      (exUser [("d1", "agent")]) (by decide) (by decide) rfl rfl⟩

/-- C23. For every identity, platform, `forSystem` flag and device, in every state of
the process, `generateAuthTokens` returns, and the two payloads it hands to
`JwtProvider.sign` both contain those four values together with an `iat` and a `jti`;
the access token is signed with the access secret and the access expiry, the refresh
token with the refresh secret and the refresh expiry (both with `HS256` and the
platform name as issuer). -/
theorem tokens_embed_claims (cfg : JwtConfig) (sign : SignCall → String)
    (rand : RandomBytes) (clock : Nat → Int) (st : ProcState) (identity : UserId)
    (platform : String) (forSystem : Bool) (device : DeviceID) :
    ∃ iat jti st2,
      generateAuthTokensRun cfg sign rand clock st identity platform forSystem device =
        some ({ identity := identity, platform := platform,
                accessToken := sign
                  { payload := { identity := identity, platform := platform,
                                 forSystem := forSystem, device := device,
                                 iat := iat, jti := jti, noTimestamp := none },
                    secret := cfg.ACCESS_SECRET,
                    options := { algorithm := "HS256", issuer := cfg.PLATFORM_NAME,
                                 expiresIn := cfg.ACCESS_EXP, noTimestamp := some false } },
                refreshToken := sign
                  { payload := { identity := identity, platform := platform,
                                 forSystem := forSystem, device := device,
                                 iat := iat, jti := jti, noTimestamp := some false },
                    secret := cfg.REFRESH_SECRET,
                    options := { algorithm := "HS256", issuer := cfg.PLATFORM_NAME,
                                 expiresIn := cfg.REFRESH_EXP, noTimestamp := none } },
                device := device }, st2) := by
  obtain ⟨c0, p1, h0⟩ := generateUniqueCode_21 rand st.codegen
  obtain ⟨c1, p2, h1⟩ := generateUniqueCode_21 rand p1
  exact ⟨_, _, _, generateAuthTokensRun_eq cfg sign rand clock st identity platform forSystem
    device c0 c1 p1 p2 h0 h1⟩

/-- C24. One fresh token identity per issuance.  In a process whose module state of
`codegen.util.js` is as the code leaves it (`PoolWF`: true at load time and kept by
every call), a call of `generateAuthTokens` draws two codes: the constructor of
`JwtService` draws one from the window `(k0, p0)` of the random stream, and
`signAccessToken` draws the one spelt by the 21 bytes of the window `(k1, p1)`.  The
`jti` of the access token and of the refresh token is that second code, and both
carry the same `iat`, the second clock reading of the call.  None of the 21 bytes of
`(k1, p1)` was read before the call (so by no earlier call), none is a byte of the
window of the constructor, and all are consumed when the call returns, in a state
that satisfies `PoolWF` again: the bytes of every later draw are other bytes. -/
theorem token_identity_fresh_per_call (cfg : JwtConfig) (sign : SignCall → String)
    (rand : RandomBytes) (clock : Nat → Int) (st : ProcState) (identity : UserId)
    (platform : String) (forSystem : Bool) (device : DeviceID)
    (hwf : PoolWF rand st.codegen) :
    ∃ k0 p0 s1 k1 p1 s2,
      generateUniqueCode rand st.codegen 21 = some (codeOfBytes rand k0 p0 21, s1) ∧
      generateUniqueCode rand s1 21 = some (codeOfBytes rand k1 p1 21, s2) ∧
      generateAuthTokensRun cfg sign rand clock st identity platform forSystem device =
        some ({ identity := identity, platform := platform,
                accessToken := sign
                  { payload := { identity := identity, platform := platform,
                                 forSystem := forSystem, device := device,
                                 iat := clock (st.clockReads + 1),
                                 jti := codeOfBytes rand k1 p1 21, noTimestamp := none },
                    secret := cfg.ACCESS_SECRET,
                    options := { algorithm := "HS256", issuer := cfg.PLATFORM_NAME,
                                 expiresIn := cfg.ACCESS_EXP, noTimestamp := some false } },
                refreshToken := sign
                  { payload := { identity := identity, platform := platform,
                                 forSystem := forSystem, device := device,
                                 iat := clock (st.clockReads + 1),
                                 jti := codeOfBytes rand k1 p1 21,
                                 noTimestamp := some false },
                    secret := cfg.REFRESH_SECRET,
                    options := { algorithm := "HS256", issuer := cfg.PLATFORM_NAME,
                                 expiresIn := cfg.REFRESH_EXP, noTimestamp := none } },
                device := device },
              { codegen := s2, clockReads := st.clockReads + 2 }) ∧
      (∀ i, i < 21 → ¬ Consumed st.codegen k1 (p1 + i)) ∧
      (∀ i j, i < 21 → j < 21 → ¬ (k1 = k0 ∧ p1 + i = p0 + j)) ∧
      (∀ i, i < 21 → Consumed s2 k1 (p1 + i)) ∧
      (∀ k j, Consumed st.codegen k j → Consumed s2 k j) ∧
      PoolWF rand s2 := by
  obtain ⟨k0, p0, s1, h0, hwf1, _, hc0, hm0⟩ :=
    generateUniqueCode_window rand st.codegen 21 (by norm_num) hwf
  obtain ⟨k1, p1, s2, h1, hwf2, hn1, hc1, hm1⟩ :=
    generateUniqueCode_window rand s1 21 (by norm_num) hwf1
  simp only [Nat.cast_ofNat] at h0 h1
  refine ⟨k0, p0, s1, k1, p1, s2, h0, h1,
    generateAuthTokensRun_eq cfg sign rand clock st identity platform forSystem device
      _ _ s1 s2 h0 h1, ?_, ?_, hc1, ?_, hwf2⟩
  · intro i hi hc
    exact hn1 i hi (hm0 _ _ hc)
  · intro i j hi hj hc
    apply hn1 i hi
    rw [hc.1, hc.2]
    exact hc0 j hj
  · intro k j hc
    exact hm1 _ _ (hm0 _ _ hc)

/-- Witness of C24: the first call after load, with the random byte at position `j`
equal to `j`.  The constructor draws `ABCDEFGHIJKLMNOPQRSTU` (bytes `0 .. 20`), which
reaches no token; both tokens carry the `jti` `VWXYZabcdefghijklmnop` (bytes
`21 .. 41`). -/
theorem token_identity_fresh_per_call_witness :
    PoolWF exRand PoolState.initial ∧
    codeOfBytes exRand 0 0 21 = "ABCDEFGHIJKLMNOPQRSTU" ∧
    codeOfBytes exRand 0 21 21 = "VWXYZabcdefghijklmnop" ∧
    (generateUniqueCode exRand PoolState.initial 21).map (fun r => r.1) =
      some (codeOfBytes exRand 0 0 21) ∧
    (generateAuthTokensRun exJwtConfig exSign exRand (fun n => n)
        { codegen := PoolState.initial, clockReads := 0 } 1 "APP" false "d1").map
        (fun r => r.1) =
      some { identity := 1, platform := "APP",
             accessToken := "access-secret:VWXYZabcdefghijklmnop",
             refreshToken := "refresh-secret:VWXYZabcdefghijklmnop", device := "d1" } ∧
    (∃ k0 p0 s1 k1 p1 s2,
      generateUniqueCode exRand PoolState.initial 21 =
        some (codeOfBytes exRand k0 p0 21, s1) ∧
      generateUniqueCode exRand s1 21 = some (codeOfBytes exRand k1 p1 21, s2) ∧
      generateAuthTokensRun exJwtConfig exSign exRand (fun n => n)
          { codegen := PoolState.initial, clockReads := 0 } 1 "APP" false "d1" =
        some ({ identity := 1, platform := "APP",
                accessToken := exSign
                  { payload := { identity := 1, platform := "APP", forSystem := false,
                                 device := "d1", iat := (fun n => n) (0 + 1),
                                 jti := codeOfBytes exRand k1 p1 21, noTimestamp := none },
                    secret := exJwtConfig.ACCESS_SECRET,
                    options := { algorithm := "HS256", issuer := exJwtConfig.PLATFORM_NAME,
                                 expiresIn := exJwtConfig.ACCESS_EXP,
                                 noTimestamp := some false } },
                refreshToken := exSign
                  { payload := { identity := 1, platform := "APP", forSystem := false,
                                 device := "d1", iat := (fun n => n) (0 + 1),
                                 jti := codeOfBytes exRand k1 p1 21,
                                 noTimestamp := some false },
                    secret := exJwtConfig.REFRESH_SECRET,
                    options := { algorithm := "HS256", issuer := exJwtConfig.PLATFORM_NAME,
                                 expiresIn := exJwtConfig.REFRESH_EXP, noTimestamp := none } },
                device := "d1" },
              { codegen := s2, clockReads := 0 + 2 }) ∧
      (∀ i, i < 21 → ¬ Consumed PoolState.initial k1 (p1 + i)) ∧
      (∀ i j, i < 21 → j < 21 → ¬ (k1 = k0 ∧ p1 + i = p0 + j)) ∧
      (∀ i, i < 21 → Consumed s2 k1 (p1 + i)) ∧
      (∀ k j, Consumed PoolState.initial k j → Consumed s2 k j) ∧
      PoolWF exRand s2) := by
  have hfirst := generateUniqueCode_first exRand 21 (by norm_num)
  simp only [Nat.cast_ofNat] at hfirst
  have hsecond := generateUniqueCode_advance exRand
    { pool := some (randomFillSync exRand 0 (21 * 128)), poolIndex := 21, fills := 1 }
    0 (21 * 128) 21 21 (by norm_num) rfl rfl (by norm_num)
  simp only [Nat.cast_ofNat] at hsecond
  have hc0 : codeOfBytes exRand 0 0 21 = "ABCDEFGHIJKLMNOPQRSTU" := by decide
  have hc1 : codeOfBytes exRand 0 21 21 = "VWXYZabcdefghijklmnop" := by decide
  refine ⟨PoolWF_initial exRand, hc0, hc1, ?_, ?_,
    token_identity_fresh_per_call exJwtConfig exSign exRand (fun n => n)
      { codegen := PoolState.initial, clockReads := 0 } 1 "APP" false "d1"
      (PoolWF_initial exRand)⟩
  · rw [hfirst]; rfl
  · rw [generateAuthTokensRun_eq exJwtConfig exSign exRand (fun n => n)
      { codegen := PoolState.initial, clockReads := 0 } 1 "APP" false "d1" _ _ _ _
      hfirst hsecond]
    simp only [Option.map_some', hc1]
    decide

/-- C25, counterexample: the verifier throws `NotBeforeError`, the third error class of
the library.  `validateAccessToken` and `validateRefreshToken` fail and the error
leaving them is that very error, not a `ServiceError`: its name is not a key of
`jwtErrorMap`. -/
theorem validation_lets_other_errors_escape :
    exJwtService.validateAccessToken exVerifyNotBefore "token" =
      .error (.thrown { name := some "NotBeforeError", message := "jwt not active" }) ∧
    exJwtService.validateRefreshToken exVerifyNotBefore "token" =
      .error (.thrown { name := some "NotBeforeError", message := "jwt not active" }) ∧
    ¬ (∀ (verify : String → String → String → Except JsError JwtClaims) (JWT : JwtService)
        (token : String) (e : JwtFailure), JWT.validateAccessToken verify token = .error e →
        ∃ m, e = .serviceError "Jwt" m (some "EXPIRED_TOKEN") ∨
          e = .serviceError "Jwt" m (some "INVALID_TOKEN")) := by
  refine ⟨by decide, by decide, ?_⟩
  intro h
  obtain ⟨m, hm | hm⟩ := h exVerifyNotBefore exJwtService "token" _ rfl <;> cases hm

/-- C25, amended. `validateAccessToken` and `validateRefreshToken` fail exactly when the
verifier throws.  When the error thrown is named `TokenExpiredError` the error leaving
validation is a `ServiceError` of service `Jwt` with code `EXPIRED_TOKEN`, when it is
named `JsonWebTokenError` one with code `INVALID_TOKEN`; an error that has no name, or
a name that is no property of `jwtErrorMap` (`NotBeforeError` for one), leaves
validation as it was thrown. -/
theorem validation_error_mapping
    (verify : String → String → String → Except JsError JwtClaims) (JWT : JwtService)
    (token : String) (error : JsError) :
    (verify token JWT.accessSecret JWT.issuer = .error error →
      JWT.validateAccessToken verify token = .error (transformJwtError error)) ∧
    (verify token JWT.refreshSecret JWT.issuer = .error error →
      JWT.validateRefreshToken verify token = .error (transformJwtError error)) ∧
    (∀ claims, verify token JWT.accessSecret JWT.issuer = .ok claims →
      JWT.validateAccessToken verify token = .ok claims) ∧
    (∀ claims, verify token JWT.refreshSecret JWT.issuer = .ok claims →
      JWT.validateRefreshToken verify token = .ok claims) ∧
    (error.name = some "TokenExpiredError" →
      transformJwtError error =
        .serviceError "Jwt" (some "Unauthorized identity. Please login again.")
          (some "EXPIRED_TOKEN")) ∧
    (error.name = some "JsonWebTokenError" →
      transformJwtError error =
        .serviceError "Jwt" (some "Unauthorized identity. Please login again.")
          (some "INVALID_TOKEN")) ∧
    ((∀ name, error.name = some name →
        name ≠ "TokenExpiredError" ∧ name ≠ "JsonWebTokenError" ∧
        name ∉ objectPrototypeKeys) →
      transformJwtError error = .thrown error) := by
  refine ⟨?_, ?_, ?_, ?_, ?_, ?_, ?_⟩
  · intro h; simp [JwtService.validateAccessToken, h]
  · intro h; simp [JwtService.validateRefreshToken, h]
  · intro c h; simp [JwtService.validateAccessToken, h]
  · intro c h; simp [JwtService.validateRefreshToken, h]
  · intro h
    unfold transformJwtError
    rw [h]
    rfl
  · intro h
    unfold transformJwtError
    rw [h]
    rfl
  · intro h
    unfold transformJwtError
    cases hn : error.name with
    | none => rfl
    | some name =>
      obtain ⟨h1, h2, h3⟩ := h name hn
      have hl : jwtErrorMap.lookup name = none := by
        simp only [jwtErrorMap, List.lookup]
        have e1 : (name == "TokenExpiredError") = false := by simpa using h1
        have e2 : (name == "JsonWebTokenError") = false := by simpa using h2
        simp [e1, e2]
      have hc : objectPrototypeKeys.contains name = false := by
        simpa using h3
      simp only [hl, hc, Bool.false_eq_true, if_false]

/-- Witness of C25 (amended): a malformed token, an accepted token, and the three error
names of the library. -/
theorem validation_error_mapping_witness :
    exJwtService.validateAccessToken exVerify "garbage" =
      .error (transformJwtError { name := some "JsonWebTokenError", message := "jwt malformed" }) ∧
    exJwtService.validateRefreshToken exVerify "garbage" =
      .error (transformJwtError { name := some "JsonWebTokenError", message := "jwt malformed" }) ∧
    exJwtService.validateAccessToken exVerify "R-d1" = .ok (exClaims "d1") ∧
    exJwtService.validateRefreshToken exVerify "R-d1" = .ok (exClaims "d1") ∧
    transformJwtError { name := some "TokenExpiredError", message := "jwt expired" } =
      .serviceError "Jwt" (some "Unauthorized identity. Please login again.")
        (some "EXPIRED_TOKEN") ∧
    transformJwtError { name := some "JsonWebTokenError", message := "jwt malformed" } =
      .serviceError "Jwt" (some "Unauthorized identity. Please login again.")
        (some "INVALID_TOKEN") ∧
    transformJwtError { name := some "NotBeforeError", message := "jwt not active" } =
      .thrown { name := some "NotBeforeError", message := "jwt not active" } :=
  ⟨(validation_error_mapping exVerify exJwtService "garbage"
      { name := some "JsonWebTokenError", message := "jwt malformed" }).1 (by decide),
   (validation_error_mapping exVerify exJwtService "garbage"
      { name := some "JsonWebTokenError", message := "jwt malformed" }).2.1 (by decide),
   (validation_error_mapping exVerify exJwtService "R-d1"
      { name := some "TokenExpiredError", message := "jwt expired" }).2.2.1
      (exClaims "d1") (by decide),
   (validation_error_mapping exVerify exJwtService "R-d1"
      { name := some "TokenExpiredError", message := "jwt expired" }).2.2.2.1
      (exClaims "d1") (by decide),
   (validation_error_mapping exVerify exJwtService "R-d1"
      { name := some "TokenExpiredError", message := "jwt expired" }).2.2.2.2.1 rfl,
   (validation_error_mapping exVerify exJwtService "garbage"
      { name := some "JsonWebTokenError", message := "jwt malformed" }).2.2.2.2.2.1 rfl,
   (validation_error_mapping exVerifyNotBefore exJwtService "token"
      { name := some "NotBeforeError", message := "jwt not active" }).2.2.2.2.2.2
      (by
        intro name h
        simp only [Option.some.injEq] at h
        subst h
        decide)⟩

/-- C26, counterexample: user `1` has two sessions with the same `loginAt`, on the
devices `b` and `a`, both candidates of policy P1.  The query sorts by `loginAt` only.
On a store that scans in insertion order it returns the session of `b`, which is what
`findAndRemoveLastInactiveDevice` then removes, although `a` is the lexically smaller
device; on a store that scans the same two documents in the other order it returns the
session of `a`.  Both scans permute the documents, so the rule `lexically smallest
device` does not hold for every store the code may run on, and the same session set
does not always yield the same evicted device. -/
theorem eviction_tie_has_no_device_rule :
    ("a" : String) < "b" ∧
    exDbTie.sessions.filter (olderThan 1 (oneDayAgo exNow)) =
      [exSession 1 "b" (exNow - 30 * exHour), exSession 2 "a" (exNow - 30 * exHour)] ∧
    findOneSortedByLoginAt id (exDbTie.sessions.filter (olderThan 1 (oneDayAgo exNow))) =
      some (exSession 1 "b" (exNow - 30 * exHour)) ∧
    (findAndRemoveLastInactiveDevice noFaults exNow exDbTie 1).1 =
      .ok (some (exSession 1 "b" (exNow - 30 * exHour))) ∧
    findOneSortedByLoginAt List.reverse
        (exDbTie.sessions.filter (olderThan 1 (oneDayAgo exNow))) =
      some (exSession 2 "a" (exNow - 30 * exHour)) ∧
    (∀ l : List SessionRecord, (id l).Perm l) ∧
    (∀ l : List SessionRecord, (List.reverse l).Perm l) ∧
    ¬ (∀ scan : List SessionRecord → List SessionRecord, (∀ l, (scan l).Perm l) →
        ∀ s, findOneSortedByLoginAt scan
          (exDbTie.sessions.filter (olderThan 1 (oneDayAgo exNow))) = some s →
          s.device = "a") := by
  have hb : findOneSortedByLoginAt id
      (exDbTie.sessions.filter (olderThan 1 (oneDayAgo exNow))) =
      some (exSession 1 "b" (exNow - 30 * exHour)) := by decide
  refine ⟨String.lt_iff_toList_lt.2 (by decide), by decide, hb, by decide, by decide,
    fun l => List.Perm.refl l, fun l => List.reverse_perm l, ?_⟩
  intro h
  have hd := h id (fun l => List.Perm.refl l) _ hb
  revert hd
  decide

/-- C26, amended. Whenever `findAndRemoveLastInactiveDevice` (policy P1) or
`findAndRemoveOldestInactiveSession` (policy P2) removes a session, that session is a
candidate of the policy and no candidate has a smaller `loginAt`; and on every store,
whatever the order in which it hands the candidates to the sort, the query
`findOne(..).sort({ loginAt: 1 })` returns a candidate with that property whenever
there is a candidate.  Nothing more is fixed: the query has no device sort key, so
among candidates with identical smallest `loginAt` the choice is the store's. -/
theorem eviction_takes_a_least_loginAt (scan : List SessionRecord → List SessionRecord)
    (hperm : ∀ l, (scan l).Perm l) (f : Faults) (now : Timestamp) (db : Db) (o : UserId)
    (hwf : WF db) :
    (∀ l s, findOneSortedByLoginAt scan l = some s →
      s ∈ l ∧ ∀ t ∈ l, loginAtLt t.loginAt s.loginAt = false) ∧
    (∀ l, l ≠ [] → ∃ s, findOneSortedByLoginAt scan l = some s) ∧
    (∀ s, (findAndRemoveLastInactiveDevice f now db o).1 = .ok (some s) →
      s ∈ db.sessions.filter (olderThan o (oneDayAgo now)) ∧
      ∀ t ∈ db.sessions.filter (olderThan o (oneDayAgo now)),
        loginAtLt t.loginAt s.loginAt = false) ∧
    (∀ s, (findAndRemoveOldestInactiveSession f db o).1 = .ok (some s) →
      s ∈ db.sessions.filter (fun r => r.user == o) ∧
      ∀ t ∈ db.sessions.filter (fun r => r.user == o),
        loginAtLt t.loginAt s.loginAt = false) := by
  refine ⟨?_, ?_, ?_, ?_⟩
  · intro l s h
    unfold findOneSortedByLoginAt at h
    refine ⟨(hperm l).mem_iff.1 (oldestFirst_mem _ _ h), ?_⟩
    intro t ht
    exact oldestFirst_min _ _ h t ((hperm l).mem_iff.2 ht)
  · intro l hl
    obtain ⟨a, ha⟩ := List.exists_mem_of_ne_nil l hl
    unfold findOneSortedByLoginAt
    exact oldestFirst_isSome _ a ((hperm l).mem_iff.2 ha)
  · intro s h
    rcases lid_cases f now db o hwf with ⟨_, h1 | ⟨e, h1⟩⟩ | ⟨s1, h1, h2, _⟩
    · rw [h1] at h; cases h
    · rw [h1] at h; cases h
    · rw [h1] at h
      cases h
      exact ⟨oldestFirst_mem _ _ h2, oldestFirst_min _ _ h2⟩
  · intro s h
    rcases ois_cases f db o hwf with ⟨_, ⟨h1, _⟩ | ⟨e, h1, _⟩⟩ | ⟨s1, h1, h2, _⟩
    · rw [h1] at h; cases h
    · rw [h1] at h; cases h
    · rw [h1] at h
      cases h
      exact ⟨oldestFirst_mem _ _ h2, oldestFirst_min _ _ h2⟩

/-- Witness of C26 (amended): on the store that scans in reverse order, and in the
ties of `exDbTie` (policy P1) and `exDbTieRecent` (policy P2), the session returned is
a candidate and no candidate has a smaller `loginAt`. -/
theorem eviction_takes_a_least_loginAt_witness :
    (exSession 2 "a" (exNow - 30 * exHour) ∈
        exDbTie.sessions.filter (olderThan 1 (oneDayAgo exNow)) ∧
      ∀ t ∈ exDbTie.sessions.filter (olderThan 1 (oneDayAgo exNow)),
        loginAtLt t.loginAt (exSession 2 "a" (exNow - 30 * exHour)).loginAt = false) ∧
    (∃ s, findOneSortedByLoginAt List.reverse exDbTie.sessions = some s) ∧
    (exSession 1 "b" (exNow - 30 * exHour) ∈
        exDbTie.sessions.filter (olderThan 1 (oneDayAgo exNow)) ∧
      ∀ t ∈ exDbTie.sessions.filter (olderThan 1 (oneDayAgo exNow)),
        loginAtLt t.loginAt (exSession 1 "b" (exNow - 30 * exHour)).loginAt = false) ∧
    (exSession 1 "b" (exNow - 1 * exHour) ∈
        exDbTieRecent.sessions.filter (fun r => r.user == 1) ∧
      ∀ t ∈ exDbTieRecent.sessions.filter (fun r => r.user == 1),
        loginAtLt t.loginAt (exSession 1 "b" (exNow - 1 * exHour)).loginAt = false) :=
  ⟨(eviction_takes_a_least_loginAt List.reverse (fun l => List.reverse_perm l) noFaults exNow
      exDbTie 1 (by decide)).1 _ _ (by decide),
   (eviction_takes_a_least_loginAt List.reverse (fun l => List.reverse_perm l) noFaults exNow
      exDbTie 1 (by decide)).2.1 exDbTie.sessions (by decide),
   (eviction_takes_a_least_loginAt List.reverse (fun l => List.reverse_perm l) noFaults exNow
      exDbTie 1 (by decide)).2.2.1 _ (by decide),
   (eviction_takes_a_least_loginAt List.reverse (fun l => List.reverse_perm l) noFaults exNow
      exDbTieRecent 1 (by decide)).2.2.2 _ (by decide)⟩

/-- C27, the code at failing inputs.  The alphabet has 62 characters while `& 63`
yields 64 values, and an index of `62` or `63` appends nothing.  From the initial
module state: `generateUniqueCode(1)` returns the empty string when the random byte is
`62`; `generateUniqueCode(21)` returns a string of 19 characters when the bytes of the
pool are `60, 61, 62, 63, 64, ...` (the bytes `62` and `63` are skipped), and the
empty string when every byte is `255`. -/
theorem generateUniqueCode_shorter_than_size :
    RANDOM_POOL_ALPHABET.length = 62 ∧
    alphabetAt 62 = none ∧ alphabetAt 63 = none ∧
    (generateUniqueCode (fun _ _ => 62) PoolState.initial 1).map (fun r => r.1) = some "" ∧
    (generateUniqueCode (fun _ j => 60 + j) PoolState.initial 21).map (fun r => r.1) =
      some "89ABCDEFGHIJKLMNOPQ" ∧
    ("89ABCDEFGHIJKLMNOPQ" : String).length = 19 ∧
    (generateUniqueCode (fun _ _ => 255) PoolState.initial 21).map (fun r => r.1) =
      some "" := by
  refine ⟨by decide, by decide, by decide, ?_, ?_, by decide, ?_⟩
  · rw [show (1 : Int) = ((1 : Nat) : Int) from rfl,
      generateUniqueCode_initial _ 1 (by norm_num)]
    decide
  · rw [show (21 : Int) = ((21 : Nat) : Int) from rfl,
      generateUniqueCode_initial _ 21 (by norm_num)]
    decide
  · rw [show (21 : Int) = ((21 : Nat) : Int) from rfl,
      generateUniqueCode_initial _ 21 (by norm_num)]
    decide

/-- C28. The two-stage eviction is equivalent to a single stage.  For a user who has at
least one session record, all of whose records have a non-null `loginAt` and no two
the same, for every current time, when the store calls of the two helpers are not
rejected: `findAndRemoveLastInactiveDevice` followed, when it returns `null`, by
`findAndRemoveOldestInactiveSession` removes the session `e` with the smallest
`loginAt` of all the user's sessions and leaves the same database as
`findAndRemoveOldestInactiveSession` alone; the 24-hour filter does not change which
session is evicted. -/
theorem two_stage_eviction_is_oldest (f : Faults) (now : Timestamp) (db : Db) (o : UserId)
    (u : UserDoc) (hwf : WF db) (hu : findUserById db.users o = some u)
    (hne : ∃ s ∈ db.sessions, s.user = o)
    (hnn : ∀ s ∈ db.sessions, s.user = o → s.loginAt ≠ none)
    (hdist : ∀ s ∈ db.sessions, ∀ t ∈ db.sessions, s.user = o → t.user = o →
      s.loginAt = t.loginAt → s = t)
    (hlid : f .lidFind = false ∧ f .lidDelete = false ∧ f .lidFindUser = false ∧
      f .lidSave = false ∧ f .lidCommit = false)
    (hois : f .oisFind = false ∧ f .oisDelete = false ∧ f .oisFindUser = false ∧
      f .oisSave = false ∧ f .oisCommit = false) :
    ∃ e ∈ db.sessions, e.user = o ∧
      (∀ s ∈ db.sessions, s.user = o → s ≠ e → loginAtLt e.loginAt s.loginAt = true) ∧
      findAndRemoveOldestInactiveSession f db o = (.ok (some e), removeDevice db o e.device) ∧
      mpaEvict f now db o = (.ok e, removeDevice db o e.device) := by
  obtain ⟨s0, hs0, hs0u⟩ := hne
  have hs0f : s0 ∈ db.sessions.filter (fun s => s.user == o) := by
    rw [List.mem_filter]; exact ⟨hs0, by simp [hs0u]⟩
  obtain ⟨e, he⟩ := oldestFirst_isSome _ s0 hs0f
  have hem := oldestFirst_mem _ _ he
  rw [List.mem_filter] at hem
  have heu : e.user = o := by simpa using hem.2
  refine ⟨e, hem.1, heu, ?_, ois_eq_some f db o e u hwf hois he hu, ?_⟩
  · intro s hs hsu hse
    have hmin := oldestFirst_min _ _ he s (by rw [List.mem_filter]; exact ⟨hs, by simp [hsu]⟩)
    obtain ⟨te, hte⟩ := Option.ne_none_iff_exists'.1 (hnn e hem.1 heu)
    obtain ⟨ts, hts⟩ := Option.ne_none_iff_exists'.1 (hnn s hs hsu)
    rw [hte, hts] at hmin ⊢
    simp only [loginAtLt, decide_eq_false_iff_not, not_lt, decide_eq_true_eq] at hmin ⊢
    rcases lt_or_eq_of_le hmin with h | h
    · exact h
    · exact absurd (hdist s hs e hem.1 hsu heu (by rw [hte, hts, h])) hse
  · cases h1 : oldestFirst (db.sessions.filter (olderThan o (oneDayAgo now))) with
    | none =>
      exact mpaEvict_eq_P2 f now db o e u hwf ⟨hlid.1, hlid.2.2.2.2⟩ hois h1 he hu
    | some e1 =>
      have heq := oldestFirst_filter_eq db.sessions o (oneDayAgo now) e e1 hnn hdist he h1
      subst heq
      exact mpaEvict_eq_P1 f now db o e1 u hwf hlid h1 hu

/-- Witness of C28: user `1` has five sessions, the oldest (`d2`) thirty hours old; and
in the state where all five are younger than two hours the oldest is `d3`. -/
theorem two_stage_eviction_is_oldest_witness :
    mpaEvict noFaults exNow exDb5 1 =
      (.ok (exSession 2 "d2" (exNow - 30 * exHour)), removeDevice exDb5 1 "d2") ∧
    mpaEvict noFaults exNow exDbRecent 1 =
      (.ok (exSession 3 "d3" (exNow - 110 * exMinute)), removeDevice exDbRecent 1 "d3") ∧
    (∃ e ∈ exDb5.sessions, e.user = 1 ∧
      (∀ s ∈ exDb5.sessions, s.user = 1 → s ≠ e → loginAtLt e.loginAt s.loginAt = true) ∧
      findAndRemoveOldestInactiveSession noFaults exDb5 1 =
        (.ok (some e), removeDevice exDb5 1 e.device) ∧
      mpaEvict noFaults exNow exDb5 1 = (.ok e, removeDevice exDb5 1 e.device)) :=
  ⟨by decide, by decide,
   two_stage_eviction_is_oldest noFaults exNow exDb5 1 exAccount5 (by decide) (by decide)
     (by decide) (by decide) (by decide) ⟨rfl, rfl, rfl, rfl, rfl⟩ ⟨rfl, rfl, rfl, rfl, rfl⟩⟩

/-- C29. `revokeAuthDevice` decides `not found` from the session store alone: for an
existing user `U` and a device `d` that is a key of the index of `U` but has no
session record (an orphan entry), every run fails and leaves the whole database
unchanged, so `d` is still a key of the index of `U`; when the account look-up and
the delete are not rejected by the store the error is `Device not found or already
revoked.` with code `RESOURCE_NOT_FOUND`. -/
theorem revoke_orphan_entry_fails (f : Faults) (db : Db) (U : UserId) (d : DeviceID)
    (account : UserDoc) (hu : findUserById db.users U = some account)
    (hkey : d ∈ indexKeys db U)
    (hs : ¬ ∃ s ∈ db.sessions, s.user = U ∧ s.device = d) :
    (∃ e, (revokeAuthDevice f db U d).1 = .error e) ∧
    (f .radFindUser = false → f .radDelete = false →
      (revokeAuthDevice f db U d).1 =
        .error (.api "Device not found or already revoked." "RESOURCE_NOT_FOUND")) ∧
    (revokeAuthDevice f db U d).2 = db ∧
    d ∈ indexKeys (revokeAuthDevice f db U d).2 U := by
  have hany : db.sessions.any (isDeviceOf U d) = false := by
    rw [← Bool.not_eq_true, any_isDeviceOf]; exact hs
  have hdb : (revokeAuthDevice f db U d).2 = db := by
    unfold revokeAuthDevice
    split
    · rfl
    · rw [hu]
      simp only
      split
      · rfl
      · simp [hany]
  refine ⟨?_, ?_, hdb, by rw [hdb]; exact hkey⟩
  · unfold revokeAuthDevice
    split
    · exact ⟨_, rfl⟩
    · rw [hu]
      simp only
      split
      · exact ⟨_, rfl⟩
      · simp [hany]
  · intro h1 h2
    unfold revokeAuthDevice
    simp [h1, h2, hu, hany]

/-- Witness of C29: `d3` is a key of the index of user `1` without a session record;
revoking it fails and `d3` stays in the index. -/
theorem revoke_orphan_entry_fails_witness :
    (revokeAuthDevice noFaults exDbOrphan 1 "d3").1 =
      .error (.api "Device not found or already revoked." "RESOURCE_NOT_FOUND") ∧
    ((∃ e, (revokeAuthDevice noFaults exDbOrphan 1 "d3").1 = .error e) ∧
    (noFaults .radFindUser = false → noFaults .radDelete = false →
      (revokeAuthDevice noFaults exDbOrphan 1 "d3").1 =
        .error (.api "Device not found or already revoked." "RESOURCE_NOT_FOUND")) ∧
    (revokeAuthDevice noFaults exDbOrphan 1 "d3").2 = exDbOrphan ∧
    "d3" ∈ indexKeys (revokeAuthDevice noFaults exDbOrphan 1 "d3").2 1) :=
  ⟨by decide,
   revoke_orphan_entry_fails noFaults exDbOrphan 1 "d3"
    (exUser [("d3", "agent3"), ("d1", "agent1"), ("d4", "agent4"), ("d2", "agent2")])
    (by decide) (by decide) (by decide)⟩

/-- C30. The reconciler repairs drift in one direction only.  After a call of
`validateUserSessionMap` that reports success, for any user id and any state, every
key of the stored index has a session record of the user, and the mirror invariant I2
holds afterwards exactly when every device with a session record of the user was a
key of the index before the call: a record missing from the index is never added. -/
theorem reconcile_one_direction (f : Faults) (db : Db) (u : UserId)
    (hv : (validateUserSessionMap f db u).1.validated = true) :
    (∀ k ∈ indexKeys (validateUserSessionMap f db u).2 u,
      k ∈ sessionDevices (validateUserSessionMap f db u).2 u) ∧
    (I2 (validateUserSessionMap f db u).2 u ↔
      ∀ d ∈ sessionDevices db u, d ∈ indexKeys db u) ∧
    (∀ d ∈ sessionDevices db u, d ∉ indexKeys db u →
      d ∉ indexKeys (validateUserSessionMap f db u).2 u) := by
  have hss := vus_sessions f db u
  have hdev : sessionDevices (validateUserSessionMap f db u).2 u = sessionDevices db u := by
    unfold sessionDevices sessionsOf; rw [hss]
  -- the keys afterwards are the keys before that have a record
  have hkeys : ∀ k, k ∈ indexKeys (validateUserSessionMap f db u).2 u ↔
      k ∈ indexKeys db u ∧ k ∈ sessionDevices db u := by
    intro k
    by_cases hE : ∀ user, findUserById db.users u = some user → user.sessions = []
    · rw [vus_early f db u hE hv]
      have hnil : indexKeys db u = [] := by
        unfold indexKeys indexOf userIndex
        cases hfu : findUserById db.users u with
        | none => rfl
        | some user => simp [hE user hfu, mapKeys]
      simp [hnil]
    · push_neg at hE
      obtain ⟨user, hu, hne⟩ := hE
      have hidx : indexOf db u = user.sessions := by simp [indexOf, userIndex, hu]
      rw [vus_main f db u user hu hne hv]
      simp only
      split
      · unfold indexKeys
        simp only [indexOf, userIndex_save, hu, Option.isSome_some, if_true]
        rw [mem_mapKeys_foldl_mapDelete, mem_orphanKeys, mem_sessionDevices]
        unfold userIndex
        rw [hu]
        simp only
        constructor
        · rintro ⟨h1, h2⟩
          refine ⟨h1, ?_⟩
          by_contra hc
          exact h2 ⟨h1, hc⟩
        · rintro ⟨h1, h2⟩
          exact ⟨h1, fun hc => hc.2 h2⟩
      · next hz =>
        have hnil := List.length_eq_zero.1 (Nat.eq_zero_of_not_pos hz)
        constructor
        · intro hk
          refine ⟨hk, ?_⟩
          rw [mem_sessionDevices]
          by_contra hc
          have : k ∈ orphanKeys db.sessions u user.sessions := by
            rw [mem_orphanKeys]
            unfold indexKeys at hk
            rw [hidx] at hk
            exact ⟨hk, hc⟩
          rw [hnil] at this
          simp at this
        · exact fun h => h.1
  refine ⟨?_, ?_, ?_⟩
  · intro k hk
    rw [hdev]
    exact ((hkeys k).1 hk).2
  · unfold I2
    rw [hdev]
    constructor
    · rintro ⟨_, h2⟩ d hd
      exact ((hkeys d).1 (h2 d hd)).1
    · intro h
      exact ⟨fun k hk => ((hkeys k).1 hk).2, fun d hd => (hkeys d).2 ⟨h d hd, hd⟩⟩
  · intro d _ hd hc
    exact hd ((hkeys d).1 hc).1

/-- Witness of C30: the index of user `1` lists `d1` and the orphan `d3` and lacks `d2`,
which has a record; the reconciler drops `d3`, does not add `d2`, and I2 does not hold
afterwards. -/
theorem reconcile_one_direction_witness :
    indexKeys (validateUserSessionMap noFaults exDbMissing 1).2 1 = ["d1"] ∧
    sessionDevices exDbMissing 1 = ["d1", "d2"] ∧
    ¬ I2 (validateUserSessionMap noFaults exDbMissing 1).2 1 ∧
    ((∀ k ∈ indexKeys (validateUserSessionMap noFaults exDbMissing 1).2 1,
      k ∈ sessionDevices (validateUserSessionMap noFaults exDbMissing 1).2 1) ∧
    (I2 (validateUserSessionMap noFaults exDbMissing 1).2 1 ↔
      ∀ d ∈ sessionDevices exDbMissing 1, d ∈ indexKeys exDbMissing 1) ∧
    (∀ d ∈ sessionDevices exDbMissing 1, d ∉ indexKeys exDbMissing 1 →
      d ∉ indexKeys (validateUserSessionMap noFaults exDbMissing 1).2 1)) :=
  ⟨by decide, by decide, by decide,
   reconcile_one_direction noFaults exDbMissing 1 (by decide)⟩

end SessionEngine
